import Mathlib

/-!
# Attendance engine of the tutoring backend

A shallow embedding of `backend/controllers/attendanceController.js`,
`backend/controllers/feeController.js`, `backend/controllers/dashboardController.js`,
`backend/controllers/studentController.js`, `setBatch` and `deleteBatch` of
`backend/controllers/batchController.js` and `generateFeesForBatch` of
`mobile/src/screens/fees/FeeListScreen.js`, together with the Mongoose models they touch
(`Attendance`, `Student`, `Batch`, `Fees`).

Modelling decisions.
* A MongoDB collection is a `List` of documents in insertion order. `findOne`/`findById`
  return the first document that matches, `updateOne`/`save` rewrite the first document
  with the given `_id`.
* An `ObjectId` (and its `toString()`) is a natural number; a fresh one is larger than
  every `_id` already in the collection.
* A JavaScript `Date` is the number of milliseconds since the epoch, an `Int`; the server
  runs in a fixed-offset time zone, `tz` milliseconds ahead of UTC.
* The counters `totalClasses` and `presentClasses` are `Int`. `attendancePercentage` is a
  double, held as the rational number it stands for (`ℚ`); the handlers compute it with
  the correctly rounded division and multiplication of the section on JavaScript numbers.
* A request field that may be missing (`undefined`, or an empty string) is an `Option`.
* A handler returns an `Outcome`: the HTTP response, the list of operations it handed to
  `Student.bulkWrite`, and the store it leaves behind. An exception that escapes the
  handler after a write has been awaited leaves that write in the store.
* Amounts and fees are `Int`. `Date.now()` is the parameter `now` of a handler, and the
  month key `new Date().toISOString().slice(0, 7)` is the parameter `currentMonth`.
* Requests are served one after the other; the requests the mobile client sends in one
  `Promise.all` are served in the order of the list.
-/

namespace Teacher

/-- A MongoDB `ObjectId`. -/
abbrev ObjectId := Nat

/-- The `status` enum of `models/Student.js`. -/
inductive StudentStatus where
  | active
  | inactive
deriving DecidableEq, Repr

/-- Document of `models/Batch.js` (the fields the backend logic reads). -/
structure Batch where
  _id : ObjectId
  monthlyFee : Int
  createdBy : ObjectId
deriving DecidableEq, Repr

/-- Document of `models/Student.js` (the fields the backend logic reads). -/
structure Student where
  _id : ObjectId
  batchId : ObjectId
  status : StudentStatus
  totalClasses : Int
  presentClasses : Int
  attendancePercentage : ℚ
deriving DecidableEq, Repr

/-- Document of `models/Attendance.js`. -/
structure Attendance where
  _id : ObjectId
  batchId : ObjectId
  date : Int
  presentStudents : List ObjectId
  createdBy : ObjectId
deriving DecidableEq, Repr

/-- Document of `models/Fees.js`. `status` is a string: the `enum` of the schema is a
validator, which runs on `create` and not on `findByIdAndUpdate`. `paymentDate` is `none`
for `null` or a missing field. -/
structure Fee where
  _id : ObjectId
  studentId : ObjectId
  batchId : ObjectId
  month : String
  amount : Int
  status : String
  paymentDate : Option Int
deriving DecidableEq, Repr

/-- The four collections of the database. -/
structure Store where
  batches : List Batch
  students : List Student
  attendances : List Attendance
  fees : List Fee
deriving DecidableEq, Repr

/-- How a request can fail: 400 for a missing field (and for the batch that `deleteBatch`
does not find), 401, 404, 500 for an exception that no handler code anticipates (a
`TypeError`, a validation or duplicate-key error of the driver), and 400 with the message
that the record already exists. -/
inductive ErrorKind where
  | validation
  | unauthorized
  | notFound
  | serverError
  | conflict
deriving DecidableEq, Repr

/-- The HTTP responses of the attendance handlers. -/
inductive Response where
  | created (attendance : Attendance)
  | alreadyTaken (attendanceId : ObjectId)
  | updated (attendance : Attendance)
  | error (kind : ErrorKind)
deriving DecidableEq, Repr

/-- One `updateOne` entry of a `Student.bulkWrite`: the `_id` of the filter and the
fields of `$set` (`markAttendance` sets `totalClasses`, `updateAttendance` does not). -/
structure UpdateOne where
  filterId : ObjectId
  totalClasses : Option Int
  presentClasses : Int
  attendancePercentage : ℚ
deriving DecidableEq, Repr

/-- What a handler did: its response, the operations submitted to `Student.bulkWrite`,
and the resulting store. -/
structure Outcome where
  response : Response
  writes : List UpdateOne
  store : Store
deriving DecidableEq, Repr

/-! ## Dates -/

/-- Milliseconds in a day. -/
def msPerDay : Int := 86400000

/-- `Date.prototype.setHours(h, m, s, ms)` on the timestamp `t`: the local calendar day
of `t` is kept and the time of day is replaced. -/
def setHours (tz t h m s ms : Int) : Int :=
  t - (t + tz) % msPerDay + (((h * 60 + m) * 60 + s) * 1000 + ms)

/-- `new Date(d.setHours(0, 0, 0, 0))`. -/
def startOfDay (tz date : Int) : Int := setHours tz date 0 0 0 0

/-- `new Date(d.setHours(23, 59, 59, 999))`, evaluated after `d` has been moved to the
start of its day by the preceding `setHours` call on the same object. -/
def endOfDay (tz date : Int) : Int := setHours tz (startOfDay tz date) 23 59 59 999

/-! ## Collection primitives -/

/-- JavaScript `x || 0` on a number. -/
def orZero (x : Int) : Int := if x = 0 then 0 else x

/-- `Batch.findById`. -/
def Batch.findById (batches : List Batch) (id : ObjectId) : Option Batch :=
  batches.find? (fun b => b._id = id)

/-- `Student.findById`. -/
def Student.findById (students : List Student) (id : ObjectId) : Option Student :=
  students.find? (fun st => st._id = id)

/-- `Attendance.findById`. -/
def Attendance.findById (attendances : List Attendance) (id : ObjectId) : Option Attendance :=
  attendances.find? (fun a => a._id = id)

/-- `Attendance.findOne` on `batchId` and the date range `$gte`..`$lte`. -/
def Attendance.findOne (attendances : List Attendance) (batchId : ObjectId) (gte lte : Int) :
    Option Attendance :=
  attendances.find? (fun a => a.batchId = batchId ∧ gte ≤ a.date ∧ a.date ≤ lte)

/-- A fresh `ObjectId` for the collection. -/
def freshId (ids : List ObjectId) : ObjectId := ids.foldr max 0 + 1

/-- `Attendance.create`: rejected by the unique index on `(batchId, date)` when a
document with the same pair exists; otherwise the document is appended. A missing
`presentStudents` is stored as the empty array. -/
def Attendance.create (attendances : List Attendance) (batchId : ObjectId) (date : Int)
    (presentStudents : Option (List ObjectId)) (createdBy : ObjectId) :
    Option (Attendance × List Attendance) :=
  if attendances.any (fun a => a.batchId = batchId ∧ a.date = date) then none
  else
    let attendance : Attendance :=
      ⟨freshId (attendances.map Attendance._id), batchId, date, presentStudents.getD [], createdBy⟩
    some (attendance, attendances ++ [attendance])

/-- `attendance.save()` after `attendance.presentStudents = presentStudents`: the first
document with the `_id` gets the new array (the empty one when it is `undefined`). -/
def Attendance.save (id : ObjectId) (presentStudents : Option (List ObjectId)) :
    List Attendance → List Attendance
  | [] => []
  | a :: rest =>
    if a._id = id then
      ⟨a._id, a.batchId, a.date, presentStudents.getD [], a.createdBy⟩ :: rest
    else a :: Attendance.save id presentStudents rest

/-- `Student.find` on `batchId` and `status: active`. -/
def Student.find (students : List Student) (batchId : ObjectId) : List Student :=
  students.filter (fun st => st.batchId = batchId ∧ st.status = StudentStatus.active)

/-- The `$set` of an `updateOne` applied to a document. -/
def UpdateOne.set (op : UpdateOne) (st : Student) : Student :=
  ⟨st._id, st.batchId, st.status, op.totalClasses.getD st.totalClasses, op.presentClasses,
    op.attendancePercentage⟩

/-- One `updateOne` of a bulk write: the first document whose `_id` equals the filter. -/
def Student.updateOne (op : UpdateOne) : List Student → List Student
  | [] => []
  | st :: rest =>
    if st._id = op.filterId then op.set st :: rest else st :: Student.updateOne op rest

/-- `Student.bulkWrite(bulkOps)`: the operations are applied in order. -/
def Student.bulkWrite (bulkOps : List UpdateOne) (students : List Student) : List Student :=
  bulkOps.foldl (fun acc op => Student.updateOne op acc) students

/-! ## JavaScript numbers

The counters are integers; the percentage is computed from them in IEEE-754 double
arithmetic. A finite double is written as a pair `(m, e)` of integers standing for
`m * 2 ^ e`, and each operation returns the double nearest to the exact result, ties going
to the even mantissa. The exponent range (overflow, subnormal numbers) is not modelled:
quotients and percentages of counters below `2 ^ 53` stay far inside it. -/

/-- The integer nearest to `N / D`, a tie going to the even one. -/
def roundHalfEven (N D : Nat) : Nat :=
  let q := N / D
  let r := N % D
  if 2 * r < D then q
  else if D < 2 * r then q + 1
  else if q % 2 = 0 then q else q + 1

/-- Position of the leading binary digit, by halving. -/
def log2Fuel : Nat → Nat → Nat
  | 0, _ => 0
  | fuel + 1, n => if n < 2 then 0 else log2Fuel fuel (n / 2) + 1

/-- Position of the leading binary digit of `n`: `2 ^ log2 n ≤ n < 2 ^ (log2 n + 1)`. -/
def log2 (n : Nat) : Nat := log2Fuel n n

/-- The binary exponent of the positive fraction `n / d`: the `L` with
`2 ^ L ≤ n / d < 2 ^ (L + 1)`. -/
def floorLog2 (n d : Nat) : Int :=
  let k : Int := (log2 n : Int) - (log2 d : Int)
  if d * 2 ^ k.toNat ≤ n * 2 ^ (-k).toNat then k else k - 1

/-- The double nearest to the positive fraction `n / d`: a mantissa of 53 binary digits
and its exponent. -/
def roundDouble (n d : Nat) : Nat × Int :=
  let e : Int := floorLog2 n d - 52
  (roundHalfEven (n * 2 ^ (-e).toNat) (d * 2 ^ e.toNat), e)

/-- JavaScript `a / b` for two integers, `b` not zero (the handlers test the divisor
first). -/
def jsDiv (a b : Int) : Int × Int :=
  if a = 0 ∨ b = 0 then (0, 0)
  else
    let r := roundDouble a.natAbs b.natAbs
    (a.sign * b.sign * r.1, r.2)

/-- JavaScript `x * c` for a double `x` and an integer `c`. -/
def jsMul (x : Int × Int) (c : Int) : Int × Int :=
  if x.1 = 0 ∨ c = 0 then (0, 0)
  else
    let r := roundDouble (x.1.natAbs * c.natAbs * 2 ^ x.2.toNat) (2 ^ (-x.2).toNat)
    (x.1.sign * c.sign * r.1, r.2)

/-- The rational number a double stands for, `m * 2 ^ e`. -/
def doubleValue (x : Int × Int) : ℚ :=
  if 0 ≤ x.2 then ((x.1 * 2 ^ x.2.toNat : Int) : ℚ) else mkRat x.1 (2 ^ (-x.2).toNat)

/-- JavaScript `(present / total) * 100`, the expression both handlers store as
`attendancePercentage`. -/
def jsPercentage (present total : Int) : ℚ := doubleValue (jsMul (jsDiv present total) 100)

/-! ## `markAttendance` -/

/-- Body of the `students.map` callback of `markAttendance`. -/
def markOp (presentStudents : List ObjectId) (student : Student) : UpdateOne :=
  let isPresent : Bool := presentStudents.contains student._id
  let newTotal : Int := orZero student.totalClasses + 1
  let newPresent : Int := orZero student.presentClasses + (if isPresent then 1 else 0)
  let newPercentage : ℚ := if newTotal = 0 then 0 else jsPercentage newPresent newTotal
  ⟨student._id, some newTotal, newPresent, newPercentage⟩

/-- The `bulkOps` of `markAttendance`. With `presentStudents` undefined the first
callback invocation throws a `TypeError` (`none`); with no student the callback never
runs. -/
def markBulkOps (students : List Student) : Option (List ObjectId) → Option (List UpdateOne)
  | some presentStudents => some (students.map (markOp presentStudents))
  | none => if students.isEmpty then some [] else none

/-- `markAttendance` (POST /api/attendance/mark) for the authenticated teacher `user`. -/
def markAttendance (tz : Int) (s : Store) (user : ObjectId) (batchId : Option ObjectId)
    (date : Option Int) (presentStudents : Option (List ObjectId)) : Outcome :=
  match batchId, date with
  | some batchId, some date =>
    let attendanceDate := endOfDay tz date
    match Attendance.findOne s.attendances batchId (startOfDay tz date) (endOfDay tz date) with
    | some existingAttendance => ⟨Response.alreadyTaken existingAttendance._id, [], s⟩
    | none =>
      match Batch.findById s.batches batchId with
      | none => ⟨Response.error ErrorKind.notFound, [], s⟩
      | some batch =>
        if batch.createdBy ≠ user then ⟨Response.error ErrorKind.unauthorized, [], s⟩
        else
          match Attendance.create s.attendances batchId attendanceDate presentStudents user with
          | none => ⟨Response.error ErrorKind.serverError, [], s⟩
          | some (attendance, attendances) =>
            let students := Student.find s.students batchId
            match markBulkOps students presentStudents with
            | none =>
              ⟨Response.error ErrorKind.serverError, [], ⟨s.batches, s.students, attendances, s.fees⟩⟩
            | some bulkOps =>
              ⟨Response.created attendance, bulkOps,
                ⟨s.batches,
                  if 0 < bulkOps.length then Student.bulkWrite bulkOps s.students else s.students,
                  attendances, s.fees⟩⟩
  | _, _ => ⟨Response.error ErrorKind.validation, [], s⟩

/-! ## `updateAttendance` -/

/-- Body of the `students.map` callback of `updateAttendance`; `none` is the `null` the
callback returns for a student whose presence did not change. -/
def updateOp (oldPresentStudents newPresentStudents : List ObjectId) (student : Student) :
    Option UpdateOne :=
  let wasPresent : Bool := oldPresentStudents.contains student._id
  let isPresent : Bool := newPresentStudents.contains student._id
  if wasPresent = isPresent then none
  else
    let c0 : Int := orZero student.presentClasses
    let c1 : Int := if wasPresent && !isPresent then c0 - 1 else c0
    let newPresentCount : Int := if !wasPresent && isPresent then c1 + 1 else c1
    let total : Int := orZero student.totalClasses
    let newPercentage : ℚ := if total = 0 then 0 else jsPercentage newPresentCount total
    some ⟨student._id, none, newPresentCount, newPercentage⟩

/-- The `bulkOps` of `updateAttendance` (`map` followed by the `filter` that drops the
`null`s). With the new `presentStudents` undefined the first callback invocation throws a
`TypeError` (`none`). -/
def updateBulkOps (students : List Student) (oldPresentStudents : List ObjectId) :
    Option (List ObjectId) → Option (List UpdateOne)
  | some newPresentStudents =>
    some (students.filterMap (updateOp oldPresentStudents newPresentStudents))
  | none => if students.isEmpty then some [] else none

/-- `updateAttendance` (PUT /api/attendance/update/:id) for the authenticated teacher
`user`. Reading `batch.createdBy` of a batch that does not exist throws a `TypeError`. -/
def updateAttendance (s : Store) (user : ObjectId) (attendanceId : ObjectId)
    (presentStudents : Option (List ObjectId)) : Outcome :=
  match Attendance.findById s.attendances attendanceId with
  | none => ⟨Response.error ErrorKind.notFound, [], s⟩
  | some attendance =>
    match Batch.findById s.batches attendance.batchId with
    | none => ⟨Response.error ErrorKind.serverError, [], s⟩
    | some batch =>
      if batch.createdBy ≠ user then ⟨Response.error ErrorKind.unauthorized, [], s⟩
      else
        let oldPresentStudents := attendance.presentStudents
        let attendances := Attendance.save attendanceId presentStudents s.attendances
        let students := Student.find s.students attendance.batchId
        match updateBulkOps students oldPresentStudents presentStudents with
        | none =>
          ⟨Response.error ErrorKind.serverError, [], ⟨s.batches, s.students, attendances, s.fees⟩⟩
        | some bulkOps =>
          ⟨Response.updated
              ⟨attendance._id, attendance.batchId, attendance.date, presentStudents.getD [],
                attendance.createdBy⟩,
            bulkOps,
            ⟨s.batches,
              if 0 < bulkOps.length then Student.bulkWrite bulkOps s.students else s.students,
              attendances, s.fees⟩⟩

/-! ## `checkAttendanceStatus` -/

/-- The responses of `checkAttendanceStatus`. -/
inductive StatusResponse where
  | taken (attendance : Attendance)
  | notTaken
  | error (kind : ErrorKind)
deriving DecidableEq, Repr

/-- `checkAttendanceStatus` (GET /api/attendance/status) for the authenticated teacher
`user` at time `now`; a missing `date` stands for today. The handler returns the response
and the store it leaves behind. -/
def checkAttendanceStatus (tz now : Int) (s : Store) (_user : ObjectId)
    (batchId : Option ObjectId) (date : Option Int) : StatusResponse × Store :=
  match batchId with
  | none => (StatusResponse.error ErrorKind.validation, s)
  | some batchId =>
    let checkDate := date.getD now
    match Attendance.findOne s.attendances batchId (startOfDay tz checkDate)
        (endOfDay tz checkDate) with
    | some attendance => (StatusResponse.taken attendance, s)
    | none => (StatusResponse.notTaken, s)

/-! ## Fee ledger: `addFee` and `updateFee` -/

/-- The responses of the fee handlers. -/
inductive FeeResponse where
  | ok (fee : Fee)
  | error (kind : ErrorKind)
deriving DecidableEq, Repr

/-- What a fee handler did: its response and the resulting store. -/
structure FeeOutcome where
  response : FeeResponse
  store : Store
deriving DecidableEq, Repr

/-- `Fees.findById`. -/
def Fees.findById (fees : List Fee) (id : ObjectId) : Option Fee :=
  fees.find? (fun f => f._id = id)

/-- `Fees.findOne` on `studentId` and `month`. -/
def Fees.findOne (fees : List Fee) (studentId : ObjectId) (month : String) : Option Fee :=
  fees.find? (fun f => f.studentId = studentId ∧ f.month = month)

/-- The `enum` of the `status` path of `models/Fees.js`. -/
def feeStatusEnum : List String := ["paid", "unpaid"]

/-- JavaScript `status || 'unpaid'` on a string that may be missing. -/
def orUnpaid : Option String → String
  | none => "unpaid"
  | some status => if status = "" then "unpaid" else status

/-- `Fees.create`: rejected by the `enum` validator of `status` and by the unique index on
`(studentId, month)`; otherwise the document is appended. -/
def Fees.create (fees : List Fee) (studentId batchId : ObjectId) (month : String)
    (amount : Int) (status : String) (paymentDate : Option Int) : Option (Fee × List Fee) :=
  if ¬ status ∈ feeStatusEnum then none
  else if fees.any (fun f => f.studentId = studentId ∧ f.month = month) then none
  else
    let fee : Fee :=
      ⟨freshId (fees.map Fee._id), studentId, batchId, month, amount, status, paymentDate⟩
    some (fee, fees ++ [fee])

/-- `addFee` (POST /api/fees) for the authenticated teacher `user` at time `now`. A field
is `none` when the body lacks it; an empty `month` and an `amount` of zero are falsy as
well. -/
def addFee (now : Int) (s : Store) (user : ObjectId) (studentId batchId : Option ObjectId)
    (month : Option String) (amount : Option Int) (status : Option String) : FeeOutcome :=
  match studentId with
  | none => ⟨FeeResponse.error ErrorKind.validation, s⟩
  | some studentId =>
    match batchId with
    | none => ⟨FeeResponse.error ErrorKind.validation, s⟩
    | some batchId =>
      match month with
      | none => ⟨FeeResponse.error ErrorKind.validation, s⟩
      | some month =>
        match amount with
        | none => ⟨FeeResponse.error ErrorKind.validation, s⟩
        | some amount =>
          if month = "" ∨ amount = 0 then ⟨FeeResponse.error ErrorKind.validation, s⟩
          else
            match Batch.findById s.batches batchId with
            | none => ⟨FeeResponse.error ErrorKind.unauthorized, s⟩
            | some batch =>
              if batch.createdBy ≠ user then ⟨FeeResponse.error ErrorKind.unauthorized, s⟩
              else
                match Fees.findOne s.fees studentId month with
                | some _ => ⟨FeeResponse.error ErrorKind.conflict, s⟩
                | none =>
                  match Fees.create s.fees studentId batchId month amount (orUnpaid status)
                      (if status = some "paid" then some now else none) with
                  | none => ⟨FeeResponse.error ErrorKind.serverError, s⟩
                  | some (fee, fees) =>
                    ⟨FeeResponse.ok fee, ⟨s.batches, s.students, s.attendances, fees⟩⟩

/-- The body of an `updateFee` request, restricted to the paths of the schema (other
fields are dropped by the strict mode of the model). A path is `none` when the body lacks
it; `paymentDate` may be present and `null`. -/
structure FeePatch where
  studentId : Option ObjectId
  batchId : Option ObjectId
  month : Option String
  amount : Option Int
  status : Option String
  paymentDate : Option (Option Int)
deriving DecidableEq, Repr

/-- The `$set` of the body applied to a document. -/
def FeePatch.apply (body : FeePatch) (fee : Fee) : Fee :=
  ⟨fee._id, body.studentId.getD fee.studentId, body.batchId.getD fee.batchId,
    body.month.getD fee.month, body.amount.getD fee.amount, body.status.getD fee.status,
    body.paymentDate.getD fee.paymentDate⟩

/-- Writing a document back: the first document with the `_id` is replaced. -/
def Fees.replace (fee : Fee) : List Fee → List Fee
  | [] => []
  | f :: rest => if f._id = fee._id then fee :: rest else f :: Fees.replace fee rest

/-- `Fees.findByIdAndUpdate(id, body, new: true)` for the document `fee` that `findById`
has just returned for the id. Update validators are off, so only the unique index on
`(studentId, month)` can reject the write (`none`): it does when the pair changes to one
that a document of the collection already has. -/
def Fees.findByIdAndUpdate (fees : List Fee) (fee : Fee) (body : FeePatch) :
    Option (Fee × List Fee) :=
  let updatedFee := body.apply fee
  if (updatedFee.studentId ≠ fee.studentId ∨ updatedFee.month ≠ fee.month)
      ∧ fees.any (fun f => f.studentId = updatedFee.studentId ∧ f.month = updatedFee.month)
  then none
  else some (updatedFee, Fees.replace updatedFee fees)

/-- `updateFee` (PUT /api/fees/:id) for the authenticated teacher `user` at time `now`.
Reading `batch.createdBy` of a batch that does not exist throws a `TypeError`. -/
def updateFee (now : Int) (s : Store) (user : ObjectId) (id : ObjectId) (body : FeePatch) :
    FeeOutcome :=
  match Fees.findById s.fees id with
  | none => ⟨FeeResponse.error ErrorKind.notFound, s⟩
  | some fee =>
    match Batch.findById s.batches fee.batchId with
    | none => ⟨FeeResponse.error ErrorKind.serverError, s⟩
    | some batch =>
      if batch.createdBy ≠ user then ⟨FeeResponse.error ErrorKind.unauthorized, s⟩
      else
        match Fees.findByIdAndUpdate s.fees fee body with
        | none => ⟨FeeResponse.error ErrorKind.serverError, s⟩
        | some (updatedFee, fees) =>
          if body.status = some "paid" ∧ fee.paymentDate = none then
            let stamped : Fee :=
              ⟨updatedFee._id, updatedFee.studentId, updatedFee.batchId, updatedFee.month,
                updatedFee.amount, updatedFee.status, some now⟩
            ⟨FeeResponse.ok stamped,
              ⟨s.batches, s.students, s.attendances, Fees.replace stamped fees⟩⟩
          else ⟨FeeResponse.ok updatedFee, ⟨s.batches, s.students, s.attendances, fees⟩⟩

/-! ## Fee generation of the mobile client -/

/-- The responses of `getStudents`. -/
inductive StudentsResponse where
  | ok (students : List Student)
  | error (kind : ErrorKind)
deriving DecidableEq, Repr

/-- `getStudents` (GET /api/students) for the authenticated teacher `user`, with the
optional `batchId` of the query string. -/
def getStudents (s : Store) (user : ObjectId) (batchId : Option ObjectId) : StudentsResponse :=
  match batchId with
  | none => StudentsResponse.ok s.students
  | some batchId =>
    match Batch.findById s.batches batchId with
    | some batch =>
      if batch.createdBy ≠ user then StudentsResponse.error ErrorKind.unauthorized
      else StudentsResponse.ok (s.students.filter (fun st => st.batchId = batchId))
    | none => StudentsResponse.ok (s.students.filter (fun st => st.batchId = batchId))

/-- One iteration of the loop of `generateFeesForBatch`: the POST for one student, with
`count` raised when it succeeds and the failure swallowed when it does not. -/
def generateStep (now : Int) (user : ObjectId) (selectedBatch : Batch) (selectedMonth : String)
    (acc : Nat × Store) (student : Student) : Nat × Store :=
  match (addFee now acc.2 user (some student._id) (some selectedBatch._id) (some selectedMonth)
      (some selectedBatch.monthlyFee) none).response with
  | FeeResponse.ok _ =>
    (acc.1 + 1, (addFee now acc.2 user (some student._id) (some selectedBatch._id)
      (some selectedMonth) (some selectedBatch.monthlyFee) none).store)
  | FeeResponse.error _ =>
    (acc.1, (addFee now acc.2 user (some student._id) (some selectedBatch._id)
      (some selectedMonth) (some selectedBatch.monthlyFee) none).store)

/-- `generateFeesForBatch` of `FeeListScreen.js` for the logged-in teacher `user`, the
batch and the month selected on the screen: the students of the batch are fetched and a
fee is posted for each, one request after the other. The result is the reported count
(`none` for the failure alert) and the store the requests leave behind. -/
def generateFeesForBatch (now : Int) (s : Store) (user : ObjectId) (selectedBatch : Batch)
    (selectedMonth : String) : Option Nat × Store :=
  match getStudents s user (some selectedBatch._id) with
  | StudentsResponse.error _ => (none, s)
  | StudentsResponse.ok students =>
    let result := students.foldl (generateStep now user selectedBatch selectedMonth) (0, s)
    (some result.1, result.2)

/-! ## `getDashboardStats` -/

/-- The body of the response of `getDashboardStats`. -/
structure DashboardStats where
  totalBatches : Nat
  totalStudents : Nat
  month : String
  expected : Int
  collected : Int
  pending : Int
deriving DecidableEq, Repr

/-- The `batchFeeMap` object after the `forEach` over the batches: a later batch with the
same key overwrites an earlier one. -/
def batchFeeMap (batches : List Batch) : ObjectId → Option Int :=
  batches.foldl (fun m b => fun key => if key = b._id then some b.monthlyFee else m key)
    (fun _ => none)

/-- `getDashboardStats` (GET /api/dashboard) for the authenticated teacher `teacherId`;
`currentMonth` is `new Date().toISOString().slice(0, 7)`. -/
def getDashboardStats (currentMonth : String) (s : Store) (teacherId : ObjectId) :
    DashboardStats :=
  let batches := s.batches.filter (fun b => b.createdBy = teacherId)
  let batchIds := batches.map Batch._id
  let totalBatches := batches.length
  let students := s.students.filter (fun st => batchIds.contains st.batchId)
  let totalStudents := students.length
  let totalExpected : Int :=
    students.foldl
      (fun acc st =>
        if st.status = StudentStatus.active then
          acc + orZero ((batchFeeMap batches st.batchId).getD 0)
        else acc)
      0
  let fees := s.fees.filter
    (fun f => batchIds.contains f.batchId ∧ f.month = currentMonth ∧ f.status = "paid")
  let totalCollected : Int := fees.foldl (fun acc curr => acc + curr.amount) 0
  let totalPending := totalExpected - totalCollected
  ⟨totalBatches, totalStudents, currentMonth, totalExpected, totalCollected,
    if totalPending > 0 then totalPending else 0⟩

/-! ## Batches: `setBatch` and `deleteBatch` -/

/-- The responses of the batch handlers. -/
inductive BatchResponse where
  | ok (batch : Batch)
  | deleted (id : ObjectId)
  | error (kind : ErrorKind)
deriving DecidableEq, Repr

/-- What a batch handler did: its response and the resulting store. -/
structure BatchOutcome where
  response : BatchResponse
  store : Store
deriving DecidableEq, Repr

/-- JavaScript truthiness of a string that may be missing. -/
def truthy : Option String → Bool
  | none => false
  | some x => x ≠ ""

/-- `setBatch` (POST /api/batches) for the authenticated teacher `user`. The name, the
class level and the timing are only checked for presence; a fee of zero is falsy. -/
def setBatch (s : Store) (user : ObjectId) (batchName classLevel timing : Option String)
    (monthlyFee : Option Int) : BatchOutcome :=
  match monthlyFee with
  | none => ⟨BatchResponse.error ErrorKind.validation, s⟩
  | some monthlyFee =>
    if ¬ truthy batchName ∨ ¬ truthy classLevel ∨ ¬ truthy timing ∨ monthlyFee = 0 then
      ⟨BatchResponse.error ErrorKind.validation, s⟩
    else
      let batch : Batch := ⟨freshId (s.batches.map Batch._id), monthlyFee, user⟩
      ⟨BatchResponse.ok batch, ⟨s.batches ++ [batch], s.students, s.attendances, s.fees⟩⟩

/-- `batch.deleteOne()`: the first document with the `_id` is removed. -/
def Batch.deleteOne (id : ObjectId) : List Batch → List Batch
  | [] => []
  | b :: rest => if b._id = id then rest else b :: Batch.deleteOne id rest

/-- `deleteBatch` (DELETE /api/batches/:id) for the authenticated teacher `user`; the
handler answers 400 for a batch it does not find. -/
def deleteBatch (s : Store) (user id : ObjectId) : BatchOutcome :=
  match Batch.findById s.batches id with
  | none => ⟨BatchResponse.error ErrorKind.validation, s⟩
  | some batch =>
    if batch.createdBy ≠ user then ⟨BatchResponse.error ErrorKind.unauthorized, s⟩
    else
      ⟨BatchResponse.deleted id,
        ⟨Batch.deleteOne batch._id s.batches, s.students, s.attendances, s.fees⟩⟩

/-! ## Students: `addStudent`, `updateStudent`, `deleteStudent` -/

/-- The responses of the mutating student handlers. -/
inductive StudentResponse where
  | ok (student : Student)
  | deleted (id : ObjectId)
  | error (kind : ErrorKind)
deriving DecidableEq, Repr

/-- What a student handler did: its response and the resulting store. -/
structure StudentOutcome where
  response : StudentResponse
  store : Store
deriving DecidableEq, Repr

/-- `addStudent` (POST /api/students) for the authenticated teacher `user`. Only `name`,
`phone`, `parentPhone` and `batchId` of the body reach `Student.create`, so the status and
the counters get the defaults of the schema. -/
def addStudent (s : Store) (user : ObjectId) (name phone : Option String)
    (batchId : Option ObjectId) : StudentOutcome :=
  match batchId with
  | none => ⟨StudentResponse.error ErrorKind.validation, s⟩
  | some batchId =>
    if ¬ truthy name ∨ ¬ truthy phone then ⟨StudentResponse.error ErrorKind.validation, s⟩
    else
      match Batch.findById s.batches batchId with
      | none => ⟨StudentResponse.error ErrorKind.notFound, s⟩
      | some batch =>
        if batch.createdBy ≠ user then ⟨StudentResponse.error ErrorKind.unauthorized, s⟩
        else
          let student : Student :=
            ⟨freshId (s.students.map Student._id), batchId, StudentStatus.active, 0, 0, 0⟩
          ⟨StudentResponse.ok student,
            ⟨s.batches, s.students ++ [student], s.attendances, s.fees⟩⟩

/-- The body of an `updateStudent` request, restricted to the modelled paths of the schema.
A path is `none` when the body lacks it. A status outside the enum, which the update does
not validate, is represented by `inactive`: the backend only ever tests for `active`. -/
structure StudentPatch where
  batchId : Option ObjectId
  status : Option StudentStatus
  totalClasses : Option Int
  presentClasses : Option Int
  attendancePercentage : Option ℚ
deriving DecidableEq, Repr

/-- The `$set` of the body applied to a document. -/
def StudentPatch.apply (body : StudentPatch) (student : Student) : Student :=
  ⟨student._id, body.batchId.getD student.batchId, body.status.getD student.status,
    body.totalClasses.getD student.totalClasses,
    body.presentClasses.getD student.presentClasses,
    body.attendancePercentage.getD student.attendancePercentage⟩

/-- Writing a student document back: the first document with the `_id` is replaced. -/
def Student.replace (student : Student) : List Student → List Student
  | [] => []
  | st :: rest =>
    if st._id = student._id then student :: rest else st :: Student.replace student rest

/-- `student.deleteOne()`: the first document with the `_id` is removed. -/
def Student.deleteOne (id : ObjectId) : List Student → List Student
  | [] => []
  | st :: rest => if st._id = id then rest else st :: Student.deleteOne id rest

/-- `updateStudent` (PUT /api/students/:id) for the authenticated teacher `user`. Reading
`batch.createdBy` of a batch that does not exist throws a `TypeError`; the body goes to
`findByIdAndUpdate` as it came. -/
def updateStudent (s : Store) (user id : ObjectId) (body : StudentPatch) : StudentOutcome :=
  match Student.findById s.students id with
  | none => ⟨StudentResponse.error ErrorKind.notFound, s⟩
  | some student =>
    match Batch.findById s.batches student.batchId with
    | none => ⟨StudentResponse.error ErrorKind.serverError, s⟩
    | some batch =>
      if batch.createdBy ≠ user then ⟨StudentResponse.error ErrorKind.unauthorized, s⟩
      else
        ⟨StudentResponse.ok (body.apply student),
          ⟨s.batches, Student.replace (body.apply student) s.students, s.attendances, s.fees⟩⟩

/-- `deleteStudent` (DELETE /api/students/:id) for the authenticated teacher `user`. -/
def deleteStudent (s : Store) (user id : ObjectId) : StudentOutcome :=
  match Student.findById s.students id with
  | none => ⟨StudentResponse.error ErrorKind.notFound, s⟩
  | some student =>
    match Batch.findById s.batches student.batchId with
    | none => ⟨StudentResponse.error ErrorKind.serverError, s⟩
    | some batch =>
      if batch.createdBy ≠ user then ⟨StudentResponse.error ErrorKind.unauthorized, s⟩
      else
        ⟨StudentResponse.deleted id,
          ⟨s.batches, Student.deleteOne student._id s.students, s.attendances, s.fees⟩⟩

/-! ## `getStudentDetails` -/

/-- The `status` of an entry of the attendance history. -/
inductive AttendanceStatus where
  | present
  | absent
deriving DecidableEq, Repr

/-- An entry of `attendanceHistory`. -/
structure HistoryEntry where
  _id : ObjectId
  date : Int
  status : AttendanceStatus
deriving DecidableEq, Repr

/-- The body of the response of `getStudentDetails`: the student document, the `attendance`
block (without `percentage`, a string made by `toFixed(1)`), the attendance history and
the `fees` block. -/
structure StudentDetails where
  student : Student
  totalClasses : Int
  present : Int
  absent : Int
  attendanceHistory : List HistoryEntry
  feesTotal : Int
  feesPaid : Int
  feesRemaining : Int
  feesHistory : List Fee
deriving DecidableEq, Repr

/-- The responses of `getStudentDetails`. -/
inductive DetailsResponse where
  | ok (details : StudentDetails)
  | error (kind : ErrorKind)
deriving DecidableEq, Repr

/-- `Attendance.find` on `batchId` with `sort` on `date` descending and `limit(30)`. -/
def Attendance.findRecent (attendances : List Attendance) (batchId : ObjectId) :
    List Attendance :=
  ((attendances.filter (fun a => a.batchId = batchId)).insertionSort
    (fun a b => b.date ≤ a.date)).take 30

/-- Body of the `attendanceRecords.map` callback of `getStudentDetails`. -/
def historyEntry (student : Student) (record : Attendance) : HistoryEntry :=
  ⟨record._id, record.date,
    if record.presentStudents.contains student._id then AttendanceStatus.present
    else AttendanceStatus.absent⟩

/-- `Fees.find` on `studentId` with `sort` on `month` descending. -/
def Fees.findByStudent (fees : List Fee) (studentId : ObjectId) : List Fee :=
  (fees.filter (fun f => f.studentId = studentId)).insertionSort (fun a b => b.month ≤ a.month)

/-- The `fees.forEach` of `getStudentDetails`: `totalFees` and `feesPaid`. -/
def feeTotals (fees : List Fee) : Int × Int :=
  fees.foldl
    (fun acc fee => (acc.1 + fee.amount, if fee.status = "paid" then acc.2 + fee.amount else acc.2))
    (0, 0)

/-- `getStudentDetails` (GET /api/students/:id/details) for the authenticated teacher
`user`. `populate` puts the batch document, or `null` when there is none, in place of
`student.batchId`. -/
def getStudentDetails (s : Store) (user id : ObjectId) : DetailsResponse :=
  match Student.findById s.students id with
  | none => DetailsResponse.error ErrorKind.notFound
  | some student =>
    match Batch.findById s.batches student.batchId with
    | none => DetailsResponse.error ErrorKind.notFound
    | some populated =>
      match Batch.findById s.batches populated._id with
      | none => DetailsResponse.error ErrorKind.unauthorized
      | some batch =>
        if batch.createdBy ≠ user then DetailsResponse.error ErrorKind.unauthorized
        else
          let totalClasses := orZero student.totalClasses
          let presentClasses := orZero student.presentClasses
          let absentClasses := totalClasses - presentClasses
          let attendanceRecords := Attendance.findRecent s.attendances populated._id
          let attendanceHistory := attendanceRecords.map (historyEntry student)
          let fees := Fees.findByStudent s.fees student._id
          let totals := feeTotals fees
          let remainingFees := totals.1 - totals.2
          DetailsResponse.ok
            ⟨student, totalClasses, presentClasses, absentClasses, attendanceHistory,
              totals.1, totals.2, remainingFees, fees⟩

/-! ## Auxiliary definitions used in the statements -/

/-- What a list of `updateOne` operations does to one document when every operation
reaches the document it addresses. -/
def applyOps (ops : List UpdateOne) (st : Student) : Student :=
  ops.foldl (fun acc op => if acc._id = op.filterId then op.set acc else acc) st

/-- The record `Attendance.create` builds for a `markAttendance` request. -/
def markRecord (tz : Int) (s : Store) (user batchId : ObjectId) (date : Int)
    (presentStudents : Option (List ObjectId)) : Attendance :=
  ⟨freshId (s.attendances.map Attendance._id), batchId, endOfDay tz date,
    presentStudents.getD [], user⟩


/-- Scenario A of the specification: teacher `1` owns batch `10` with the three active
students `1`, `2`, `3`, all counters at zero, and no attendance has been taken. -/
def scenarioA : Store :=
  ⟨[⟨10, 500, 1⟩],
    [⟨1, 10, StudentStatus.active, 0, 0, 0⟩, ⟨2, 10, StudentStatus.active, 0, 0, 0⟩,
      ⟨3, 10, StudentStatus.active, 0, 0, 0⟩],
    [], []⟩

/-- The timestamp of 2024-03-01T00:00:00Z. -/
def march1 : Int := 1709251200000

/-- Scenario B of the specification starts here: the store after students `1` and `2`
were marked present on 2024-03-01 in scenario A. -/
def scenarioB : Store :=
  ⟨[⟨10, 500, 1⟩],
    [⟨1, 10, StudentStatus.active, 1, 1, 100⟩, ⟨2, 10, StudentStatus.active, 1, 1, 100⟩,
      ⟨3, 10, StudentStatus.active, 1, 0, 0⟩],
    [⟨1, 10, 1709337599999, [1, 2], 1⟩], []⟩

/-- A request to one of the two mutating attendance endpoints, with the authenticated
teacher that sends it. -/
inductive Call where
  | mark (user : ObjectId) (batchId : Option ObjectId) (date : Option Int)
      (presentStudents : Option (List ObjectId))
  | update (user : ObjectId) (attendanceId : ObjectId)
      (presentStudents : Option (List ObjectId))
deriving DecidableEq, Repr

/-- The handler that serves the request. -/
def Call.run (tz : Int) (s : Store) : Call → Outcome
  | Call.mark user batchId date presentStudents =>
    markAttendance tz s user batchId date presentStudents
  | Call.update user attendanceId presentStudents =>
    updateAttendance s user attendanceId presentStudents

/-- A response with a 2xx status: 201 for a created record, 200 for an updated record and
for the already-taken answer. -/
def Response.isSuccess : Response → Bool
  | Response.error _ => false
  | _ => true

/-- The store after a sequence of requests served one after the other. -/
def runCalls (tz : Int) (s : Store) : List Call → Store
  | [] => s
  | c :: cs => runCalls tz (c.run tz s).store cs

/-- Every request of the sequence is answered with a 2xx status. -/
def allSucceed (tz : Int) (s : Store) : List Call → Bool
  | [] => true
  | c :: cs => (c.run tz s).response.isSuccess && allSucceed tz (c.run tz s).store cs

/-- Classes held for a batch according to the attendance history: the number of its
attendance records. -/
def classesHeld (attendances : List Attendance) (batchId : ObjectId) : Nat :=
  attendances.countP (fun a => a.batchId = batchId)

/-- Classes of a batch a student attended according to the attendance history: the
number of records of the batch that list the student. -/
def classesPresent (attendances : List Attendance) (batchId studentId : ObjectId) : Nat :=
  attendances.countP (fun a => a.batchId = batchId ∧ studentId ∈ a.presentStudents)

/-- The counters of a student agree with the attendance history: an active student has
been counted for every record of the batch, an inactive student for none, and the
percentage is the one the handlers compute from the two counters. -/
def Student.inSync (attendances : List Attendance) (st : Student) : Prop :=
  (st.status = StudentStatus.active →
      st.totalClasses = classesHeld attendances st.batchId
      ∧ st.presentClasses = classesPresent attendances st.batchId st._id)
  ∧ (st.status = StudentStatus.inactive → st.totalClasses = 0 ∧ st.presentClasses = 0)
  ∧ st.attendancePercentage
      = if st.totalClasses = 0 then 0 else jsPercentage st.presentClasses st.totalClasses

/-- The counter invariant of the data model, the percentage being the exact rational
`100 * presentClasses / totalClasses`. -/
def Student.countersOk (st : Student) : Prop :=
  0 ≤ st.presentClasses ∧ st.presentClasses ≤ st.totalClasses
  ∧ st.attendancePercentage
      = if st.totalClasses = 0 then 0
        else 100 * (st.presentClasses : ℚ) / (st.totalClasses : ℚ)

/-- The counter invariant with the percentage the handlers store: the double
`(presentClasses / totalClasses) * 100`. -/
def Student.countersStored (st : Student) : Prop :=
  0 ≤ st.presentClasses ∧ st.presentClasses ≤ st.totalClasses
  ∧ st.attendancePercentage
      = if st.totalClasses = 0 then 0 else jsPercentage st.presentClasses st.totalClasses

/-- A student of batch `10` with 24 classes counted and 6 attended, a quarter. -/
def scenarioQuarter : Store :=
  ⟨[⟨10, 500, 1⟩], [⟨1, 10, StudentStatus.active, 24, 6, 25⟩], [], []⟩

/-- A student of batch `10` with three classes counted and none attended: the three
records of the batch list nobody. -/
def scenarioThirds : Store :=
  ⟨[⟨10, 500, 1⟩], [⟨1, 10, StudentStatus.active, 3, 0, 0⟩],
    [⟨1, 10, 1709337599999, [], 1⟩, ⟨2, 10, 1709423999999, [], 1⟩,
      ⟨3, 10, 1709510399999, [], 1⟩], []⟩

/-- A store with zero `totalClasses` and `presentClasses` everywhere and no attendance
record, in which the inactive student `2` carries a stored percentage of 50. -/
def scenarioStale : Store :=
  ⟨[⟨10, 500, 1⟩],
    [⟨1, 10, StudentStatus.active, 0, 0, 0⟩, ⟨2, 10, StudentStatus.inactive, 0, 0, 50⟩],
    [], []⟩

/-- The record `Fees.create` builds for an `addFee` request. -/
def feeRecord (now : Int) (s : Store) (studentId batchId : ObjectId) (month : String)
    (amount : Int) (status : Option String) : Fee :=
  ⟨freshId (s.fees.map Fee._id), studentId, batchId, month, amount, orUnpaid status,
    if status = some "paid" then some now else none⟩

/-- The body `status: 'paid'` of an `updateFee` request. -/
def FeePatch.paid : FeePatch := ⟨none, none, none, none, some "paid", none⟩

/-- A request to one of the two mutating fee endpoints, with the time at which it is served
and the authenticated teacher that sends it. -/
inductive FeeCall where
  | add (now : Int) (user : ObjectId) (studentId batchId : Option ObjectId)
      (month : Option String) (amount : Option Int) (status : Option String)
  | update (now : Int) (user : ObjectId) (id : ObjectId) (body : FeePatch)
deriving DecidableEq, Repr

/-- The handler that serves the request. -/
def FeeCall.run (s : Store) : FeeCall → FeeOutcome
  | FeeCall.add now user studentId batchId month amount status =>
    addFee now s user studentId batchId month amount status
  | FeeCall.update now user id body => updateFee now s user id body

/-- The store after a sequence of fee requests served one after the other. -/
def runFeeCalls (s : Store) : List FeeCall → Store
  | [] => s
  | c :: cs => runFeeCalls (c.run s).store cs

/-- The request does not name the path `paymentDate`: every `addFee`, and an `updateFee`
whose body lacks the field. -/
def FeeCall.leavesPaymentDate : FeeCall → Bool
  | FeeCall.add _ _ _ _ _ _ _ => true
  | FeeCall.update _ _ _ body => body.paymentDate.isNone

/-- Scenario D and E of the specification: teacher `1` owns batch `10` with a monthly fee of
500, the active students `1` and `2` and the inactive student `3`; the ledger is empty. -/
def scenarioD : Store :=
  ⟨[⟨10, 500, 1⟩],
    [⟨1, 10, StudentStatus.active, 0, 0, 0⟩, ⟨2, 10, StudentStatus.active, 0, 0, 0⟩,
      ⟨3, 10, StudentStatus.inactive, 0, 0, 0⟩],
    [], []⟩

/-- The pair on which the ledger has its unique index. -/
def Fee.key (fee : Fee) : ObjectId × String := (fee.studentId, fee.month)

/-- The document a successful `updateFee` leaves for the record `fee` and returns: the body
applied, with `paymentDate` set to the time of the request when the body has the status
`paid` and the record had no payment date before. -/
def updateFeeResult (now : Int) (fee : Fee) (body : FeePatch) : Fee :=
  if body.status = some "paid" ∧ fee.paymentDate = none then
    ⟨(body.apply fee)._id, (body.apply fee).studentId, (body.apply fee).batchId,
      (body.apply fee).month, (body.apply fee).amount, (body.apply fee).status, some now⟩
  else body.apply fee

/-- The batch with the id belongs to the teacher. -/
def ownsBatch (s : Store) (teacherId batchId : ObjectId) : Bool :=
  s.batches.any (fun b => b._id = batchId ∧ b.createdBy = teacherId)

/-- The monthly fee of the batch with the id (0 when there is no such batch). -/
def batchFee (s : Store) (batchId : ObjectId) : Int :=
  ((Batch.findById s.batches batchId).map Batch.monthlyFee).getD 0

/-- Two teachers and an orphan: teacher `1` owns batch `10` with student `1`, teacher `2`
owns batch `20` with student `2`, and student `3` refers to batch `30`, which is gone; the
record `1` and the fee `1` refer to batch `30` as well. -/
def scenarioOrphan : Store :=
  ⟨[⟨10, 500, 1⟩, ⟨20, 300, 2⟩],
    [⟨1, 10, StudentStatus.active, 0, 0, 0⟩, ⟨2, 20, StudentStatus.active, 0, 0, 0⟩,
      ⟨3, 30, StudentStatus.active, 1, 1, 100⟩],
    [⟨1, 30, 1709337599999, [3], 1⟩],
    [⟨1, 3, 30, "2024-03", 500, "unpaid", none⟩]⟩

/-- A store that satisfies the counter invariant without being in step with its
history: the only record of batch `10` lists student `1` as present, while the student has
one class counted and none attended. -/
def scenarioListed : Store :=
  ⟨[⟨10, 500, 1⟩], [⟨1, 10, StudentStatus.active, 1, 0, 0⟩],
    [⟨1, 10, 1709337599999, [1], 1⟩], []⟩

/-- The two integer counters of a student agree with the attendance history; the stored
percentage is left open. -/
def Student.countsInSync (attendances : List Attendance) (st : Student) : Prop :=
  (st.status = StudentStatus.active →
      st.totalClasses = classesHeld attendances st.batchId
      ∧ st.presentClasses = classesPresent attendances st.batchId st._id)
  ∧ (st.status = StudentStatus.inactive → st.totalClasses = 0 ∧ st.presentClasses = 0)

/-- A profile to look at: teacher `1` owns batch `10` with student `1`, for whom two
classes were held (2024-03-01 attended, 2024-03-02 missed); batch `20` of teacher `2` has a
record of its own; student `1` has a paid fee for March and an unpaid one for April, and
student `2` a paid fee. -/
def scenarioProfile : Store :=
  ⟨[⟨10, 500, 1⟩, ⟨20, 300, 2⟩],
    [⟨1, 10, StudentStatus.active, 2, 1, 50⟩, ⟨2, 20, StudentStatus.active, 1, 1, 100⟩],
    [⟨1, 10, 1709337599999, [1], 1⟩, ⟨2, 20, 1709337599999, [2], 2⟩,
      ⟨3, 10, 1709423999999, [], 1⟩],
    [⟨1, 1, 10, "2024-03", 500, "paid", some 1709300000000⟩,
      ⟨2, 2, 20, "2024-03", 300, "paid", some 1709300000000⟩,
      ⟨3, 1, 10, "2024-04", 500, "unpaid", none⟩]⟩

/-- The three attendance counters of a student document. -/
def Student.counters (st : Student) : Int × Int × ℚ :=
  (st.totalClasses, st.presentClasses, st.attendancePercentage)

/-! ## Helper lemmas: double arithmetic -/

theorem roundHalfEven_bounds (N D : Nat) (hD : 0 < D) :
    2 * (roundHalfEven N D * D) ≤ 2 * N + D ∧ 2 * N ≤ 2 * (roundHalfEven N D * D) + D := by
  have h1 : D * (N / D) + N % D = N := Nat.div_add_mod N D
  have hr : N % D < D := Nat.mod_lt _ hD
  have h2 : (N / D + 1) * D = N / D * D + D := by ring
  have h3 : D * (N / D) = N / D * D := Nat.mul_comm _ _
  unfold roundHalfEven
  simp only
  split
  · omega
  · split
    · rw [h2]; omega
    · split
      · omega
      · rw [h2]; omega

theorem log2Fuel_spec (fuel n : Nat) (hn : 0 < n) (hf : n ≤ fuel) :
    2 ^ log2Fuel fuel n ≤ n ∧ n < 2 ^ (log2Fuel fuel n + 1) := by
  induction fuel generalizing n with
  | zero => omega
  | succ fuel ih =>
    unfold log2Fuel
    split
    · constructor
      · simpa using hn
      · simp; omega
    · have h := ih (n / 2) (by omega) (by omega)
      rw [pow_succ, pow_succ]
      constructor <;> omega

theorem log2_spec (n : Nat) (hn : 0 < n) : 2 ^ log2 n ≤ n ∧ n < 2 ^ (log2 n + 1) :=
  log2Fuel_spec n n hn (le_refl n)

theorem zpow_split (e : Int) : (2 : ℚ) ^ e = 2 ^ e.toNat / 2 ^ (-e).toNat := by
  rcases le_total 0 e with h | h
  · obtain ⟨m, rfl⟩ := Int.eq_ofNat_of_zero_le h
    simp
  · obtain ⟨m, hm⟩ := Int.eq_ofNat_of_zero_le (neg_nonneg.mpr h)
    have he : e = -(m : Int) := by omega
    subst he
    simp

theorem floorLog2_le (n d : Nat) (hn : 0 < n) (hd : 0 < d) :
    (2 : ℚ) ^ floorLog2 n d ≤ (n : ℚ) / d := by
  have hdq : (0 : ℚ) < d := by exact_mod_cast hd
  unfold floorLog2
  simp only
  split
  · rename_i hc
    rw [zpow_split, div_le_div_iff₀ (by positivity) hdq]
    have : ((d * 2 ^ ((log2 n : Int) - (log2 d : Int)).toNat : Nat) : ℚ)
        ≤ ((n * 2 ^ (-((log2 n : Int) - (log2 d : Int))).toNat : Nat) : ℚ) := by
      exact_mod_cast hc
    push_cast at this
    linarith
  · have h1 := (log2_spec n hn).1
    have h2 := (log2_spec d hd).2
    have h1q : (2 : ℚ) ^ log2 n ≤ n := by exact_mod_cast h1
    have h2q : (d : ℚ) ≤ 2 ^ (log2 d + 1) := by exact_mod_cast le_of_lt h2
    have : (2 : ℚ) ^ ((log2 n : Int) - (log2 d : Int) - 1) = 2 ^ log2 n / 2 ^ (log2 d + 1) := by
      rw [show (log2 n : Int) - (log2 d : Int) - 1 = (log2 n : Int) - ((log2 d + 1 : Nat) : Int) by
        push_cast; ring]
      rw [zpow_sub₀ (by norm_num), zpow_natCast, zpow_natCast]
    rw [this]
    exact div_le_div₀ (by positivity) h1q hdq h2q

theorem floorLog2_lt (n d : Nat) (hn : 0 < n) (hd : 0 < d) :
    (n : ℚ) / d < (2 : ℚ) ^ (floorLog2 n d + 1) := by
  have hdq : (0 : ℚ) < d := by exact_mod_cast hd
  unfold floorLog2
  simp only
  split
  · have h1 := (log2_spec n hn).2
    have h2 := (log2_spec d hd).1
    have h1q : (n : ℚ) < 2 ^ (log2 n + 1) := by exact_mod_cast h1
    have h2q : (2 : ℚ) ^ log2 d ≤ d := by exact_mod_cast h2
    have : (2 : ℚ) ^ ((log2 n : Int) - (log2 d : Int) + 1) = 2 ^ (log2 n + 1) / 2 ^ log2 d := by
      rw [show (log2 n : Int) - (log2 d : Int) + 1 = ((log2 n + 1 : Nat) : Int) - (log2 d : Int) by
        push_cast; ring]
      rw [zpow_sub₀ (by norm_num), zpow_natCast, zpow_natCast]
    rw [this]
    rw [div_lt_div_iff₀ hdq (by positivity)]
    have hnq : (0 : ℚ) ≤ n := Nat.cast_nonneg n
    calc (n : ℚ) * 2 ^ log2 d ≤ n * d := mul_le_mul_of_nonneg_left h2q hnq
      _ < 2 ^ (log2 n + 1) * d := mul_lt_mul_of_pos_right h1q hdq
  · rename_i hc
    rw [sub_add_cancel, zpow_split, div_lt_div_iff₀ hdq (by positivity)]
    have : ((n * 2 ^ (-((log2 n : Int) - (log2 d : Int))).toNat : Nat) : ℚ)
        < ((d * 2 ^ ((log2 n : Int) - (log2 d : Int)).toNat : Nat) : ℚ) := by
      exact_mod_cast not_le.mp hc
    push_cast at this
    linarith

theorem roundDouble_err (n d : Nat) (hn : 0 < n) (hd : 0 < d) :
    |((roundDouble n d).1 : ℚ) * 2 ^ (roundDouble n d).2 - (n : ℚ) / d|
      ≤ (n : ℚ) / d / 2 ^ 53 := by
  have hL := floorLog2_le n d hn hd
  unfold roundDouble
  simp only
  generalize floorLog2 n d = L at hL
  have hD : 0 < d * 2 ^ (L - 52).toNat := Nat.mul_pos hd (by positivity)
  obtain ⟨hb1, hb2⟩ := roundHalfEven_bounds (n * 2 ^ (-(L - 52)).toNat) (d * 2 ^ (L - 52).toNat) hD
  generalize roundHalfEven (n * 2 ^ (-(L - 52)).toNat) (d * 2 ^ (L - 52).toNat) = m at hb1 hb2
  have hb1q : (2 : ℚ) * (m * (d * 2 ^ (L - 52).toNat))
      ≤ 2 * (n * 2 ^ (-(L - 52)).toNat) + d * 2 ^ (L - 52).toNat := by exact_mod_cast hb1
  have hb2q : (2 : ℚ) * (n * 2 ^ (-(L - 52)).toNat)
      ≤ 2 * (m * (d * 2 ^ (L - 52).toNat)) + d * 2 ^ (L - 52).toNat := by exact_mod_cast hb2
  have hP := zpow_split (L - 52)
  have hdq : (0 : ℚ) < d := by exact_mod_cast hd
  have hA : (0 : ℚ) < 2 ^ (L - 52).toNat := by positivity
  have hB : (0 : ℚ) < 2 ^ (-(L - 52)).toNat := by positivity
  generalize (2 : ℚ) ^ (L - 52).toNat = A at *
  generalize (2 : ℚ) ^ (-(L - 52)).toNat = B at *
  have hL2 : (2 : ℚ) ^ (L - 52) = 2 ^ L / 2 ^ 52 := by
    rw [zpow_sub₀ (by norm_num)]; norm_num
  rw [hP]
  have hAB : A / B * 2 ^ 52 ≤ (n : ℚ) / d := by
    rw [← hP, hL2]
    have : (2 : ℚ) ^ L / 2 ^ 52 * 2 ^ 52 = 2 ^ L := by field_simp
    rw [this]; exact hL
  have hdB : (0 : ℚ) < 2 * d * B := by positivity
  have e1 : (m : ℚ) * (A / B) - n / d - A / B / 2
      = (2 * (m * (d * A)) - (2 * (n * B) + d * A)) / (2 * d * B) := by
    field_simp; ring
  have e2 : (n : ℚ) / d - (m : ℚ) * (A / B) - A / B / 2
      = (2 * (n * B) - (2 * (m * (d * A)) + d * A)) / (2 * d * B) := by
    field_simp; ring
  have k1 : (m : ℚ) * (A / B) - n / d - A / B / 2 ≤ 0 := by
    rw [e1]; exact div_nonpos_of_nonpos_of_nonneg (by linarith) (le_of_lt hdB)
  have k2 : (n : ℚ) / d - (m : ℚ) * (A / B) - A / B / 2 ≤ 0 := by
    rw [e2]; exact div_nonpos_of_nonpos_of_nonneg (by linarith) (le_of_lt hdB)
  have k3 : A / B / 2 ≤ (n : ℚ) / d / 2 ^ 53 := by
    rw [div_le_div_iff₀ (by norm_num) (by positivity)]
    have : A / B * 2 ^ 53 = A / B * 2 ^ 52 * 2 := by ring
    rw [this]
    linarith
  rw [abs_le]
  constructor <;> linarith

theorem doubleValue_eq (m e : Int) : doubleValue (m, e) = (m : ℚ) * 2 ^ e := by
  unfold doubleValue
  simp only
  split
  · rename_i h
    obtain ⟨k, rfl⟩ := Int.eq_ofNat_of_zero_le h
    simp
  · rename_i h
    obtain ⟨k, hk⟩ := Int.eq_ofNat_of_zero_le (show 0 ≤ -e by omega)
    have he : e = -(k : Int) := by omega
    subst he
    rw [Rat.mkRat_eq_div]
    simp [div_eq_mul_inv]

theorem natAbs_cast_rat (a : Int) : (a.natAbs : ℚ) = |(a : ℚ)| := by
  rw [Nat.cast_natAbs, Int.cast_abs]

theorem abs_sign_cast (a : Int) (ha : a ≠ 0) : |((a.sign : Int) : ℚ)| = 1 := by
  rcases lt_or_gt_of_ne ha with h | h
  · rw [Int.sign_eq_neg_one_of_neg h]; norm_num
  · rw [Int.sign_eq_one_of_pos h]; norm_num

theorem sign_mul_abs_cast (a : Int) (ha : a ≠ 0) : ((a.sign : Int) : ℚ) * |(a : ℚ)| = a := by
  rcases lt_or_gt_of_ne ha with h | h
  · rw [Int.sign_eq_neg_one_of_neg h, abs_of_neg (by exact_mod_cast h)]; norm_num
  · rw [Int.sign_eq_one_of_pos h, abs_of_pos (by exact_mod_cast h)]; norm_num

theorem signed_err (s y x u : ℚ) (hs : |s| = 1) (hx : 0 ≤ x) (h : |y - x| ≤ x / u) :
    |s * y - s * x| ≤ |s * x| / u := by
  rw [← mul_sub, abs_mul, abs_mul, hs, one_mul, one_mul, abs_of_nonneg hx]
  exact h

/-- The quotient of two integers in double arithmetic is within a relative error of
`2 ^ (-53)` of the exact quotient. -/
theorem jsDiv_err (a b : Int) (hb : b ≠ 0) :
    |doubleValue (jsDiv a b) - (a : ℚ) / b| ≤ |(a : ℚ) / b| / 2 ^ 53 := by
  unfold jsDiv
  by_cases ha : a = 0
  · subst ha
    simp [doubleValue]
  · rw [if_neg (by simp [ha, hb])]
    simp only
    rw [doubleValue_eq]
    have herr := roundDouble_err a.natAbs b.natAbs (Int.natAbs_pos.mpr ha) (Int.natAbs_pos.mpr hb)
    rw [natAbs_cast_rat, natAbs_cast_rat] at herr
    have hbq : (b : ℚ) ≠ 0 := by exact_mod_cast hb
    have hq : (a : ℚ) / b = ((a.sign : Int) : ℚ) * ((b.sign : Int) : ℚ) * (|(a : ℚ)| / |(b : ℚ)|) := by
      have h1 := sign_mul_abs_cast a ha
      have h2 := sign_mul_abs_cast b hb
      have h3 : |(b : ℚ)| ≠ 0 := abs_ne_zero.mpr hbq
      rcases lt_or_gt_of_ne hb with h | h
      · rw [Int.sign_eq_neg_one_of_neg h] at h2 ⊢
        field_simp
        push_cast at h2 ⊢
        linear_combination (b : ℚ) * h1 - (a : ℚ) * h2
      · rw [Int.sign_eq_one_of_pos h] at h2 ⊢
        field_simp
        push_cast at h2 ⊢
        linear_combination (-(b : ℚ)) * h1 + (a : ℚ) * h2
    have hval : (((a.sign * b.sign * ((roundDouble a.natAbs b.natAbs).1 : Int) : Int) : ℚ))
          * 2 ^ (roundDouble a.natAbs b.natAbs).2
        = ((a.sign : Int) : ℚ) * ((b.sign : Int) : ℚ)
          * (((roundDouble a.natAbs b.natAbs).1 : ℚ) * 2 ^ (roundDouble a.natAbs b.natAbs).2) := by
      push_cast; ring
    rw [hval, hq]
    apply signed_err _ _ _ _ _ (by positivity) herr
    rw [abs_mul, abs_sign_cast a ha, abs_sign_cast b hb, one_mul]

/-- The product of a double and an integer in double arithmetic is within a relative error
of `2 ^ (-53)` of the exact product. -/
theorem jsMul_err (x : Int × Int) (c : Int) :
    |doubleValue (jsMul x c) - doubleValue x * c| ≤ |doubleValue x * c| / 2 ^ 53 := by
  obtain ⟨m0, e0⟩ := x
  unfold jsMul
  simp only
  by_cases h0 : m0 = 0 ∨ c = 0
  · rw [if_pos h0, doubleValue_eq, doubleValue_eq]
    rcases h0 with h | h <;> simp [h]
  · rw [if_neg h0]
    simp only [not_or] at h0
    obtain ⟨hm, hc⟩ := h0
    rw [doubleValue_eq, doubleValue_eq]
    have hn : 0 < m0.natAbs * c.natAbs * 2 ^ e0.toNat :=
      Nat.mul_pos (Nat.mul_pos (Int.natAbs_pos.mpr hm) (Int.natAbs_pos.mpr hc)) (by positivity)
    have hd : 0 < 2 ^ (-e0).toNat := by positivity
    have herr := roundDouble_err _ _ hn hd
    have hfrac : ((m0.natAbs * c.natAbs * 2 ^ e0.toNat : Nat) : ℚ) / ((2 ^ (-e0).toNat : Nat) : ℚ)
        = |(m0 : ℚ)| * |(c : ℚ)| * 2 ^ e0 := by
      push_cast
      rw [natAbs_cast_rat, natAbs_cast_rat, zpow_split e0]
      ring
    rw [hfrac] at herr
    have hq : (m0 : ℚ) * 2 ^ e0 * (c : ℚ)
        = ((m0.sign : Int) : ℚ) * ((c.sign : Int) : ℚ) * (|(m0 : ℚ)| * |(c : ℚ)| * 2 ^ e0) := by
      have h1 := sign_mul_abs_cast m0 hm
      have h2 := sign_mul_abs_cast c hc
      linear_combination (-(((c.sign : Int) : ℚ) * |(c : ℚ)| * 2 ^ e0)) * h1
        - ((m0 : ℚ) * 2 ^ e0) * h2
    generalize roundDouble (m0.natAbs * c.natAbs * 2 ^ e0.toNat) (2 ^ (-e0).toNat) = r at herr ⊢
    have hval : (((m0.sign * c.sign * (r.1 : Int) : Int) : ℚ)) * 2 ^ r.2
        = ((m0.sign : Int) : ℚ) * ((c.sign : Int) : ℚ) * ((r.1 : ℚ) * 2 ^ r.2) := by
      push_cast; ring
    rw [hval, hq]
    apply signed_err _ _ _ _ _ (by positivity) herr
    rw [abs_mul, abs_sign_cast m0 hm, abs_sign_cast c hc, one_mul]

/-- The percentage the handlers compute, `(present / total) * 100` in double arithmetic,
is within a relative error of `2 ^ (-51)` of the exact `100 * present / total`. -/
theorem jsPercentage_err (present total : Int) (ht : total ≠ 0) :
    |jsPercentage present total - 100 * (present : ℚ) / total|
      ≤ |100 * (present : ℚ) / total| / 2 ^ 51 := by
  unfold jsPercentage
  have h1 := jsDiv_err present total ht
  have h2 := jsMul_err (jsDiv present total) 100
  generalize doubleValue (jsMul (jsDiv present total) 100) = y2 at h2 ⊢
  generalize doubleValue (jsDiv present total) = y1 at h1 h2
  have hq : 100 * (present : ℚ) / total = 100 * ((present : ℚ) / total) := by ring
  rw [hq]
  generalize (present : ℚ) / total = q at h1 ⊢
  push_cast at h2
  have habs100 : |y1 * 100| = 100 * |y1| := by
    rw [abs_mul]; norm_num; ring
  have habsq : |100 * q| = 100 * |q| := by
    rw [abs_mul]; norm_num
  rw [habs100] at h2
  rw [habsq]
  have hy1 : |y1| ≤ |q| + |q| / 2 ^ 53 := by
    have := abs_sub_abs_le_abs_sub y1 q
    linarith
  have htri : |y2 - 100 * q| ≤ |y2 - y1 * 100| + 100 * |y1 - q| := by
    have h := abs_add (y2 - y1 * 100) (100 * (y1 - q))
    have e : y2 - y1 * 100 + 100 * (y1 - q) = y2 - 100 * q := by ring
    rw [e, abs_mul] at h
    norm_num at h
    exact h
  have hqn : 0 ≤ |q| := abs_nonneg q
  calc |y2 - 100 * q| ≤ |y2 - y1 * 100| + 100 * |y1 - q| := htri
    _ ≤ 100 * |y1| / 2 ^ 53 + 100 * (|q| / 2 ^ 53) := by linarith
    _ ≤ 100 * (|q| + |q| / 2 ^ 53) / 2 ^ 53 + 100 * (|q| / 2 ^ 53) := by
        have : 100 * |y1| / 2 ^ 53 ≤ 100 * (|q| + |q| / 2 ^ 53) / 2 ^ 53 := by
          apply div_le_div_of_nonneg_right _ (by positivity)
          linarith
        linarith
    _ ≤ 100 * |q| / 2 ^ 51 := by
        have e : 100 * (|q| + |q| / 2 ^ 53) / 2 ^ 53 + 100 * (|q| / 2 ^ 53)
            = 100 * |q| * (2 / 2 ^ 53 + 1 / 2 ^ 106) := by ring
        have e2 : 100 * |q| / 2 ^ 51 = 100 * |q| * (1 / 2 ^ 51) := by ring
        rw [e, e2]
        apply mul_le_mul_of_nonneg_left _ (by positivity)
        norm_num

theorem jsPercentage_zero (total : Int) : jsPercentage 0 total = 0 := by
  simp [jsPercentage, jsDiv, jsMul, doubleValue]

theorem jsPercentage_one_one : jsPercentage 1 1 = 100 := by decide

/-! ## Helper lemmas: bulk writes under unique `_id`s -/

@[simp] theorem orZero_eq (x : Int) : orZero x = x := by
  unfold orZero; split <;> simp_all

theorem UpdateOne.set_id (op : UpdateOne) (st : Student) : (op.set st)._id = st._id := rfl

theorem UpdateOne.set_set (op : UpdateOne) (st : Student) : op.set (op.set st) = op.set st := by
  cases h : op.totalClasses <;> simp [UpdateOne.set, h]

theorem updateOne_map_id (op : UpdateOne) (l : List Student) :
    (Student.updateOne op l).map Student._id = l.map Student._id := by
  induction l with
  | nil => rfl
  | cons st rest ih =>
    unfold Student.updateOne
    split
    · simp [UpdateOne.set_id]
    · simp [ih]

theorem updateOne_eq_map (op : UpdateOne) (l : List Student)
    (hnd : (l.map Student._id).Nodup) :
    Student.updateOne op l = l.map (fun st => if st._id = op.filterId then op.set st else st) := by
  induction l with
  | nil => rfl
  | cons st rest ih =>
    rw [List.map_cons, List.nodup_cons] at hnd
    unfold Student.updateOne
    by_cases h : st._id = op.filterId
    · simp only [h, if_true, List.map_cons]
      congr 1
      have hid : ∀ x ∈ rest, (if x._id = op.filterId then op.set x else x) = x := by
        intro x hx
        have hne : x._id ≠ op.filterId := by
          intro hx2
          exact hnd.1 (List.mem_map.mpr ⟨x, hx, by rw [hx2, h]⟩)
        simp [hne]
      rw [List.map_congr_left hid]; simp
    · simp [h, ih hnd.2]

theorem bulkWrite_map_id (ops : List UpdateOne) (l : List Student) :
    (Student.bulkWrite ops l).map Student._id = l.map Student._id := by
  induction ops generalizing l with
  | nil => rfl
  | cons op rest ih =>
    show (Student.bulkWrite rest (Student.updateOne op l)).map Student._id = _
    rw [ih, updateOne_map_id]

theorem bulkWrite_eq_map (ops : List UpdateOne) (l : List Student)
    (hnd : (l.map Student._id).Nodup) :
    Student.bulkWrite ops l = l.map (applyOps ops) := by
  induction ops generalizing l with
  | nil =>
    have e : applyOps [] = id := rfl
    rw [e, List.map_id]; rfl
  | cons op rest ih =>
    show Student.bulkWrite rest (Student.updateOne op l) = _
    rw [ih _ (by rw [updateOne_map_id]; exact hnd), updateOne_eq_map op l hnd, List.map_map]
    rfl

theorem applyOps_id (ops : List UpdateOne) (st : Student) : (applyOps ops st)._id = st._id := by
  induction ops generalizing st with
  | nil => rfl
  | cons op rest ih =>
    show (applyOps rest _)._id = _
    rw [ih]; show (if st._id = op.filterId then op.set st else st)._id = _
    split <;> rfl

/-- When every operation addressed to `acc` is `op0`, the operations together act on `acc`
as `op0` alone, or not at all when none is addressed to it. -/
theorem applyOps_single (op0 : UpdateOne) (ops : List UpdateOne) (acc : Student)
    (h : ∀ op ∈ ops, op.filterId = acc._id → op = op0) :
    applyOps ops acc = if ops.any (fun op => op.filterId = acc._id) then op0.set acc else acc := by
  induction ops generalizing acc with
  | nil => rfl
  | cons op rest ih =>
    show applyOps rest (if acc._id = op.filterId then op.set acc else acc) = _
    by_cases hop : op.filterId = acc._id
    · have e : op = op0 := h op (List.mem_cons_self _ _) hop
      subst e
      rw [if_pos hop.symm, ih]
      · simp [hop, UpdateOne.set_set, UpdateOne.set_id]
      · intro o ho hid
        exact h o (List.mem_cons_of_mem _ ho) (by rw [hid]; rfl)
    · have hop2 : ¬ acc._id = op.filterId := fun e => hop e.symm
      rw [if_neg hop2, ih _ (fun o ho hid => h o (List.mem_cons_of_mem _ ho) hid)]
      simp [hop]

/-- Effect of a bulk write whose operations are computed, one or none per document, from
a filtered snapshot of the collection itself. -/
theorem bulkWrite_filterMap (l : List Student) (hnd : (l.map Student._id).Nodup)
    (p : Student → Bool) (mk : Student → Option UpdateOne)
    (hmk : ∀ st op, mk st = some op → op.filterId = st._id) :
    Student.bulkWrite ((l.filter p).filterMap mk) l
      = l.map (fun st => if p st then (match mk st with | some op => op.set st | none => st) else st) := by
  rw [bulkWrite_eq_map _ _ hnd]
  apply List.map_congr_left
  intro st hst
  have hinj := List.inj_on_of_nodup_map hnd
  cases hm : mk st with
  | none =>
    have hnone : ∀ op ∈ (l.filter p).filterMap mk, op.filterId ≠ st._id := by
      intro op hop hid
      obtain ⟨t, ht, hto⟩ := List.mem_filterMap.mp hop
      have htl : t ∈ l := (List.mem_filter.mp ht).1
      have : t = st := hinj htl hst (by rw [← hmk t op hto, hid])
      subst this
      rw [hm] at hto; cases hto
    rw [applyOps_single ⟨0, none, 0, 0⟩ _ _ (fun op hop hid => absurd hid (hnone op hop))]
    have : ((l.filter p).filterMap mk).any (fun op => op.filterId = st._id) = false := by
      rw [List.any_eq_false]
      intro op hop
      simpa using hnone op hop
    simp [this]
  | some op0 =>
    have hall : ∀ op ∈ (l.filter p).filterMap mk, op.filterId = st._id → op = op0 := by
      intro op hop hid
      obtain ⟨t, ht, hto⟩ := List.mem_filterMap.mp hop
      have htl : t ∈ l := (List.mem_filter.mp ht).1
      have : t = st := hinj htl hst (by rw [← hmk t op hto, hid])
      subst this
      rw [hm] at hto; exact (Option.some.inj hto).symm
    rw [applyOps_single op0 _ _ hall]
    by_cases hp : p st = true
    · have : ((l.filter p).filterMap mk).any (fun op => op.filterId = st._id) = true := by
        rw [List.any_eq_true]
        exact ⟨op0, List.mem_filterMap.mpr ⟨st, List.mem_filter.mpr ⟨hst, hp⟩, hm⟩,
          by simpa using hmk st op0 hm⟩
      simp [this, hp]
    · have : ((l.filter p).filterMap mk).any (fun op => op.filterId = st._id) = false := by
        rw [List.any_eq_false]
        intro op hop
        obtain ⟨t, ht, hto⟩ := List.mem_filterMap.mp hop
        have htp := (List.mem_filter.mp ht).2
        have htl : t ∈ l := (List.mem_filter.mp ht).1
        intro hid
        have hid2 : op.filterId = st._id := by simpa using hid
        have : t = st := hinj htl hst (by rw [← hmk t op hto, hid2])
        subst this
        exact hp htp
      simp [this, hp]

/-! ## Helper lemmas: shape of the outcomes -/

theorem bulkWrite_guard (ops : List UpdateOne) (l : List Student) :
    (if 0 < ops.length then Student.bulkWrite ops l else l) = Student.bulkWrite ops l := by
  cases ops with
  | nil => rfl
  | cons op rest => simp

/-- The three ways a `markAttendance` request with `batchId` and `date` can end: nothing is
written; the record is written and the counter computation throws; the record and the
counters are written. -/
theorem markAttendance_cases (tz : Int) (s : Store) (user b : ObjectId) (d : Int)
    (ps : Option (List ObjectId)) :
    ((markAttendance tz s user (some b) (some d) ps).store = s
        ∧ (markAttendance tz s user (some b) (some d) ps).writes = []
        ∧ ∀ r, (markAttendance tz s user (some b) (some d) ps).response ≠ Response.created r)
    ∨ (Attendance.findOne s.attendances b (startOfDay tz d) (endOfDay tz d) = none
        ∧ (∃ batch, Batch.findById s.batches b = some batch ∧ batch.createdBy = user)
        ∧ markBulkOps (Student.find s.students b) ps = none
        ∧ (markAttendance tz s user (some b) (some d) ps).response
            = Response.error ErrorKind.serverError
        ∧ (markAttendance tz s user (some b) (some d) ps).writes = []
        ∧ (markAttendance tz s user (some b) (some d) ps).store
            = ⟨s.batches, s.students, s.attendances ++ [markRecord tz s user b d ps], s.fees⟩)
    ∨ (Attendance.findOne s.attendances b (startOfDay tz d) (endOfDay tz d) = none
        ∧ (∃ batch, Batch.findById s.batches b = some batch ∧ batch.createdBy = user)
        ∧ markBulkOps (Student.find s.students b) ps
            = some (markAttendance tz s user (some b) (some d) ps).writes
        ∧ (markAttendance tz s user (some b) (some d) ps).response
            = Response.created (markRecord tz s user b d ps)
        ∧ (markAttendance tz s user (some b) (some d) ps).store
            = ⟨s.batches,
                Student.bulkWrite (markAttendance tz s user (some b) (some d) ps).writes s.students,
                s.attendances ++ [markRecord tz s user b d ps], s.fees⟩) := by
  unfold markAttendance
  simp only
  split
  · left; simp
  · rename_i hfind
    split
    · left; simp
    · rename_i batch hbatch
      split
      · left; simp
      · rename_i hown
        simp only [ne_eq, not_not] at hown
        unfold Attendance.create
        by_cases hdup :
            (s.attendances.any fun a => decide (a.batchId = b ∧ a.date = endOfDay tz d)) = true
        · rw [if_pos hdup]; left; simp
        · rw [if_neg hdup]
          simp only
          split
          · rename_i hops
            right; left
            exact ⟨hfind, ⟨batch, hbatch, hown⟩, hops, rfl, rfl, rfl⟩
          · rename_i ops hops
            right; right
            simp only [bulkWrite_guard]
            exact ⟨hfind, ⟨batch, hbatch, hown⟩, hops, rfl, rfl⟩

/-- The three ways an `updateAttendance` request can end: nothing is written; the record
is saved and the counter computation throws; the record and the counters are written. -/
theorem updateAttendance_cases (s : Store) (user id : ObjectId) (ps : Option (List ObjectId)) :
    ((updateAttendance s user id ps).store = s
        ∧ (updateAttendance s user id ps).writes = []
        ∧ ∀ r, (updateAttendance s user id ps).response ≠ Response.updated r)
    ∨ (∃ a batch, Attendance.findById s.attendances id = some a
        ∧ Batch.findById s.batches a.batchId = some batch ∧ batch.createdBy = user
        ∧ updateBulkOps (Student.find s.students a.batchId) a.presentStudents ps = none
        ∧ (updateAttendance s user id ps).response = Response.error ErrorKind.serverError
        ∧ (updateAttendance s user id ps).writes = []
        ∧ (updateAttendance s user id ps).store
            = ⟨s.batches, s.students, Attendance.save id ps s.attendances, s.fees⟩)
    ∨ (∃ a batch, Attendance.findById s.attendances id = some a
        ∧ Batch.findById s.batches a.batchId = some batch ∧ batch.createdBy = user
        ∧ updateBulkOps (Student.find s.students a.batchId) a.presentStudents ps
            = some (updateAttendance s user id ps).writes
        ∧ (updateAttendance s user id ps).response
            = Response.updated ⟨a._id, a.batchId, a.date, ps.getD [], a.createdBy⟩
        ∧ (updateAttendance s user id ps).store
            = ⟨s.batches, Student.bulkWrite (updateAttendance s user id ps).writes s.students,
                Attendance.save id ps s.attendances, s.fees⟩) := by
  unfold updateAttendance
  split
  · left; simp
  · rename_i a ha
    split
    · left; simp
    · rename_i batch hbatch
      split
      · left; simp
      · rename_i hown
        simp only [ne_eq, not_not] at hown
        simp only
        split
        · rename_i hops
          right; left
          exact ⟨a, batch, ha, hbatch, hown, hops, rfl, rfl, rfl⟩
        · rename_i ops hops
          right; right
          refine ⟨a, batch, ha, hbatch, hown, hops, rfl, ?_⟩
          simp only [bulkWrite_guard]

/-! ## Helper lemmas: the counters after a bulk write -/

theorem findById_map (l : List Student) (hnd : (l.map Student._id).Nodup)
    (f : Student → Student) (hf : ∀ x, (f x)._id = x._id) (st : Student) (hst : st ∈ l) :
    Student.findById (l.map f) st._id = some (f st) := by
  unfold Student.findById
  induction l with
  | nil => cases hst
  | cons x rest ih =>
    rw [List.map_cons, List.nodup_cons] at hnd
    rw [List.map_cons, List.find?_cons]
    by_cases hx : x._id = st._id
    · have hxs : x = st := by
        rcases List.mem_cons.mp hst with h | h
        · exact h.symm
        · exact absurd (List.mem_map.mpr ⟨st, h, hx.symm⟩) hnd.1
      simp [hf, hxs]
    · have hmem : st ∈ rest := by
        rcases List.mem_cons.mp hst with h | h
        · exact absurd (by rw [h]) hx
        · exact h
      simp only [hf, hx, decide_False]
      exact ih hnd.2 hmem

theorem find_eq_filter (l : List Student) (b : ObjectId) :
    Student.find l b
      = l.filter (fun st => decide (st.batchId = b ∧ st.status = StudentStatus.active)) := rfl

/-- The students after the bulk write of `markAttendance`. -/
theorem bulkWrite_mark (l : List Student) (hnd : (l.map Student._id).Nodup) (b : ObjectId)
    (ps : Option (List ObjectId)) (ops : List UpdateOne)
    (hops : markBulkOps (Student.find l b) ps = some ops) :
    Student.bulkWrite ops l
      = l.map (fun st => if st.batchId = b ∧ st.status = StudentStatus.active
                then (markOp (ps.getD []) st).set st else st) := by
  cases ps with
  | some ps =>
    simp only [markBulkOps, Option.some.injEq] at hops
    rw [← hops, find_eq_filter, ← List.filterMap_eq_map,
      bulkWrite_filterMap l hnd _ _ (by intro st op h; cases h; rfl)]
    apply List.map_congr_left
    intro st _
    simp
  | none =>
    simp only [markBulkOps] at hops
    split at hops
    · rename_i hempty
      cases hops
      have hnone : ∀ st ∈ l, ¬ (st.batchId = b ∧ st.status = StudentStatus.active) := by
        intro st hst hp
        have : st ∈ Student.find l b := by
          rw [find_eq_filter]; exact List.mem_filter.mpr ⟨hst, by simpa using hp⟩
        rw [List.isEmpty_iff.mp hempty] at this
        cases this
      have hid : ∀ st ∈ l, (if st.batchId = b ∧ st.status = StudentStatus.active
          then (markOp (none.getD []) st).set st else st) = st := by
        intro st hst; rw [if_neg (hnone st hst)]
      rw [List.map_congr_left hid]; simp [Student.bulkWrite]
    · cases hops

theorem updateOp_some (old new : List ObjectId) (st : Student) (op : UpdateOne)
    (h : updateOp old new st = some op) : op.filterId = st._id ∧ op.totalClasses = none := by
  unfold updateOp at h
  simp only at h
  split at h
  · cases h
  · cases h; exact ⟨rfl, rfl⟩

/-- The students after the bulk write of `updateAttendance`. -/
theorem bulkWrite_update (l : List Student) (hnd : (l.map Student._id).Nodup) (b : ObjectId)
    (old : List ObjectId) (ps : Option (List ObjectId)) (ops : List UpdateOne)
    (hops : updateBulkOps (Student.find l b) old ps = some ops) :
    Student.bulkWrite ops l
      = l.map (fun st => if st.batchId = b ∧ st.status = StudentStatus.active
                then (match updateOp old (ps.getD []) st with
                      | some op => op.set st
                      | none => st)
                else st) := by
  cases ps with
  | some ps =>
    simp only [updateBulkOps, Option.some.injEq] at hops
    rw [← hops, find_eq_filter,
      bulkWrite_filterMap l hnd _ _ (fun st op h => (updateOp_some old ps st op h).1)]
    apply List.map_congr_left
    intro st _
    simp
  | none =>
    simp only [updateBulkOps] at hops
    split at hops
    · rename_i hempty
      cases hops
      have hnone : ∀ st ∈ l, ¬ (st.batchId = b ∧ st.status = StudentStatus.active) := by
        intro st hst hp
        have : st ∈ Student.find l b := by
          rw [find_eq_filter]; exact List.mem_filter.mpr ⟨hst, by simpa using hp⟩
        rw [List.isEmpty_iff.mp hempty] at this
        cases this
      have hid : ∀ st ∈ l, (if st.batchId = b ∧ st.status = StudentStatus.active
          then (match updateOp old (none.getD []) st with
                | some op => op.set st
                | none => st)
          else st) = st := by
        intro st hst; rw [if_neg (hnone st hst)]
      rw [List.map_congr_left hid]; simp [Student.bulkWrite]
    · cases hops

/-! ## Counter updates of `markAttendance` -/

/-- C3, as the code has it: after a `markAttendance` call that creates a record (student ids
being unique, as in every collection), every active student of the batch has `totalClasses`
one higher, `presentClasses` one higher exactly when the student's id was submitted as
present, and `attendancePercentage` recomputed from the new values as the double
`(presentClasses / totalClasses) * 100`; the branch for a new total of zero is not taken
when the old total is non-negative, and the stored percentage is then within a relative
error of `2 ^ (-51)` of `100 * presentClasses / totalClasses`. -/
theorem markAttendance_counters (tz : Int) (s : Store) (user batchId : ObjectId) (date : Int)
    (presentStudents : Option (List ObjectId)) (r : Attendance)
    (hids : (s.students.map Student._id).Nodup)
    (hcreated : (markAttendance tz s user (some batchId) (some date) presentStudents).response
      = Response.created r)
    (st : Student) (hst : st ∈ s.students) (hbatch : st.batchId = batchId)
    (hactive : st.status = StudentStatus.active) :
    Student.findById
        (markAttendance tz s user (some batchId) (some date) presentStudents).store.students st._id
      = some ⟨st._id, st.batchId, st.status,
          st.totalClasses + 1,
          st.presentClasses + (if st._id ∈ presentStudents.getD [] then 1 else 0),
          if st.totalClasses + 1 = 0 then 0
          else jsPercentage
            (st.presentClasses + (if st._id ∈ presentStudents.getD [] then 1 else 0))
            (st.totalClasses + 1)⟩
    ∧ (0 ≤ st.totalClasses →
        st.totalClasses + 1 ≠ 0
        ∧ (markOp (presentStudents.getD []) st).attendancePercentage
          = jsPercentage
              (st.presentClasses + (if st._id ∈ presentStudents.getD [] then 1 else 0))
              (st.totalClasses + 1)
        ∧ |(markOp (presentStudents.getD []) st).attendancePercentage
            - 100 * ((st.presentClasses
                + (if st._id ∈ presentStudents.getD [] then 1 else 0) : Int) : ℚ)
              / ((st.totalClasses + 1 : Int) : ℚ)|
          ≤ |100 * ((st.presentClasses
                + (if st._id ∈ presentStudents.getD [] then 1 else 0) : Int) : ℚ)
              / ((st.totalClasses + 1 : Int) : ℚ)| / 2 ^ 51) := by
  refine ⟨?_, fun h => ?_⟩
  swap
  · have h0 : st.totalClasses + 1 ≠ 0 := by omega
    have hpct : (markOp (presentStudents.getD []) st).attendancePercentage
        = jsPercentage
            (st.presentClasses + (if st._id ∈ presentStudents.getD [] then 1 else 0))
            (st.totalClasses + 1) := by
      by_cases hm : st._id ∈ presentStudents.getD [] <;> simp [markOp, hm, h0]
    refine ⟨h0, hpct, ?_⟩
    rw [hpct]
    exact jsPercentage_err _ _ h0
  rcases markAttendance_cases tz s user batchId date presentStudents with h | h | h
  · exact absurd hcreated (h.2.2 r)
  · rw [h.2.2.2.1] at hcreated; cases hcreated
  · obtain ⟨_, _, hops, _, hstore⟩ := h
    rw [hstore]
    simp only
    rw [bulkWrite_mark s.students hids batchId presentStudents _ hops,
      findById_map s.students hids _ (by intro x; split <;> rfl) st hst,
      if_pos ⟨hbatch, hactive⟩]
    by_cases hm : st._id ∈ presentStudents.getD [] <;>
      by_cases h0 : st.totalClasses + 1 = 0 <;>
      simp [markOp, UpdateOne.set, hm, h0]

/-- Scenario A: from zero counters, marking students `1` and `2` present gives student `1`
the counters `(1, 1, 100)` and student `3` the counters `(1, 0, 0)`. -/
theorem markAttendance_counters_witness :
    Student.findById
        (markAttendance 0 scenarioA 1 (some 10) (some march1) (some [1, 2])).store.students 1
      = some ⟨1, 10, StudentStatus.active, 1, 1, 100⟩
    ∧ Student.findById
        (markAttendance 0 scenarioA 1 (some 10) (some march1) (some [1, 2])).store.students 3
      = some ⟨3, 10, StudentStatus.active, 1, 0, 0⟩ := by
  have hids : (scenarioA.students.map Student._id).Nodup := by decide
  have hcreated : (markAttendance 0 scenarioA 1 (some 10) (some march1) (some [1, 2])).response
      = Response.created ⟨1, 10, 1709337599999, [1, 2], 1⟩ := by decide
  have h1 := (markAttendance_counters 0 scenarioA 1 10 march1 (some [1, 2]) _ hids hcreated
    ⟨1, 10, StudentStatus.active, 0, 0, 0⟩ (by simp [scenarioA]) rfl rfl).1
  have h3 := (markAttendance_counters 0 scenarioA 1 10 march1 (some [1, 2]) _ hids hcreated
    ⟨3, 10, StudentStatus.active, 0, 0, 0⟩ (by simp [scenarioA]) rfl rfl).1
  constructor
  · rw [h1]; norm_num [jsPercentage_one_one]
  · rw [h3]; norm_num [jsPercentage_zero]

/-- C3 fails as stated: in `scenarioQuarter` the student has 24 classes counted and 6
attended; the `markAttendance` request with the student present creates a record and
stores `totalClasses = 25`, `presentClasses = 7` and the percentage
`7881299347898369 / 2 ^ 48` (printed `28.000000000000004`), which is not `100 * 7 / 25`. -/
theorem markAttendance_percentage_inexact :
    (∃ r, (markAttendance 0 scenarioQuarter 1 (some 10) (some march1) (some [1])).response
      = Response.created r)
    ∧ ∃ st, Student.findById
          (markAttendance 0 scenarioQuarter 1 (some 10) (some march1) (some [1])).store.students 1
        = some st
      ∧ st.totalClasses = 25 ∧ st.presentClasses = 7
      ∧ st.attendancePercentage = 7881299347898369 / 2 ^ 48
      ∧ st.attendancePercentage ≠ 100 * (st.presentClasses : ℚ) / (st.totalClasses : ℚ) := by
  have h : Student.findById
        (markAttendance 0 scenarioQuarter 1 (some 10) (some march1) (some [1])).store.students 1
      = some ⟨1, 10, StudentStatus.active, 25, 7, mkRat 7881299347898369 (2 ^ 48)⟩ := by decide
  exact ⟨⟨_, rfl⟩, _, h, rfl, rfl, by norm_num [Rat.mkRat_eq_div],
    by norm_num [Rat.mkRat_eq_div]⟩

/-! ## Frame of `markAttendance` -/

theorem findById_self (l : List Student) (hnd : (l.map Student._id).Nodup) (st : Student)
    (hst : st ∈ l) : Student.findById l st._id = some st := by
  have h := findById_map l hnd id (fun _ => rfl) st hst
  rwa [List.map_id] at h

/-- C4: `markAttendance` (student ids being unique, as in every collection) leaves the
document of every student that is not an active student of the batch as it was, all three
counters included, whatever ids were submitted as present, and a created record holds the
submitted ids. -/
theorem markAttendance_frame (tz : Int) (s : Store) (user : ObjectId)
    (batchId : Option ObjectId) (date : Option Int) (presentStudents : Option (List ObjectId))
    (hids : (s.students.map Student._id).Nodup)
    (st : Student) (hst : st ∈ s.students)
    (hout : ¬ (some st.batchId = batchId ∧ st.status = StudentStatus.active)) :
    Student.findById (markAttendance tz s user batchId date presentStudents).store.students st._id
      = some st
    ∧ ∀ r, (markAttendance tz s user batchId date presentStudents).response = Response.created r →
        r.presentStudents = presentStudents.getD [] := by
  cases batchId with
  | none => exact ⟨findById_self _ hids st hst, fun r h => by cases h⟩
  | some b =>
    cases date with
    | none => exact ⟨findById_self _ hids st hst, fun r h => by cases h⟩
    | some d =>
      rcases markAttendance_cases tz s user b d presentStudents with h | h | h
      · rw [h.1]
        exact ⟨findById_self _ hids st hst, fun r hr => absurd hr (h.2.2 r)⟩
      · obtain ⟨_, _, _, hresp, _, hstore⟩ := h
        rw [hstore, hresp]
        exact ⟨findById_self _ hids st hst, fun r hr => by cases hr⟩
      · obtain ⟨_, _, hops, hresp, hstore⟩ := h
        rw [hstore, hresp]
        refine ⟨?_, fun r hr => ?_⟩
        · simp only
          rw [bulkWrite_mark s.students hids b presentStudents _ hops,
            findById_map s.students hids _ (by intro x; split <;> rfl) st hst,
            if_neg (fun hp => hout ⟨by rw [hp.1], hp.2⟩)]
        · cases hr; rfl

/-- An inactive student of the marked batch whose id is submitted as present keeps the
counters, while the created record lists the id. -/
theorem markAttendance_frame_witness :
    Student.findById
        (markAttendance 0
          ⟨[⟨10, 500, 1⟩],
            [⟨1, 10, StudentStatus.active, 4, 2, 50⟩, ⟨2, 10, StudentStatus.inactive, 4, 1, 25⟩],
            [], []⟩
          1 (some 10) (some march1) (some [1, 2])).store.students 2
      = some ⟨2, 10, StudentStatus.inactive, 4, 1, 25⟩
    ∧ ∀ r, (markAttendance 0
          ⟨[⟨10, 500, 1⟩],
            [⟨1, 10, StudentStatus.active, 4, 2, 50⟩, ⟨2, 10, StudentStatus.inactive, 4, 1, 25⟩],
            [], []⟩
          1 (some 10) (some march1) (some [1, 2])).response = Response.created r →
        r.presentStudents = [1, 2] :=
  markAttendance_frame 0
    ⟨[⟨10, 500, 1⟩],
      [⟨1, 10, StudentStatus.active, 4, 2, 50⟩, ⟨2, 10, StudentStatus.inactive, 4, 1, 25⟩],
      [], []⟩
    1 (some 10) (some march1) (some [1, 2]) (by decide)
    ⟨2, 10, StudentStatus.inactive, 4, 1, 25⟩ (by simp) (by decide)

/-! ## Counter updates of `updateAttendance` -/

theorem save_findById (l : List Attendance) (id : ObjectId) (ps : Option (List ObjectId))
    (a : Attendance) (h : Attendance.findById l id = some a) :
    Attendance.findById (Attendance.save id ps l) id
      = some ⟨a._id, a.batchId, a.date, ps.getD [], a.createdBy⟩ := by
  unfold Attendance.findById at h ⊢
  induction l with
  | nil => cases h
  | cons x rest ih =>
    unfold Attendance.save
    by_cases hx : x._id = id
    · rw [List.find?_cons, show decide (x._id = id) = true by simpa using hx] at h
      cases h
      simp [hx]
    · rw [List.find?_cons, show decide (x._id = id) = false by simpa using hx] at h
      simp only [hx, if_false, List.find?_cons, decide_False]
      exact ih h

/-- The document `updateAttendance` leaves for an active student of the batch. -/
theorem updateOp_set (old new : List ObjectId) (st : Student) :
    (match updateOp old new st with
      | some op => op.set st
      | none => st)
      = ⟨st._id, st.batchId, st.status, st.totalClasses,
          if st._id ∈ old ∧ st._id ∉ new then st.presentClasses - 1
          else if st._id ∉ old ∧ st._id ∈ new then st.presentClasses + 1
          else st.presentClasses,
          if st._id ∈ old ∧ st._id ∉ new then
            (if st.totalClasses = 0 then 0
              else jsPercentage (st.presentClasses - 1) st.totalClasses)
          else if st._id ∉ old ∧ st._id ∈ new then
            (if st.totalClasses = 0 then 0
              else jsPercentage (st.presentClasses + 1) st.totalClasses)
          else st.attendancePercentage⟩ := by
  obtain ⟨sid, sbatch, sstatus, total, present, pct⟩ := st
  by_cases hw : sid ∈ old <;> by_cases hi : sid ∈ new <;>
    simp [updateOp, UpdateOne.set, hw, hi]

/-- C5, as the code has it: after a successful `updateAttendance` (student ids being unique,
as in every collection), every active student of the record's batch has `presentClasses`
lowered by one when the student went from present to absent, raised by one when the student
went from absent to present, and untouched otherwise; a student whose presence changed gets
as `attendancePercentage` the double `(presentClasses / totalClasses) * 100` from the new
count (0 for a total of zero), which is within a relative error of `2 ^ (-51)` of
`100 * presentClasses / totalClasses`; `totalClasses` stays; and the record holds the new
list. -/
theorem updateAttendance_counters (s : Store) (user attendanceId : ObjectId)
    (presentStudents : Option (List ObjectId)) (a r : Attendance)
    (hids : (s.students.map Student._id).Nodup)
    (hrecord : Attendance.findById s.attendances attendanceId = some a)
    (hupdated : (updateAttendance s user attendanceId presentStudents).response
      = Response.updated r)
    (st : Student) (hst : st ∈ s.students) (hbatch : st.batchId = a.batchId)
    (hactive : st.status = StudentStatus.active) :
    Student.findById
        (updateAttendance s user attendanceId presentStudents).store.students st._id
      = some ⟨st._id, st.batchId, st.status, st.totalClasses,
          if st._id ∈ a.presentStudents ∧ st._id ∉ presentStudents.getD [] then
            st.presentClasses - 1
          else if st._id ∉ a.presentStudents ∧ st._id ∈ presentStudents.getD [] then
            st.presentClasses + 1
          else st.presentClasses,
          if st._id ∈ a.presentStudents ∧ st._id ∉ presentStudents.getD [] then
            (if st.totalClasses = 0 then 0
              else jsPercentage (st.presentClasses - 1) st.totalClasses)
          else if st._id ∉ a.presentStudents ∧ st._id ∈ presentStudents.getD [] then
            (if st.totalClasses = 0 then 0
              else jsPercentage (st.presentClasses + 1) st.totalClasses)
          else st.attendancePercentage⟩
    ∧ Attendance.findById
        (updateAttendance s user attendanceId presentStudents).store.attendances attendanceId
      = some ⟨a._id, a.batchId, a.date, presentStudents.getD [], a.createdBy⟩
    ∧ (st.totalClasses ≠ 0 →
        |jsPercentage (st.presentClasses - 1) st.totalClasses
            - 100 * ((st.presentClasses - 1 : Int) : ℚ) / (st.totalClasses : ℚ)|
          ≤ |100 * ((st.presentClasses - 1 : Int) : ℚ) / (st.totalClasses : ℚ)| / 2 ^ 51
        ∧ |jsPercentage (st.presentClasses + 1) st.totalClasses
            - 100 * ((st.presentClasses + 1 : Int) : ℚ) / (st.totalClasses : ℚ)|
          ≤ |100 * ((st.presentClasses + 1 : Int) : ℚ) / (st.totalClasses : ℚ)| / 2 ^ 51) := by
  refine ⟨?_, ?_, fun h0 => ⟨jsPercentage_err _ _ h0, jsPercentage_err _ _ h0⟩⟩
  · rcases updateAttendance_cases s user attendanceId presentStudents with h | h | h
    · exact absurd hupdated (h.2.2 r)
    · obtain ⟨_, _, _, _, _, _, hresp, _⟩ := h
      rw [hresp] at hupdated; cases hupdated
    · obtain ⟨a2, batch, ha2, _, _, hops, _, hstore⟩ := h
      rw [hrecord] at ha2
      cases ha2
      rw [hstore]
      simp only
      rw [bulkWrite_update s.students hids a.batchId a.presentStudents presentStudents _ hops,
        findById_map s.students hids _ (by
          intro x; split
          · split <;> rfl
          · rfl) st hst,
        if_pos ⟨hbatch, hactive⟩, updateOp_set]
  · rcases updateAttendance_cases s user attendanceId presentStudents with h | h | h
    · exact absurd hupdated (h.2.2 r)
    · obtain ⟨_, _, _, _, _, _, hresp, _⟩ := h
      rw [hresp] at hupdated; cases hupdated
    · obtain ⟨a2, batch, ha2, _, _, hops, _, hstore⟩ := h
      rw [hstore]
      exact save_findById _ _ _ _ hrecord

/-- Scenario B: with students `1` and `2` recorded present, updating the record to `[1]`
takes student `2` to `presentClasses = 0` and `attendancePercentage = 0`, leaves students
`1` and `3` as they were, keeps every total at `1`, and stores `[1]` in the record. -/
theorem updateAttendance_counters_witness :
    Student.findById (updateAttendance scenarioB 1 1 (some [1])).store.students 2
      = some ⟨2, 10, StudentStatus.active, 1, 0, 0⟩
    ∧ Student.findById (updateAttendance scenarioB 1 1 (some [1])).store.students 1
      = some ⟨1, 10, StudentStatus.active, 1, 1, 100⟩
    ∧ Student.findById (updateAttendance scenarioB 1 1 (some [1])).store.students 3
      = some ⟨3, 10, StudentStatus.active, 1, 0, 0⟩
    ∧ Attendance.findById (updateAttendance scenarioB 1 1 (some [1])).store.attendances 1
      = some ⟨1, 10, 1709337599999, [1], 1⟩ := by
  have hids : (scenarioB.students.map Student._id).Nodup := by decide
  have hrecord : Attendance.findById scenarioB.attendances 1
      = some ⟨1, 10, 1709337599999, [1, 2], 1⟩ := by decide
  have hupdated : (updateAttendance scenarioB 1 1 (some [1])).response
      = Response.updated ⟨1, 10, 1709337599999, [1], 1⟩ := by decide
  have h2 := updateAttendance_counters scenarioB 1 1 (some [1]) _ _ hids hrecord hupdated
    ⟨2, 10, StudentStatus.active, 1, 1, 100⟩ (by simp [scenarioB]) rfl rfl
  have h1 := updateAttendance_counters scenarioB 1 1 (some [1]) _ _ hids hrecord hupdated
    ⟨1, 10, StudentStatus.active, 1, 1, 100⟩ (by simp [scenarioB]) rfl rfl
  have h3 := updateAttendance_counters scenarioB 1 1 (some [1]) _ _ hids hrecord hupdated
    ⟨3, 10, StudentStatus.active, 1, 0, 0⟩ (by simp [scenarioB]) rfl rfl
  refine ⟨?_, ?_, ?_, h2.2.1⟩
  · rw [h2.1]; norm_num [jsPercentage_zero]
  · rw [h1.1]; norm_num
  · rw [h3.1]; norm_num

/-- C5 fails as stated: in `scenarioThirds` the student has three classes counted and none
attended; the `updateAttendance` request that adds the student to record `1` succeeds and
stores `presentClasses = 1` and the percentage `4691249611844266 / 2 ^ 47` (printed
`33.33333333333333`), which is not `100 * 1 / 3`. -/
theorem updateAttendance_percentage_inexact :
    (∃ r, (updateAttendance scenarioThirds 1 1 (some [1])).response = Response.updated r)
    ∧ ∃ st, Student.findById (updateAttendance scenarioThirds 1 1 (some [1])).store.students 1
        = some st
      ∧ st.totalClasses = 3 ∧ st.presentClasses = 1
      ∧ st.attendancePercentage = 4691249611844266 / 2 ^ 47
      ∧ st.attendancePercentage ≠ 100 * (st.presentClasses : ℚ) / (st.totalClasses : ℚ) := by
  have h : Student.findById (updateAttendance scenarioThirds 1 1 (some [1])).store.students 1
      = some ⟨1, 10, StudentStatus.active, 3, 1, mkRat 4691249611844266 (2 ^ 47)⟩ := by decide
  exact ⟨⟨_, rfl⟩, _, h, rfl, rfl, by norm_num [Rat.mkRat_eq_div],
    by norm_num [Rat.mkRat_eq_div]⟩

/-- The store of scenario B is the one `markAttendance` produces in scenario A. -/
theorem scenarioA_marked :
    (markAttendance 0 scenarioA 1 (some 10) (some march1) (some [1, 2])).store = scenarioB := by
  rcases markAttendance_cases 0 scenarioA 1 10 march1 (some [1, 2]) with h | h | h
  · exact absurd (show (markAttendance 0 scenarioA 1 (some 10) (some march1) (some [1, 2])).response
      = Response.created ⟨1, 10, 1709337599999, [1, 2], 1⟩ by decide) (h.2.2 _)
  · have := h.2.2.1; simp [markBulkOps, scenarioA, Student.find] at this
  · obtain ⟨_, _, hops, _, hstore⟩ := h
    rw [hstore, bulkWrite_mark _ (by decide) 10 (some [1, 2]) _ hops]
    simp [scenarioA, scenarioB, markOp, UpdateOne.set, markRecord, freshId]
    decide

/-! ## `updateAttendance` never writes `totalClasses` -/

theorem updateOne_total (op : UpdateOne) (hop : op.totalClasses = none) (l : List Student) :
    (Student.updateOne op l).map (fun st => (st._id, st.totalClasses))
      = l.map (fun st => (st._id, st.totalClasses)) := by
  induction l with
  | nil => rfl
  | cons st rest ih =>
    unfold Student.updateOne
    split
    · simp [UpdateOne.set, hop]
    · simp [ih]

theorem bulkWrite_total (ops : List UpdateOne) (hops : ∀ op ∈ ops, op.totalClasses = none)
    (l : List Student) :
    (Student.bulkWrite ops l).map (fun st => (st._id, st.totalClasses))
      = l.map (fun st => (st._id, st.totalClasses)) := by
  induction ops generalizing l with
  | nil => rfl
  | cons op rest ih =>
    show (Student.bulkWrite rest (Student.updateOne op l)).map _ = _
    rw [ih (fun o ho => hops o (List.mem_cons_of_mem _ ho)),
      updateOne_total op (hops op (List.mem_cons_self _ _))]

theorem updateBulkOps_total (students : List Student) (old : List ObjectId)
    (ps : Option (List ObjectId)) (ops : List UpdateOne)
    (h : updateBulkOps students old ps = some ops) : ∀ op ∈ ops, op.totalClasses = none := by
  cases ps with
  | some new =>
    simp only [updateBulkOps, Option.some.injEq] at h
    subst h
    intro op hop
    obtain ⟨st, _, hst⟩ := List.mem_filterMap.mp hop
    exact (updateOp_some old new st op hst).2
  | none =>
    simp only [updateBulkOps] at h
    split at h
    · cases h; intro op hop; cases hop
    · cases h

/-- C6: whatever the store and the request, and whether the call succeeds or fails,
`updateAttendance` leaves the `totalClasses` of every student as it was. -/
theorem updateAttendance_totalClasses (s : Store) (user attendanceId : ObjectId)
    (presentStudents : Option (List ObjectId)) :
    (updateAttendance s user attendanceId presentStudents).store.students.map
        (fun st => (st._id, st.totalClasses))
      = s.students.map (fun st => (st._id, st.totalClasses)) := by
  rcases updateAttendance_cases s user attendanceId presentStudents with h | h | h
  · rw [h.1]
  · obtain ⟨_, _, _, _, _, _, _, _, hstore⟩ := h
    rw [hstore]
  · obtain ⟨a, _, _, _, _, hops, _, hstore⟩ := h
    rw [hstore]
    exact bulkWrite_total _ (updateBulkOps_total _ _ _ _ hops) _

/-! ## Idempotence of `updateAttendance` -/

theorem save_save (id : ObjectId) (ps : Option (List ObjectId)) (l : List Attendance) :
    Attendance.save id ps (Attendance.save id ps l) = Attendance.save id ps l := by
  induction l with
  | nil => rfl
  | cons x rest ih =>
    by_cases hx : x._id = id
    · simp [Attendance.save, hx]
    · simp [Attendance.save, hx, ih]

theorem updateOp_same (ps : List ObjectId) (st : Student) : updateOp ps ps st = none := by
  simp [updateOp]

theorem updateBulkOps_same (students : List Student) (ps : List ObjectId) :
    updateBulkOps students ps (some ps) = some [] := by
  simp only [updateBulkOps, Option.some.injEq]
  exact List.filterMap_eq_nil_iff.mpr (fun st _ => updateOp_same ps st)

/-- The outcome of `updateAttendance` once the record and its batch are found and the
batch belongs to the acting teacher. -/
theorem updateAttendance_authorized (s : Store) (user id : ObjectId)
    (ps : Option (List ObjectId)) (a : Attendance) (batch : Batch)
    (ha : Attendance.findById s.attendances id = some a)
    (hb : Batch.findById s.batches a.batchId = some batch) (hown : batch.createdBy = user) :
    updateAttendance s user id ps
      = match updateBulkOps (Student.find s.students a.batchId) a.presentStudents ps with
        | none =>
          ⟨Response.error ErrorKind.serverError, [],
            ⟨s.batches, s.students, Attendance.save id ps s.attendances, s.fees⟩⟩
        | some ops =>
          ⟨Response.updated ⟨a._id, a.batchId, a.date, ps.getD [], a.createdBy⟩, ops,
            ⟨s.batches, Student.bulkWrite ops s.students, Attendance.save id ps s.attendances,
              s.fees⟩⟩ := by
  unfold updateAttendance
  rw [ha]
  simp only
  rw [hb]
  simp only [hown, ne_eq, not_true_eq_false, if_false]
  split <;> simp_all [bulkWrite_guard]

/-- C7: `updateAttendance` is idempotent. Repeating the same request on the store the
first request left gives the same store again (records and all student counters), the
same response, and an empty list of counter writes. -/
theorem updateAttendance_idempotent (s : Store) (user attendanceId : ObjectId)
    (presentStudents : Option (List ObjectId)) :
    (updateAttendance (updateAttendance s user attendanceId presentStudents).store
        user attendanceId presentStudents).store
      = (updateAttendance s user attendanceId presentStudents).store
    ∧ (updateAttendance (updateAttendance s user attendanceId presentStudents).store
        user attendanceId presentStudents).writes = []
    ∧ (updateAttendance (updateAttendance s user attendanceId presentStudents).store
        user attendanceId presentStudents).response
      = (updateAttendance s user attendanceId presentStudents).response := by
  rcases updateAttendance_cases s user attendanceId presentStudents with h | h | h
  · obtain ⟨hstore, hwrites, _⟩ := h
    rw [hstore]
    exact ⟨hstore, hwrites, rfl⟩
  · obtain ⟨a, batch, ha, hb, hown, hops, hresp, _, hstore⟩ := h
    rw [hstore, hresp]
    have ha2 := save_findById s.attendances attendanceId presentStudents a ha
    rw [updateAttendance_authorized
      ⟨s.batches, s.students, Attendance.save attendanceId presentStudents s.attendances, s.fees⟩
      user attendanceId presentStudents
      ⟨a._id, a.batchId, a.date, presentStudents.getD [], a.createdBy⟩ batch ha2 hb hown]
    cases presentStudents with
    | some new => simp [updateBulkOps] at hops
    | none =>
      simp only [updateBulkOps] at hops ⊢
      split at hops
      · cases hops
      · rename_i hne
        simp [hne, save_save]
  · obtain ⟨a, batch, ha, hb, hown, hops, hresp, hstore⟩ := h
    rw [hstore, hresp]
    have ha2 := save_findById s.attendances attendanceId presentStudents a ha
    rw [updateAttendance_authorized
      ⟨s.batches, Student.bulkWrite (updateAttendance s user attendanceId presentStudents).writes
        s.students, Attendance.save attendanceId presentStudents s.attendances, s.fees⟩
      user attendanceId presentStudents
      ⟨a._id, a.batchId, a.date, presentStudents.getD [], a.createdBy⟩ batch ha2 hb hown]
    cases presentStudents with
    | some new =>
      simp only [Option.getD_some, updateBulkOps_same, save_save]
      refine ⟨?_, ?_, ?_⟩ <;> first | rfl | trivial
    | none =>
      simp only [updateBulkOps] at hops
      split at hops
      · rename_i hempty
        have hw : (updateAttendance s user attendanceId none).writes = [] :=
          (Option.some.inj hops).symm
        rw [hw]
        simp only [Student.bulkWrite, List.foldl_nil, updateBulkOps, hempty, if_true, save_save]
        refine ⟨?_, ?_, ?_⟩ <;> first | rfl | trivial
      · cases hops

/-! ## Rejected requests -/

/-- C8: a `markAttendance` request with `batchId` and `date`, for a day on which the batch
has no record, fails with NotFound when the batch does not exist and with Unauthorized when
the batch belongs to another teacher; in both cases nothing is written. -/
theorem markAttendance_rejects (tz : Int) (s : Store) (user batchId : ObjectId) (date : Int)
    (presentStudents : Option (List ObjectId))
    (hfree : Attendance.findOne s.attendances batchId (startOfDay tz date) (endOfDay tz date)
      = none) :
    (Batch.findById s.batches batchId = none →
        markAttendance tz s user (some batchId) (some date) presentStudents
          = ⟨Response.error ErrorKind.notFound, [], s⟩)
    ∧ (∀ batch, Batch.findById s.batches batchId = some batch → batch.createdBy ≠ user →
        markAttendance tz s user (some batchId) (some date) presentStudents
          = ⟨Response.error ErrorKind.unauthorized, [], s⟩) := by
  constructor
  · intro hb
    unfold markAttendance
    simp only [hfree, hb]
  · intro batch hb hown
    unfold markAttendance
    simp only [hfree, hb, hown, ne_eq, not_false_eq_true, if_true]

/-- In scenario A a request for the missing batch `11` is answered NotFound and a request
of teacher `2` for batch `10` is answered Unauthorized, the store staying as it was. -/
theorem markAttendance_rejects_witness :
    markAttendance 0 scenarioA 1 (some 11) (some march1) (some [1, 2])
      = ⟨Response.error ErrorKind.notFound, [], scenarioA⟩
    ∧ markAttendance 0 scenarioA 2 (some 10) (some march1) (some [1, 2])
      = ⟨Response.error ErrorKind.unauthorized, [], scenarioA⟩ :=
  ⟨(markAttendance_rejects 0 scenarioA 1 11 march1 (some [1, 2]) (by decide)).1 (by decide),
    (markAttendance_rejects 0 scenarioA 2 10 march1 (some [1, 2]) (by decide)).2
      ⟨10, 500, 1⟩ (by decide) (by decide)⟩

/-- C9: `updateAttendance` fails with NotFound when no record has the id and with
Unauthorized when the record's batch belongs to another teacher; in both cases nothing is
written, so the record and every student counter are as before. -/
theorem updateAttendance_rejects (s : Store) (user attendanceId : ObjectId)
    (presentStudents : Option (List ObjectId)) :
    (Attendance.findById s.attendances attendanceId = none →
        updateAttendance s user attendanceId presentStudents
          = ⟨Response.error ErrorKind.notFound, [], s⟩)
    ∧ (∀ a batch, Attendance.findById s.attendances attendanceId = some a →
        Batch.findById s.batches a.batchId = some batch → batch.createdBy ≠ user →
        updateAttendance s user attendanceId presentStudents
          = ⟨Response.error ErrorKind.unauthorized, [], s⟩) := by
  constructor
  · intro ha
    unfold updateAttendance
    simp only [ha]
  · intro a batch ha hb hown
    unfold updateAttendance
    simp only [ha, hb, hown, ne_eq, not_false_eq_true, if_true]

/-- In scenario B an update of the missing record `2` is answered NotFound and an update of
record `1` by teacher `2` is answered Unauthorized, the store staying as it was. -/
theorem updateAttendance_rejects_witness :
    updateAttendance scenarioB 1 2 (some [1]) = ⟨Response.error ErrorKind.notFound, [], scenarioB⟩
    ∧ updateAttendance scenarioB 2 1 (some [1])
      = ⟨Response.error ErrorKind.unauthorized, [], scenarioB⟩ :=
  ⟨(updateAttendance_rejects scenarioB 1 2 (some [1])).1 (by decide),
    (updateAttendance_rejects scenarioB 2 1 (some [1])).2 ⟨1, 10, 1709337599999, [1, 2], 1⟩
      ⟨10, 500, 1⟩ (by decide) (by decide) (by decide)⟩

/-! ## The record `markAttendance` creates -/

/-- C10, as the code has it: the record created by `markAttendance` carries the requested
batch, the acting teacher as `createdBy`, the end of the submitted day as date, and the
submitted `presentStudents` list as it came, every id as often as it was submitted (the
empty list when none was submitted); it is the record appended to the collection. -/
theorem markAttendance_record (tz : Int) (s : Store) (user batchId : ObjectId) (date : Int)
    (presentStudents : Option (List ObjectId)) (r : Attendance)
    (hcreated : (markAttendance tz s user (some batchId) (some date) presentStudents).response
      = Response.created r) :
    r.batchId = batchId ∧ r.createdBy = user ∧ r.date = endOfDay tz date
    ∧ r.presentStudents = presentStudents.getD []
    ∧ (∀ id, r.presentStudents.count id = (presentStudents.getD []).count id)
    ∧ (markAttendance tz s user (some batchId) (some date) presentStudents).store.attendances
        = s.attendances ++ [r] := by
  rcases markAttendance_cases tz s user batchId date presentStudents with h | h | h
  · exact absurd hcreated (h.2.2 r)
  · rw [h.2.2.2.1] at hcreated; cases hcreated
  · obtain ⟨_, _, _, hresp, hstore⟩ := h
    rw [hresp] at hcreated
    cases hcreated
    rw [hstore]
    exact ⟨rfl, rfl, rfl, rfl, fun _ => rfl, rfl⟩

/-- In scenario A the submitted list `[1, 1]` is stored as `[1, 1]`. -/
theorem markAttendance_record_witness :
    (markAttendance 0 scenarioA 1 (some 10) (some march1) (some [1, 1])).response
      = Response.created ⟨1, 10, 1709337599999, [1, 1], 1⟩
    ∧ (markAttendance 0 scenarioA 1 (some 10) (some march1) (some [1, 1])).store.attendances
      = [⟨1, 10, 1709337599999, [1, 1], 1⟩] :=
  ⟨by decide,
    (markAttendance_record 0 scenarioA 1 10 march1 (some [1, 1])
      ⟨1, 10, 1709337599999, [1, 1], 1⟩ (by decide)).2.2.2.2.2⟩

/-- C10 fails as stated: submitting the id `1` twice creates a record that lists it twice. -/
theorem markAttendance_keeps_duplicates :
    ∃ r, (markAttendance 0 scenarioA 1 (some 10) (some march1) (some [1, 1])).response
        = Response.created r
      ∧ ¬ r.presentStudents.Nodup :=
  ⟨⟨1, 10, 1709337599999, [1, 1], 1⟩, by decide, by decide⟩

/-! ## One record per batch and day -/

theorem endOfDay_eq (tz date : Int) : endOfDay tz date = startOfDay tz date + 86399999 := by
  unfold endOfDay startOfDay setHours msPerDay
  omega

theorem startOfDay_le (tz date : Int) : startOfDay tz date ≤ endOfDay tz date := by
  rw [endOfDay_eq]; omega

theorem endOfDay_congr (tz d1 d2 : Int) (h : startOfDay tz d1 = startOfDay tz d2) :
    endOfDay tz d1 = endOfDay tz d2 := by
  rw [endOfDay_eq, endOfDay_eq, h]

theorem markAttendance_attendances (tz : Int) (s : Store) (user : ObjectId)
    (batchId : Option ObjectId) (date : Option Int) (ps : Option (List ObjectId)) :
    (markAttendance tz s user batchId date ps).store.attendances = s.attendances
    ∨ ∃ x, (markAttendance tz s user batchId date ps).store.attendances = s.attendances ++ [x] := by
  cases batchId with
  | none => left; rfl
  | some b =>
    cases date with
    | none => left; rfl
    | some d =>
      rcases markAttendance_cases tz s user b d ps with h | h | h
      · left; rw [h.1]
      · right; exact ⟨_, by rw [h.2.2.2.2.2]⟩
      · right; exact ⟨_, by rw [h.2.2.2.2]⟩

theorem updateAttendance_attendances (s : Store) (user id : ObjectId)
    (ps : Option (List ObjectId)) :
    (updateAttendance s user id ps).store.attendances = s.attendances
    ∨ (updateAttendance s user id ps).store.attendances = Attendance.save id ps s.attendances := by
  rcases updateAttendance_cases s user id ps with h | h | h
  · left; rw [h.1]
  · obtain ⟨_, _, _, _, _, _, _, _, hstore⟩ := h
    right; rw [hstore]
  · obtain ⟨_, _, _, _, _, _, _, hstore⟩ := h
    right; rw [hstore]

theorem save_findOne (id : ObjectId) (ps : Option (List ObjectId)) (l : List Attendance)
    (b : ObjectId) (lo hi : Int) :
    (Attendance.findOne (Attendance.save id ps l) b lo hi).map Attendance._id
      = (Attendance.findOne l b lo hi).map Attendance._id := by
  unfold Attendance.findOne
  induction l with
  | nil => rfl
  | cons x rest ih =>
    unfold Attendance.save
    by_cases hp : x.batchId = b ∧ lo ≤ x.date ∧ x.date ≤ hi <;> by_cases hx : x._id = id
    · simp [hx, hp, List.find?_cons]
    · simp [hx, hp, List.find?_cons]
    · simp [hx, hp, List.find?_cons]
    · simp only [hx, if_false, List.find?_cons, hp, decide_False]
      exact ih

theorem markAttendance_existing (tz : Int) (s : Store) (user b : ObjectId) (d : Int)
    (ps : Option (List ObjectId)) (x : Attendance)
    (h : Attendance.findOne s.attendances b (startOfDay tz d) (endOfDay tz d) = some x) :
    markAttendance tz s user (some b) (some d) ps = ⟨Response.alreadyTaken x._id, [], s⟩ := by
  unfold markAttendance
  simp only [h]

/-- Once a record of the day exists, every later request keeps it the record that the
day check of `markAttendance` finds. -/
theorem runCalls_findOne (tz : Int) (calls : List Call) (s : Store) (b : ObjectId)
    (lo hi : Int) (id : ObjectId)
    (h : (Attendance.findOne s.attendances b lo hi).map Attendance._id = some id) :
    (Attendance.findOne (runCalls tz s calls).attendances b lo hi).map Attendance._id
      = some id := by
  induction calls generalizing s with
  | nil => exact h
  | cons c cs ih =>
    apply ih
    cases c with
    | mark user batchId date ps =>
      rcases markAttendance_attendances tz s user batchId date ps with e | ⟨x, e⟩
      · show (Attendance.findOne (markAttendance tz s user batchId date ps).store.attendances
          b lo hi).map Attendance._id = some id
        rw [e]; exact h
      · show (Attendance.findOne (markAttendance tz s user batchId date ps).store.attendances
          b lo hi).map Attendance._id = some id
        rw [e]
        unfold Attendance.findOne at h ⊢
        rw [List.find?_append]
        cases hf : List.find? (fun a => decide (a.batchId = b ∧ lo ≤ a.date ∧ a.date ≤ hi))
            s.attendances with
        | none => rw [hf] at h; cases h
        | some y => rw [hf] at h; exact h
    | update user attendanceId ps =>
      rcases updateAttendance_attendances s user attendanceId ps with e | e
      · show (Attendance.findOne (updateAttendance s user attendanceId ps).store.attendances
          b lo hi).map Attendance._id = some id
        rw [e]; exact h
      · show (Attendance.findOne (updateAttendance s user attendanceId ps).store.attendances
          b lo hi).map Attendance._id = some id
        rw [e, save_findOne]; exact h

/-- C2: once `markAttendance` has put a record `r` of a batch and day into the store, a
later `markAttendance` for the same batch and a date of the same calendar day, by any
teacher and after any further mark and update requests, answers `alreadyTaken` with the id
of `r`, submits no counter write and leaves the whole store (every record, every student)
as it was. -/
theorem markAttendance_alreadyTaken (tz : Int) (s : Store) (user1 user2 batchId : ObjectId)
    (date1 date2 : Int) (present1 present2 : Option (List ObjectId)) (r : Attendance)
    (calls : List Call)
    (hday : startOfDay tz date1 = startOfDay tz date2)
    (hcreated :
      (markAttendance tz s user1 (some batchId) (some date1) present1).store.attendances
        = s.attendances ++ [r]) :
    markAttendance tz
        (runCalls tz (markAttendance tz s user1 (some batchId) (some date1) present1).store calls)
        user2 (some batchId) (some date2) present2
      = ⟨Response.alreadyTaken r._id, [],
          runCalls tz (markAttendance tz s user1 (some batchId) (some date1) present1).store
            calls⟩ := by
  have hr : Attendance.findOne s.attendances batchId (startOfDay tz date1) (endOfDay tz date1)
        = none ∧ r = markRecord tz s user1 batchId date1 present1 := by
    rcases markAttendance_cases tz s user1 batchId date1 present1 with h | h | h
    · rw [h.1] at hcreated
      have := congrArg List.length hcreated
      simp at this
    · rw [h.2.2.2.2.2] at hcreated
      exact ⟨h.1, by simpa using hcreated.symm⟩
    · rw [h.2.2.2.2] at hcreated
      exact ⟨h.1, by simpa using hcreated.symm⟩
  obtain ⟨hnone, hrec⟩ := hr
  have h1 : (Attendance.findOne
      (markAttendance tz s user1 (some batchId) (some date1) present1).store.attendances batchId
      (startOfDay tz date1) (endOfDay tz date1)).map Attendance._id = some r._id := by
    rw [hcreated]
    unfold Attendance.findOne at hnone ⊢
    rw [List.find?_append, hnone]
    have hle := startOfDay_le tz date1
    simp [hrec, markRecord, hle]
  have h2 := runCalls_findOne tz calls _ batchId _ _ _ h1
  rw [hday, endOfDay_congr tz date1 date2 hday] at h2
  cases hf : Attendance.findOne
      (runCalls tz (markAttendance tz s user1 (some batchId) (some date1) present1).store
        calls).attendances batchId (startOfDay tz date2) (endOfDay tz date2) with
  | none => rw [hf] at h2; cases h2
  | some x =>
    rw [hf] at h2
    simp only [Option.map_some', Option.some.injEq] at h2
    rw [markAttendance_existing tz _ user2 batchId date2 present2 x hf, h2]

/-- Scenario C: after the mark of scenario A and an update of that record, a second mark
for 2024-03-01 (at 01:00, by another teacher, with another list) is answered `alreadyTaken`
with the id `1` of the first record and changes nothing. -/
theorem markAttendance_alreadyTaken_witness :
    markAttendance 0
        (runCalls 0 (markAttendance 0 scenarioA 1 (some 10) (some march1) (some [1, 2])).store
          [Call.update 1 1 (some [1])])
        2 (some 10) (some (march1 + 3600000)) (some [3])
      = ⟨Response.alreadyTaken 1, [],
          runCalls 0 (markAttendance 0 scenarioA 1 (some 10) (some march1) (some [1, 2])).store
            [Call.update 1 1 (some [1])]⟩ :=
  markAttendance_alreadyTaken 0 scenarioA 1 2 10 march1 (march1 + 3600000) (some [1, 2])
    (some [3]) ⟨1, 10, 1709337599999, [1, 2], 1⟩ [Call.update 1 1 (some [1])]
    (by decide) (by decide)

/-! ## The counters follow the attendance history -/

theorem save_countP (q : Attendance → Bool) (id : ObjectId) (ps : Option (List ObjectId))
    (l : List Attendance) (a : Attendance) (h : Attendance.findById l id = some a) :
    (Attendance.save id ps l).countP q + (if q a then 1 else 0)
      = l.countP q
        + (if q ⟨a._id, a.batchId, a.date, ps.getD [], a.createdBy⟩ then 1 else 0) := by
  unfold Attendance.findById at h
  induction l with
  | nil => cases h
  | cons x rest ih =>
    unfold Attendance.save
    by_cases hx : x._id = id
    · rw [List.find?_cons, show decide (x._id = id) = true by simpa using hx] at h
      cases h
      simp only [hx, if_true, List.countP_cons]
      omega
    · rw [List.find?_cons, show decide (x._id = id) = false by simpa using hx] at h
      simp only [hx, if_false, List.countP_cons]
      have := ih h
      omega

theorem inSync_mark (tz : Int) (s : Store) (user b : ObjectId) (d : Int)
    (ps : Option (List ObjectId)) (r : Attendance)
    (hids : (s.students.map Student._id).Nodup)
    (hsync : ∀ st ∈ s.students, st.inSync s.attendances)
    (hcreated : (markAttendance tz s user (some b) (some d) ps).response = Response.created r) :
    ∀ st ∈ (markAttendance tz s user (some b) (some d) ps).store.students,
      st.inSync (markAttendance tz s user (some b) (some d) ps).store.attendances := by
  rcases markAttendance_cases tz s user b d ps with h | h | h
  · exact absurd hcreated (h.2.2 r)
  · rw [h.2.2.2.1] at hcreated; cases hcreated
  · obtain ⟨_, _, hops, _, hstore⟩ := h
    rw [hstore]
    simp only
    rw [bulkWrite_mark s.students hids b ps _ hops]
    intro st2 hst2
    obtain ⟨st, hst, rfl⟩ := List.mem_map.mp hst2
    obtain ⟨hact, hinact, hpct⟩ := hsync st hst
    by_cases hp : st.batchId = b ∧ st.status = StudentStatus.active
    · rw [if_pos hp]
      obtain ⟨ht, hpr⟩ := hact hp.2
      refine ⟨fun _ => ?_, fun hi => ?_, ?_⟩
      · simp only [markOp, UpdateOne.set, orZero_eq, Option.getD_some, classesHeld,
          classesPresent, markRecord, List.countP_append, List.countP_cons, List.countP_nil]
        simp only [classesHeld, classesPresent] at ht hpr
        rw [ht, hpr]
        by_cases hm : st._id ∈ ps.getD [] <;> simp [hp.1, hm]
      · simp only [UpdateOne.set] at hi
        rw [hp.2] at hi; cases hi
      · simp only [markOp, UpdateOne.set, orZero_eq, Option.getD_some]
    · rw [if_neg hp]
      refine ⟨fun ha => ?_, hinact, hpct⟩
      obtain ⟨ht, hpr⟩ := hact ha
      have hb : ¬ b = st.batchId := fun e => hp ⟨e.symm, ha⟩
      simp only [classesHeld, classesPresent, markRecord, List.countP_append, List.countP_cons,
        List.countP_nil] at ht hpr ⊢
      simp [ht, hpr, hb]

theorem inSync_update (s : Store) (user id : ObjectId) (ps : Option (List ObjectId))
    (r : Attendance)
    (hids : (s.students.map Student._id).Nodup)
    (hsync : ∀ st ∈ s.students, st.inSync s.attendances)
    (hupdated : (updateAttendance s user id ps).response = Response.updated r) :
    ∀ st ∈ (updateAttendance s user id ps).store.students,
      st.inSync (updateAttendance s user id ps).store.attendances := by
  rcases updateAttendance_cases s user id ps with h | h | h
  · exact absurd hupdated (h.2.2 r)
  · obtain ⟨_, _, _, _, _, _, hresp, _⟩ := h
    rw [hresp] at hupdated; cases hupdated
  · obtain ⟨a, batch, ha, _, _, hops, _, hstore⟩ := h
    rw [hstore]
    simp only
    rw [bulkWrite_update s.students hids a.batchId a.presentStudents ps _ hops]
    intro st2 hst2
    obtain ⟨st, hst, rfl⟩ := List.mem_map.mp hst2
    obtain ⟨hact, hinact, hpct⟩ := hsync st hst
    have hheld := save_countP (fun x => decide (x.batchId = st.batchId)) id ps s.attendances a ha
    have hpres := save_countP
      (fun x => decide (x.batchId = st.batchId ∧ st._id ∈ x.presentStudents)) id ps
      s.attendances a ha
    simp only at hheld hpres
    by_cases hp : st.batchId = a.batchId ∧ st.status = StudentStatus.active
    · rw [if_pos hp, updateOp_set]
      obtain ⟨ht, hpr⟩ := hact hp.2
      simp only [classesHeld, classesPresent] at ht hpr
      simp only [hp.1, true_and, decide_True, if_true, decide_eq_true_eq] at hheld hpres
      unfold Student.inSync
      simp only [classesHeld, classesPresent, hp.2, true_implies, hp.1]
      rw [hp.1] at ht hpr
      refine ⟨⟨by rw [ht]; congr 1; omega, ?_⟩, fun h => (by cases h), ?_⟩
      · by_cases hw : st._id ∈ a.presentStudents <;> by_cases hi : st._id ∈ ps.getD [] <;>
          simp only [hw, hi, if_true, if_false, not_true_eq_false, not_false_eq_true, and_self,
            and_true, and_false] at hpres ⊢ <;> omega
      · by_cases hw : st._id ∈ a.presentStudents <;> by_cases hi : st._id ∈ ps.getD [] <;>
          simp only [hw, hi, if_true, if_false, not_true_eq_false, not_false_eq_true, and_self,
            and_true, and_false] <;> exact hpct
    · rw [if_neg hp]
      refine ⟨fun hact2 => ?_, hinact, hpct⟩
      obtain ⟨ht, hpr⟩ := hact hact2
      have hb : ¬ a.batchId = st.batchId := fun e => hp ⟨e.symm, hact2⟩
      simp only [hb, false_and, decide_False, if_false, Bool.false_eq_true, add_zero]
        at hheld hpres
      simp only [classesHeld, classesPresent] at ht hpr ⊢
      rw [hheld, hpres]
      exact ⟨ht, hpr⟩

theorem run_students_ids (tz : Int) (s : Store) (c : Call) :
    (c.run tz s).store.students.map Student._id = s.students.map Student._id := by
  cases c with
  | mark user batchId date ps =>
    show (markAttendance tz s user batchId date ps).store.students.map Student._id = _
    cases batchId with
    | none => rfl
    | some b =>
      cases date with
      | none => rfl
      | some d =>
        rcases markAttendance_cases tz s user b d ps with h | h | h
        · rw [h.1]
        · rw [h.2.2.2.2.2]
        · rw [h.2.2.2.2]; exact bulkWrite_map_id _ _
  | update user id ps =>
    show (updateAttendance s user id ps).store.students.map Student._id = _
    rcases updateAttendance_cases s user id ps with h | h | h
    · rw [h.1]
    · obtain ⟨_, _, _, _, _, _, _, _, hstore⟩ := h
      rw [hstore]
    · obtain ⟨_, _, _, _, _, _, _, hstore⟩ := h
      rw [hstore]; exact bulkWrite_map_id _ _

theorem inSync_run (tz : Int) (s : Store) (c : Call)
    (hids : (s.students.map Student._id).Nodup)
    (hsync : ∀ st ∈ s.students, st.inSync s.attendances)
    (hsucc : (c.run tz s).response.isSuccess = true) :
    ∀ st ∈ (c.run tz s).store.students, st.inSync (c.run tz s).store.attendances := by
  cases c with
  | mark user batchId date ps =>
    change (markAttendance tz s user batchId date ps).response.isSuccess = true at hsucc
    show ∀ st ∈ (markAttendance tz s user batchId date ps).store.students,
      st.inSync (markAttendance tz s user batchId date ps).store.attendances
    cases batchId with
    | none => cases hsucc
    | some b =>
      cases date with
      | none => cases hsucc
      | some d =>
        rcases markAttendance_cases tz s user b d ps with h | h | h
        · rw [h.1]; exact hsync
        · rw [h.2.2.2.1] at hsucc; cases hsucc
        · exact inSync_mark tz s user b d ps _ hids hsync h.2.2.2.1
  | update user id ps =>
    change (updateAttendance s user id ps).response.isSuccess = true at hsucc
    show ∀ st ∈ (updateAttendance s user id ps).store.students,
      st.inSync (updateAttendance s user id ps).store.attendances
    rcases updateAttendance_cases s user id ps with h | h | h
    · rw [h.1]; exact hsync
    · obtain ⟨_, _, _, _, _, _, hresp, _⟩ := h
      rw [hresp] at hsucc; cases hsucc
    · obtain ⟨_, _, _, _, _, _, hresp, _⟩ := h
      exact inSync_update s user id ps _ hids hsync hresp

theorem inSync_runCalls (tz : Int) (calls : List Call) (s : Store)
    (hids : (s.students.map Student._id).Nodup)
    (hsync : ∀ st ∈ s.students, st.inSync s.attendances)
    (hsucc : allSucceed tz s calls = true) :
    ∀ st ∈ (runCalls tz s calls).students, st.inSync (runCalls tz s calls).attendances := by
  induction calls generalizing s with
  | nil => exact hsync
  | cons c cs ih =>
    simp only [allSucceed, Bool.and_eq_true] at hsucc
    exact ih (c.run tz s).store (by rw [run_students_ids]; exact hids)
      (inSync_run tz s c hids hsync hsucc.1) hsucc.2

theorem countersStored_of_inSync (attendances : List Attendance) (st : Student)
    (h : st.inSync attendances) : st.countersStored := by
  obtain ⟨hact, hinact, hpct⟩ := h
  have hb : 0 ≤ st.presentClasses ∧ st.presentClasses ≤ st.totalClasses := by
    cases hs : st.status with
    | active =>
      obtain ⟨ht, hp⟩ := hact hs
      have hle : classesPresent attendances st.batchId st._id
          ≤ classesHeld attendances st.batchId := by
        unfold classesPresent classesHeld
        apply List.countP_mono_left
        intro x _ hx
        simp only [decide_eq_true_eq] at hx ⊢
        exact hx.1
      rw [ht, hp]
      exact ⟨Int.natCast_nonneg _, by exact_mod_cast hle⟩
    | inactive =>
      obtain ⟨ht, hp⟩ := hinact hs
      rw [ht, hp]
      exact ⟨le_refl _, le_refl _⟩
  exact ⟨hb.1, hb.2, hpct⟩

/-- C1, as the code has it: from a store without attendance records in which every
student has `totalClasses`, `presentClasses` and `attendancePercentage` at zero (student
ids being unique, as in every collection), after any sequence of successful
`markAttendance` and `updateAttendance` requests every student has
`0 ≤ presentClasses ≤ totalClasses` and `attendancePercentage` equal to the double
`(presentClasses / totalClasses) * 100`, which is within a relative error of `2 ^ (-51)`
of the exact `100 * presentClasses / totalClasses`, or equal to 0 for a total of zero. -/
theorem counters_invariant (tz : Int) (s : Store) (calls : List Call)
    (hids : (s.students.map Student._id).Nodup)
    (hzero : ∀ st ∈ s.students,
      st.totalClasses = 0 ∧ st.presentClasses = 0 ∧ st.attendancePercentage = 0)
    (hempty : s.attendances = [])
    (hsucc : allSucceed tz s calls = true) :
    ∀ st ∈ (runCalls tz s calls).students,
      0 ≤ st.presentClasses ∧ st.presentClasses ≤ st.totalClasses
      ∧ st.attendancePercentage
          = (if st.totalClasses = 0 then 0 else jsPercentage st.presentClasses st.totalClasses)
      ∧ (st.totalClasses ≠ 0 →
          |st.attendancePercentage - 100 * (st.presentClasses : ℚ) / (st.totalClasses : ℚ)|
            ≤ |100 * (st.presentClasses : ℚ) / (st.totalClasses : ℚ)| / 2 ^ 51) := by
  intro st hst
  have hsync : ∀ x ∈ s.students, x.inSync s.attendances := by
    intro x hx
    obtain ⟨ht, hp, hpct⟩ := hzero x hx
    rw [hempty]
    refine ⟨fun _ => ?_, fun _ => ⟨ht, hp⟩, ?_⟩
    · simp [classesHeld, classesPresent, ht, hp]
    · simp [ht, hpct]
  obtain ⟨h0, hle, hpct⟩ :=
    countersStored_of_inSync _ st (inSync_runCalls tz calls s hids hsync hsucc st hst)
  refine ⟨h0, hle, hpct, fun ht => ?_⟩
  rw [hpct, if_neg ht]
  exact jsPercentage_err _ _ ht

/-- Scenarios A and B in sequence: both requests succeed, and after the mark and the update
every student satisfies the counter invariant. -/
theorem counters_invariant_witness :
    allSucceed 0 scenarioA
        [Call.mark 1 (some 10) (some march1) (some [1, 2]), Call.update 1 1 (some [1])] = true
    ∧ ∀ st ∈ (runCalls 0 scenarioA
        [Call.mark 1 (some 10) (some march1) (some [1, 2]), Call.update 1 1 (some [1])]).students,
      0 ≤ st.presentClasses ∧ st.presentClasses ≤ st.totalClasses
      ∧ st.attendancePercentage
          = (if st.totalClasses = 0 then 0 else jsPercentage st.presentClasses st.totalClasses)
      ∧ (st.totalClasses ≠ 0 →
          |st.attendancePercentage - 100 * (st.presentClasses : ℚ) / (st.totalClasses : ℚ)|
            ≤ |100 * (st.presentClasses : ℚ) / (st.totalClasses : ℚ)| / 2 ^ 51) :=
  ⟨by decide,
    counters_invariant 0 scenarioA
      [Call.mark 1 (some 10) (some march1) (some [1, 2]), Call.update 1 1 (some [1])]
      (by decide) (by simp [scenarioA]) rfl (by decide)⟩

/-- C1 fails as stated: from scenario A, with every counter at zero and no attendance
record, three successful `markAttendance` requests on three days, the first with student
`1` present, leave student `1` with `totalClasses = 3`, `presentClasses = 1` and the stored
percentage `4691249611844266 / 2 ^ 47` (printed `33.33333333333333`), which is not
`100 * 1 / 3`. -/
theorem counters_invariant_inexact :
    (∀ st ∈ scenarioA.students,
      st.totalClasses = 0 ∧ st.presentClasses = 0 ∧ st.attendancePercentage = 0)
    ∧ scenarioA.attendances = []
    ∧ allSucceed 0 scenarioA
        [Call.mark 1 (some 10) (some march1) (some [1]),
          Call.mark 1 (some 10) (some (march1 + msPerDay)) (some []),
          Call.mark 1 (some 10) (some (march1 + 2 * msPerDay)) (some [])] = true
    ∧ ∃ st ∈ (runCalls 0 scenarioA
          [Call.mark 1 (some 10) (some march1) (some [1]),
            Call.mark 1 (some 10) (some (march1 + msPerDay)) (some []),
            Call.mark 1 (some 10) (some (march1 + 2 * msPerDay)) (some [])]).students,
        st.totalClasses = 3 ∧ st.presentClasses = 1
        ∧ st.attendancePercentage = 4691249611844266 / 2 ^ 47
        ∧ st.attendancePercentage ≠ 100 * (st.presentClasses : ℚ) / (st.totalClasses : ℚ) := by
  refine ⟨by simp [scenarioA], rfl, by decide,
    ⟨1, 10, StudentStatus.active, 3, 1, mkRat 4691249611844266 (2 ^ 47)⟩, ?_, rfl, rfl,
    by norm_num [Rat.mkRat_eq_div], by norm_num [Rat.mkRat_eq_div]⟩
  have h : Student.findById (runCalls 0 scenarioA
      [Call.mark 1 (some 10) (some march1) (some [1]),
        Call.mark 1 (some 10) (some (march1 + msPerDay)) (some []),
        Call.mark 1 (some 10) (some (march1 + 2 * msPerDay)) (some [])]).students 1
      = some ⟨1, 10, StudentStatus.active, 3, 1, mkRat 4691249611844266 (2 ^ 47)⟩ := by decide
  exact List.mem_of_find?_eq_some h

/-- The start condition must include the percentage: with `totalClasses` and
`presentClasses` at zero everywhere and no attendance record, a successful `markAttendance`
leaves the inactive student `2` with a total of zero and the stored percentage 50. -/
theorem counters_invariant_stale_percentage :
    (∀ st ∈ scenarioStale.students, st.totalClasses = 0 ∧ st.presentClasses = 0)
    ∧ scenarioStale.attendances = []
    ∧ allSucceed 0 scenarioStale [Call.mark 1 (some 10) (some march1) (some [1, 2])] = true
    ∧ ∃ st ∈ (runCalls 0 scenarioStale
          [Call.mark 1 (some 10) (some march1) (some [1, 2])]).students,
        st.totalClasses = 0 ∧ st.attendancePercentage ≠ 0 := by
  refine ⟨by simp [scenarioStale], rfl, by decide,
    ⟨2, 10, StudentStatus.inactive, 0, 0, 50⟩, ?_, rfl, by norm_num⟩
  have h : Student.findById (runCalls 0 scenarioStale
      [Call.mark 1 (some 10) (some march1) (some [1, 2])]).students 2
      = some ⟨2, 10, StudentStatus.inactive, 0, 0, 50⟩ := by decide
  exact List.mem_of_find?_eq_some h

/-! ## `checkAttendanceStatus` -/

/-- C11: `checkAttendanceStatus` with a batch id answers `taken` with a record of the batch
whose date lies between the start and the end of the calendar day of the date (today when
none is given) whenever such a record exists, and `not_taken` when none exists; the answer
is the same for every requesting teacher and the store is left as it was. -/
theorem checkAttendanceStatus_spec (tz now : Int) (s : Store) (user1 user2 batchId : ObjectId)
    (date : Option Int) :
    (∀ r, (checkAttendanceStatus tz now s user1 (some batchId) date).1 = StatusResponse.taken r →
        r ∈ s.attendances ∧ r.batchId = batchId
        ∧ startOfDay tz (date.getD now) ≤ r.date ∧ r.date ≤ endOfDay tz (date.getD now))
    ∧ ((∃ r ∈ s.attendances, r.batchId = batchId
          ∧ startOfDay tz (date.getD now) ≤ r.date ∧ r.date ≤ endOfDay tz (date.getD now)) ↔
        ∃ r, (checkAttendanceStatus tz now s user1 (some batchId) date).1
          = StatusResponse.taken r)
    ∧ ((¬ ∃ r ∈ s.attendances, r.batchId = batchId
          ∧ startOfDay tz (date.getD now) ≤ r.date ∧ r.date ≤ endOfDay tz (date.getD now)) ↔
        (checkAttendanceStatus tz now s user1 (some batchId) date).1 = StatusResponse.notTaken)
    ∧ checkAttendanceStatus tz now s user1 (some batchId) date
        = checkAttendanceStatus tz now s user2 (some batchId) date
    ∧ (checkAttendanceStatus tz now s user1 (some batchId) date).2 = s := by
  cases hf : Attendance.findOne s.attendances batchId (startOfDay tz (date.getD now))
      (endOfDay tz (date.getD now)) with
  | none =>
    have hnone : ¬ ∃ r ∈ s.attendances, r.batchId = batchId
        ∧ startOfDay tz (date.getD now) ≤ r.date ∧ r.date ≤ endOfDay tz (date.getD now) := by
      rintro ⟨r, hr, hp⟩
      have := List.find?_eq_none.mp hf r hr
      simp only [decide_eq_true_eq] at this
      exact this hp
    have e : ∀ u, checkAttendanceStatus tz now s u (some batchId) date
        = (StatusResponse.notTaken, s) := by
      intro u; simp only [checkAttendanceStatus, hf]
    rw [e user1, e user2]
    refine ⟨?_, ⟨fun h => absurd h hnone, ?_⟩, ⟨fun _ => rfl, fun _ => hnone⟩, rfl, rfl⟩
    · intro r h; cases h
    · rintro ⟨r, h⟩; cases h
  | some a =>
    have hmem : a ∈ s.attendances := List.mem_of_find?_eq_some hf
    have hp := List.find?_some hf
    simp only [decide_eq_true_eq] at hp
    have e : ∀ u, checkAttendanceStatus tz now s u (some batchId) date
        = (StatusResponse.taken a, s) := by
      intro u; simp only [checkAttendanceStatus, hf]
    rw [e user1, e user2]
    refine ⟨?_, ⟨fun _ => ⟨a, rfl⟩, fun _ => ⟨a, hmem, hp⟩⟩,
      ⟨fun h => absurd ⟨a, hmem, hp⟩ h, ?_⟩, rfl, rfl⟩
    · intro r h; cases h; exact ⟨hmem, hp⟩
    · intro h; cases h

/-! ## `addFee` -/

/-- The two ways an `addFee` request can end: an error with nothing written, or the new
record appended to the ledger. -/
theorem addFee_cases (now : Int) (s : Store) (user : ObjectId) (studentId batchId : Option ObjectId)
    (month : Option String) (amount : Option Int) (status : Option String) :
    ((addFee now s user studentId batchId month amount status).store = s
      ∧ ∃ k, (addFee now s user studentId batchId month amount status).response
          = FeeResponse.error k)
    ∨ ∃ sid bid m a, studentId = some sid ∧ batchId = some bid ∧ month = some m
        ∧ amount = some a ∧ m ≠ "" ∧ a ≠ 0
        ∧ (∃ batch, Batch.findById s.batches bid = some batch ∧ batch.createdBy = user)
        ∧ Fees.findOne s.fees sid m = none
        ∧ orUnpaid status ∈ feeStatusEnum
        ∧ (addFee now s user studentId batchId month amount status).response
            = FeeResponse.ok (feeRecord now s sid bid m a status)
        ∧ (addFee now s user studentId batchId month amount status).store
            = ⟨s.batches, s.students, s.attendances,
                s.fees ++ [feeRecord now s sid bid m a status]⟩ := by
  cases studentId with
  | none => left; exact ⟨rfl, _, rfl⟩
  | some sid =>
    cases batchId with
    | none => left; exact ⟨rfl, _, rfl⟩
    | some bid =>
      cases month with
      | none => left; exact ⟨rfl, _, rfl⟩
      | some m =>
        cases amount with
        | none => left; exact ⟨rfl, _, rfl⟩
        | some a =>
          unfold addFee
          simp only
          by_cases hv : m = "" ∨ a = 0
          · rw [if_pos hv]; left; exact ⟨rfl, _, rfl⟩
          · rw [if_neg hv]
            cases hb : Batch.findById s.batches bid with
            | none => left; exact ⟨rfl, _, rfl⟩
            | some batch =>
              simp only
              by_cases hown : batch.createdBy = user
              · rw [if_neg (by simpa using hown)]
                cases hfind : Fees.findOne s.fees sid m with
                | some f => left; exact ⟨rfl, _, rfl⟩
                | none =>
                  simp only
                  unfold Fees.create
                  by_cases hen : orUnpaid status ∈ feeStatusEnum
                  · rw [if_neg (by simpa using hen)]
                    have hany : ¬ (s.fees.any
                        (fun f => decide (f.studentId = sid ∧ f.month = m)) = true) := by
                      intro h
                      obtain ⟨f, hf, hp⟩ := List.any_eq_true.mp h
                      have := List.find?_eq_none.mp hfind f hf
                      exact this hp
                    rw [if_neg hany]
                    right
                    push_neg at hv
                    exact ⟨sid, bid, m, a, rfl, rfl, rfl, rfl, hv.1, hv.2, ⟨batch, hb, hown⟩,
                      hfind, hen, rfl, rfl⟩
                  · rw [if_pos (by simpa using hen)]
                    left; exact ⟨rfl, _, rfl⟩
              · rw [if_pos (by simpa using hown)]
                left; exact ⟨rfl, _, rfl⟩

/-- C12: when the ledger holds a fee record for the student and month, an `addFee` request
for the same student and month that passes the field check and the ownership check is
answered with the already-exists error; the store, and with it the record, is left as it
was and nothing is created. -/
theorem addFee_duplicate (now : Int) (s : Store) (user studentId batchId : ObjectId)
    (month : String) (amount : Int) (status : Option String) (f : Fee) (batch : Batch)
    (hf : f ∈ s.fees) (hstudent : f.studentId = studentId) (hmonth : f.month = month)
    (hm : month ≠ "") (ha : amount ≠ 0)
    (hbatch : Batch.findById s.batches batchId = some batch) (hown : batch.createdBy = user) :
    addFee now s user (some studentId) (some batchId) (some month) (some amount) status
      = ⟨FeeResponse.error ErrorKind.conflict, s⟩ := by
  cases hfind : Fees.findOne s.fees studentId month with
  | none =>
    have := List.find?_eq_none.mp hfind f hf
    simp [hstudent, hmonth] at this
  | some g =>
    unfold addFee
    simp only [hm, ha, or_self, if_false, hbatch, hown, ne_eq, not_true_eq_false, hfind]

/-- With the fee of student `1` for 2024-03 in the ledger, a second `addFee` for the pair is
answered with the already-exists error and the store stays as it was. -/
theorem addFee_duplicate_witness :
    addFee 200 ⟨[⟨10, 500, 1⟩], [], [], [⟨1, 1, 10, "2024-03", 500, "unpaid", none⟩]⟩ 1
        (some 1) (some 10) (some "2024-03") (some 700) (some "paid")
      = ⟨FeeResponse.error ErrorKind.conflict,
          ⟨[⟨10, 500, 1⟩], [], [], [⟨1, 1, 10, "2024-03", 500, "unpaid", none⟩]⟩⟩ :=
  addFee_duplicate 200 ⟨[⟨10, 500, 1⟩], [], [], [⟨1, 1, 10, "2024-03", 500, "unpaid", none⟩]⟩
    1 1 10 "2024-03" 700 (some "paid") ⟨1, 1, 10, "2024-03", 500, "unpaid", none⟩ ⟨10, 500, 1⟩
    (by decide) rfl rfl (by decide) (by decide) (by decide) rfl

/-- C13: the fee record a successful `addFee` creates has `paymentDate` equal to the time of
the request exactly when the submitted status is `paid` and no `paymentDate` otherwise, and
a request without status stores `unpaid`. -/
theorem addFee_paymentDate (now : Int) (s : Store) (user : ObjectId)
    (studentId batchId : Option ObjectId) (month : Option String) (amount : Option Int)
    (status : Option String) (fee : Fee)
    (hok : (addFee now s user studentId batchId month amount status).response
      = FeeResponse.ok fee) :
    (status = some "paid" → fee.paymentDate = some now)
    ∧ (status ≠ some "paid" → fee.paymentDate = none)
    ∧ (status = none → fee.status = "unpaid")
    ∧ (∀ st, status = some st → st ≠ "" → fee.status = st)
    ∧ (addFee now s user studentId batchId month amount status).store.fees = s.fees ++ [fee] := by
  rcases addFee_cases now s user studentId batchId month amount status with h | h
  · obtain ⟨_, k, hk⟩ := h
    rw [hk] at hok; cases hok
  · obtain ⟨sid, bid, m, a, _, _, _, _, _, _, _, _, _, hresp, hstore⟩ := h
    rw [hresp] at hok
    cases hok
    rw [hstore]
    refine ⟨fun h => by simp [feeRecord, h], fun h => by simp [feeRecord, h],
      fun h => by simp [feeRecord, h, orUnpaid], fun st h hne => by simp [feeRecord, h, orUnpaid, hne],
      rfl⟩

/-- In scenario D a fee added as `paid` at time 100 carries the payment date 100, and a
fee added without status is stored `unpaid` without payment date. -/
theorem addFee_paymentDate_witness :
    (addFee 100 scenarioD 1 (some 1) (some 10) (some "2024-03") (some 500)
        (some "paid")).response
      = FeeResponse.ok ⟨1, 1, 10, "2024-03", 500, "paid", some 100⟩
    ∧ (addFee 100 scenarioD 1 (some 1) (some 10) (some "2024-03") (some 500)
        (some "paid")).store.fees
      = [⟨1, 1, 10, "2024-03", 500, "paid", some 100⟩]
    ∧ (addFee 100 scenarioD 1 (some 2) (some 10) (some "2024-03") (some 500) none).store.fees
      = [⟨1, 2, 10, "2024-03", 500, "unpaid", none⟩] :=
  ⟨by decide,
    (addFee_paymentDate 100 scenarioD 1 (some 1) (some 10) (some "2024-03") (some 500)
      (some "paid") ⟨1, 1, 10, "2024-03", 500, "paid", some 100⟩ (by decide)).2.2.2.2,
    (addFee_paymentDate 100 scenarioD 1 (some 2) (some 10) (some "2024-03") (some 500)
      none ⟨1, 2, 10, "2024-03", 500, "unpaid", none⟩ (by decide)).2.2.2.2⟩

/-! ## `updateFee` -/

theorem findById_fee_id (l : List Fee) (id : ObjectId) (f : Fee)
    (h : Fees.findById l id = some f) : f._id = id := by
  have := List.find?_some h
  simpa using this

theorem replace_replace (g h : Fee) (hid : g._id = h._id) (l : List Fee) :
    Fees.replace g (Fees.replace h l) = Fees.replace g l := by
  induction l with
  | nil => rfl
  | cons x rest ih =>
    by_cases hx : x._id = h._id
    · simp [Fees.replace, hx, hid]
    · simp [Fees.replace, hx, hid, ih]

theorem replace_self (l : List Fee) (f : Fee) (h : Fees.findById l f._id = some f) :
    Fees.replace f l = l := by
  unfold Fees.findById at h
  induction l with
  | nil => rfl
  | cons x rest ih =>
    unfold Fees.replace
    by_cases hx : x._id = f._id
    · rw [List.find?_cons, show decide (x._id = f._id) = true by simpa using hx] at h
      cases h
      simp
    · rw [List.find?_cons, show decide (x._id = f._id) = false by simpa using hx] at h
      rw [if_neg hx, ih h]

theorem findById_replace (l : List Fee) (g f : Fee) (h : Fees.findById l g._id = some f) :
    Fees.findById (Fees.replace g l) g._id = some g := by
  unfold Fees.findById at h ⊢
  induction l with
  | nil => cases h
  | cons x rest ih =>
    unfold Fees.replace
    by_cases hx : x._id = g._id
    · simp [hx]
    · rw [List.find?_cons, show decide (x._id = g._id) = false by simpa using hx] at h
      rw [if_neg hx, List.find?_cons, show decide (x._id = g._id) = false by simpa using hx]
      exact ih h

theorem findById_replace_ne (l : List Fee) (g : Fee) (id : ObjectId) (hne : id ≠ g._id) :
    Fees.findById (Fees.replace g l) id = Fees.findById l id := by
  unfold Fees.findById
  induction l with
  | nil => rfl
  | cons x rest ih =>
    unfold Fees.replace
    by_cases hx : x._id = g._id
    · have h1 : ¬ x._id = id := fun e => hne (e.symm.trans hx)
      have h2 : ¬ g._id = id := fun e => hne e.symm
      simp [hx, h1, h2, List.find?_cons]
    · rw [if_neg hx, List.find?_cons, List.find?_cons, ih]

theorem updateFeeResult_id (now : Int) (fee : Fee) (body : FeePatch) :
    (updateFeeResult now fee body)._id = fee._id := by
  unfold updateFeeResult; split <;> rfl

theorem updateFeeResult_key (now : Int) (fee : Fee) (body : FeePatch) :
    (updateFeeResult now fee body).key = (body.apply fee).key := by
  unfold updateFeeResult; split <;> rfl

/-- The two ways an `updateFee` request can end: an error with nothing written, or the
record rewritten in place. -/
theorem updateFee_cases (now : Int) (s : Store) (user id : ObjectId) (body : FeePatch) :
    ((updateFee now s user id body).store = s
      ∧ ∃ k, (updateFee now s user id body).response = FeeResponse.error k)
    ∨ ∃ fee batch, Fees.findById s.fees id = some fee
        ∧ Batch.findById s.batches fee.batchId = some batch ∧ batch.createdBy = user
        ∧ ((body.apply fee).key = fee.key ∨ (body.apply fee).key ∉ s.fees.map Fee.key)
        ∧ (updateFee now s user id body).response = FeeResponse.ok (updateFeeResult now fee body)
        ∧ (updateFee now s user id body).store
            = ⟨s.batches, s.students, s.attendances,
                Fees.replace (updateFeeResult now fee body) s.fees⟩ := by
  unfold updateFee
  cases hf : Fees.findById s.fees id with
  | none => left; exact ⟨rfl, _, rfl⟩
  | some fee =>
    simp only
    cases hb : Batch.findById s.batches fee.batchId with
    | none => left; exact ⟨rfl, _, rfl⟩
    | some batch =>
      simp only
      by_cases hown : batch.createdBy = user
      · rw [if_neg (by simpa using hown)]
        unfold Fees.findByIdAndUpdate
        simp only
        by_cases hdup : ((body.apply fee).studentId ≠ fee.studentId
              ∨ (body.apply fee).month ≠ fee.month)
            ∧ (s.fees.any (fun f => decide (f.studentId = (body.apply fee).studentId
                ∧ f.month = (body.apply fee).month)) = true)
        · rw [if_pos hdup]; left; exact ⟨rfl, _, rfl⟩
        · rw [if_neg hdup]
          simp only
          right
          have hkey : (body.apply fee).key = fee.key
              ∨ (body.apply fee).key ∉ s.fees.map Fee.key := by
            by_cases hk : (body.apply fee).key = fee.key
            · exact Or.inl hk
            · right
              intro hmem
              apply hdup
              constructor
              · by_contra hcon
                push_neg at hcon
                exact hk (by simp [Fee.key, hcon.1, hcon.2])
              · obtain ⟨f, hfm, hfk⟩ := List.mem_map.mp hmem
                simp only [Fee.key, Prod.mk.injEq] at hfk
                exact List.any_eq_true.mpr ⟨f, hfm, by simpa using hfk⟩
          refine ⟨fee, batch, rfl, hb, hown, hkey, ?_, ?_⟩
          · unfold updateFeeResult; split <;> rfl
          · unfold updateFeeResult
            split
            · simp only
              congr 1
              apply replace_replace
              rfl
            · rfl
      · rw [if_pos (by simpa using hown)]
        left; exact ⟨rfl, _, rfl⟩

/-- C14: a successful `updateFee` with the body `status: 'paid'` stamps a record without
payment date with the time of the request and keeps the payment date of a record that has
one; the record is stored as returned, and the same request sent again, at any later time,
returns the same record and leaves the store, the payment date included, as it was. -/
theorem updateFee_paid (now : Int) (s : Store) (user id : ObjectId) (fee updated : Fee)
    (hfee : Fees.findById s.fees id = some fee)
    (hok : (updateFee now s user id FeePatch.paid).response = FeeResponse.ok updated) :
    (fee.paymentDate = none → updated.paymentDate = some now)
    ∧ (∀ t, fee.paymentDate = some t → updated.paymentDate = some t)
    ∧ Fees.findById (updateFee now s user id FeePatch.paid).store.fees id = some updated
    ∧ ∀ now2, updateFee now2 (updateFee now s user id FeePatch.paid).store user id FeePatch.paid
        = ⟨FeeResponse.ok updated, (updateFee now s user id FeePatch.paid).store⟩ := by
  rcases updateFee_cases now s user id FeePatch.paid with h | h
  · obtain ⟨_, k, hk⟩ := h
    rw [hk] at hok; cases hok
  · obtain ⟨fee2, batch, hf2, hb, hown, _, hresp, hstore⟩ := h
    rw [hfee] at hf2
    cases hf2
    rw [hresp] at hok
    cases hok
    have hid : fee._id = id := findById_fee_id _ _ _ hfee
    have hid2 : (updateFeeResult now fee FeePatch.paid)._id = id := by
      rw [updateFeeResult_id, hid]
    have hstored : Fees.findById (Fees.replace (updateFeeResult now fee FeePatch.paid) s.fees) id
        = some (updateFeeResult now fee FeePatch.paid) := by
      have := findById_replace s.fees (updateFeeResult now fee FeePatch.paid) fee
        (by rw [hid2]; exact hfee)
      rwa [hid2] at this
    have hdate : (updateFeeResult now fee FeePatch.paid).paymentDate ≠ none := by
      unfold updateFeeResult
      split
      · simp
      · rename_i hc
        simp only [FeePatch.paid, true_and] at hc
        simpa [FeePatch.apply, FeePatch.paid] using hc
    refine ⟨fun hn => by simp [updateFeeResult, FeePatch.paid, hn],
      fun t ht => by simp [updateFeeResult, FeePatch.paid, FeePatch.apply, ht], ?_, ?_⟩
    · rw [hstore]; exact hstored
    · intro now2
      rw [hstore]
      have hbatch : (updateFeeResult now fee FeePatch.paid).batchId = fee.batchId := by
        unfold updateFeeResult; split <;> rfl
      have hfix : FeePatch.paid.apply (updateFeeResult now fee FeePatch.paid)
          = updateFeeResult now fee FeePatch.paid := by
        unfold updateFeeResult; split <;> rfl
      unfold updateFee
      simp only [hstored, hbatch, hb, hown, ne_eq, not_true_eq_false, if_false]
      unfold Fees.findByIdAndUpdate
      simp only [hfix, ne_eq, not_true_eq_false, or_self, false_and, if_false]
      rw [if_neg (fun hc => hdate hc.2)]
      rw [replace_self _ _ (by rw [hid2]; exact hstored)]

/-- Scenario D: the fee of student `1` for 2024-03 is added unpaid at time 100 and paid at
time 200, which sets the payment date 200; paying again at time 300 returns the same
record and leaves the store as it was. -/
theorem updateFee_paid_witness :
    Fees.findById
        (updateFee 200
          (addFee 100 scenarioD 1 (some 1) (some 10) (some "2024-03") (some 500)
            (some "unpaid")).store
          1 1 FeePatch.paid).store.fees 1
      = some ⟨1, 1, 10, "2024-03", 500, "paid", some 200⟩
    ∧ updateFee 300
        (updateFee 200
          (addFee 100 scenarioD 1 (some 1) (some 10) (some "2024-03") (some 500)
            (some "unpaid")).store
          1 1 FeePatch.paid).store
        1 1 FeePatch.paid
      = ⟨FeeResponse.ok ⟨1, 1, 10, "2024-03", 500, "paid", some 200⟩,
          (updateFee 200
            (addFee 100 scenarioD 1 (some 1) (some 10) (some "2024-03") (some 500)
              (some "unpaid")).store
            1 1 FeePatch.paid).store⟩ :=
  ⟨(updateFee_paid 200
      (addFee 100 scenarioD 1 (some 1) (some 10) (some "2024-03") (some 500)
        (some "unpaid")).store
      1 1 ⟨1, 1, 10, "2024-03", 500, "unpaid", none⟩ ⟨1, 1, 10, "2024-03", 500, "paid", some 200⟩
      (by decide) (by decide)).2.2.1,
    (updateFee_paid 200
      (addFee 100 scenarioD 1 (some 1) (some 10) (some "2024-03") (some 500)
        (some "unpaid")).store
      1 1 ⟨1, 1, 10, "2024-03", 500, "unpaid", none⟩ ⟨1, 1, 10, "2024-03", 500, "paid", some 200⟩
      (by decide) (by decide)).2.2.2 300⟩

/-! ## The payment date is kept -/

theorem addFee_fees (now : Int) (s : Store) (user : ObjectId) (studentId batchId : Option ObjectId)
    (month : Option String) (amount : Option Int) (status : Option String) :
    (addFee now s user studentId batchId month amount status).store.fees = s.fees
    ∨ ∃ fee, Fees.findOne s.fees fee.studentId fee.month = none
        ∧ (addFee now s user studentId batchId month amount status).store.fees
            = s.fees ++ [fee] := by
  rcases addFee_cases now s user studentId batchId month amount status with h | h
  · left; rw [h.1]
  · obtain ⟨sid, bid, m, a, _, _, _, _, _, _, _, hfind, _, _, hstore⟩ := h
    right
    exact ⟨feeRecord now s sid bid m a status, hfind, by rw [hstore]⟩

theorem paymentDate_kept_step (s : Store) (c : FeeCall) (id : ObjectId) (f : Fee) (t : Int)
    (hf : Fees.findById s.fees id = some f) (ht : f.paymentDate = some t)
    (hc : c.leavesPaymentDate = true) :
    ∃ g, Fees.findById (c.run s).store.fees id = some g ∧ g.paymentDate = some t := by
  cases c with
  | add now user studentId batchId month amount status =>
    show ∃ g, Fees.findById (addFee now s user studentId batchId month amount status).store.fees
      id = some g ∧ g.paymentDate = some t
    rcases addFee_fees now s user studentId batchId month amount status with e | ⟨fee, _, e⟩
    · rw [e]; exact ⟨f, hf, ht⟩
    · rw [e]
      refine ⟨f, ?_, ht⟩
      unfold Fees.findById at hf ⊢
      rw [List.find?_append, hf]; rfl
  | update now user id2 body =>
    show ∃ g, Fees.findById (updateFee now s user id2 body).store.fees id = some g
      ∧ g.paymentDate = some t
    simp only [FeeCall.leavesPaymentDate, Option.isNone_iff_eq_none] at hc
    rcases updateFee_cases now s user id2 body with h | h
    · rw [h.1]; exact ⟨f, hf, ht⟩
    · obtain ⟨fee, batch, hfee, _, _, _, _, hstore⟩ := h
      rw [hstore]
      simp only
      have hfid : fee._id = id2 := findById_fee_id _ _ _ hfee
      by_cases hid : id = id2
      · subst hid
        rw [hf] at hfee
        cases hfee
        have hid2 : (updateFeeResult now f body)._id = id := by rw [updateFeeResult_id, hfid]
        refine ⟨updateFeeResult now f body, ?_, ?_⟩
        · have := findById_replace s.fees (updateFeeResult now f body) f (by rw [hid2]; exact hf)
          rwa [hid2] at this
        · unfold updateFeeResult
          rw [if_neg (fun h => by rw [ht] at h; cases h.2)]
          simp [FeePatch.apply, hc, ht]
      · refine ⟨f, ?_, ht⟩
        rw [findById_replace_ne _ _ _ (by rw [updateFeeResult_id, hfid]; exact hid)]
        exact hf

/-- C15, as the code has it: once a fee record holds a payment date, that date is still
the record's payment date after any sequence of `addFee` requests and of `updateFee`
requests whose bodies do not name `paymentDate`, whatever else they change. -/
theorem paymentDate_kept (s : Store) (calls : List FeeCall) (id : ObjectId) (f : Fee) (t : Int)
    (hf : Fees.findById s.fees id = some f) (ht : f.paymentDate = some t)
    (hcalls : ∀ c ∈ calls, c.leavesPaymentDate = true) :
    ∃ g, Fees.findById (runFeeCalls s calls).fees id = some g ∧ g.paymentDate = some t := by
  induction calls generalizing s f with
  | nil => exact ⟨f, hf, ht⟩
  | cons c cs ih =>
    obtain ⟨g, hg, hgt⟩ := paymentDate_kept_step s c id f t hf ht
      (hcalls c (List.mem_cons_self _ _))
    exact ih (c.run s).store g hg hgt (fun c2 hc2 => hcalls c2 (List.mem_cons_of_mem _ hc2))

/-- The fee paid at time 200 keeps the payment date 200 when it is marked unpaid, given
another amount and marked paid again. -/
theorem paymentDate_kept_witness :
    ∃ g, Fees.findById
        (runFeeCalls ⟨[⟨10, 500, 1⟩], [], [], [⟨1, 1, 10, "2024-03", 500, "paid", some 200⟩]⟩
          [FeeCall.update 300 1 1 ⟨none, none, none, none, some "unpaid", none⟩,
            FeeCall.update 400 1 1 ⟨none, none, none, some 600, none, none⟩,
            FeeCall.update 500 1 1 FeePatch.paid]).fees 1 = some g
      ∧ g.paymentDate = some 200 :=
  paymentDate_kept ⟨[⟨10, 500, 1⟩], [], [], [⟨1, 1, 10, "2024-03", 500, "paid", some 200⟩]⟩
    [FeeCall.update 300 1 1 ⟨none, none, none, none, some "unpaid", none⟩,
      FeeCall.update 400 1 1 ⟨none, none, none, some 600, none, none⟩,
      FeeCall.update 500 1 1 FeePatch.paid]
    1 ⟨1, 1, 10, "2024-03", 500, "paid", some 200⟩ 200 (by decide) rfl (by decide)

/-- C15 fails as stated: after the fee of scenario D was added and paid at time 200, a
successful `updateFee` whose body carries `paymentDate: null` clears the payment date, and
one whose body carries another date replaces it. -/
theorem paymentDate_overwritten :
    Fees.findById
        (runFeeCalls scenarioD
          [FeeCall.add 100 1 (some 1) (some 10) (some "2024-03") (some 500) (some "unpaid"),
            FeeCall.update 200 1 1 FeePatch.paid]).fees 1
      = some ⟨1, 1, 10, "2024-03", 500, "paid", some 200⟩
    ∧ (updateFee 300
        (runFeeCalls scenarioD
          [FeeCall.add 100 1 (some 1) (some 10) (some "2024-03") (some 500) (some "unpaid"),
            FeeCall.update 200 1 1 FeePatch.paid])
        1 1 ⟨none, none, none, none, none, some none⟩).response
      = FeeResponse.ok ⟨1, 1, 10, "2024-03", 500, "paid", none⟩
    ∧ Fees.findById
        (updateFee 300
          (runFeeCalls scenarioD
            [FeeCall.add 100 1 (some 1) (some 10) (some "2024-03") (some 500) (some "unpaid"),
              FeeCall.update 200 1 1 FeePatch.paid])
          1 1 ⟨none, none, none, none, none, some none⟩).store.fees 1
      = some ⟨1, 1, 10, "2024-03", 500, "paid", none⟩
    ∧ Fees.findById
        (updateFee 300
          (runFeeCalls scenarioD
            [FeeCall.add 100 1 (some 1) (some 10) (some "2024-03") (some 500) (some "unpaid"),
              FeeCall.update 200 1 1 FeePatch.paid])
          1 1 ⟨none, none, none, none, some "paid", some (some 7)⟩).store.fees 1
      = some ⟨1, 1, 10, "2024-03", 500, "paid", some 7⟩ := by
  decide

/-! ## One fee record per student and month -/

theorem mem_replace (g : Fee) (l : List Fee) (x : Fee) (hx : x ∈ Fees.replace g l) :
    x ∈ l ∨ x = g := by
  induction l with
  | nil => cases hx
  | cons y rest ih =>
    unfold Fees.replace at hx
    split at hx
    · rcases List.mem_cons.mp hx with h | h
      · exact Or.inr h
      · exact Or.inl (List.mem_cons_of_mem _ h)
    · rcases List.mem_cons.mp hx with h | h
      · exact Or.inl (h ▸ List.mem_cons_self _ _)
      · rcases ih h with h2 | h2
        · exact Or.inl (List.mem_cons_of_mem _ h2)
        · exact Or.inr h2

theorem nodup_replace (l : List Fee) (g f : Fee) (hnd : (l.map Fee.key).Nodup)
    (hf : Fees.findById l g._id = some f)
    (hkey : g.key = f.key ∨ g.key ∉ l.map Fee.key) :
    ((Fees.replace g l).map Fee.key).Nodup := by
  unfold Fees.findById at hf
  induction l with
  | nil => cases hf
  | cons x rest ih =>
    rw [List.map_cons, List.nodup_cons] at hnd
    unfold Fees.replace
    by_cases hx : x._id = g._id
    · rw [List.find?_cons, show decide (x._id = g._id) = true by simpa using hx] at hf
      cases hf
      rw [if_pos hx, List.map_cons, List.nodup_cons]
      refine ⟨?_, hnd.2⟩
      rcases hkey with h | h
      · rw [h]; exact hnd.1
      · exact fun hm => h (List.mem_cons_of_mem _ hm)
    · rw [List.find?_cons, show decide (x._id = g._id) = false by simpa using hx] at hf
      have hfmem : f ∈ rest := List.mem_of_find?_eq_some hf
      rw [if_neg hx, List.map_cons, List.nodup_cons]
      have hkey2 : g.key = f.key ∨ g.key ∉ rest.map Fee.key := by
        rcases hkey with h | h
        · exact Or.inl h
        · exact Or.inr (fun hm => h (List.mem_cons_of_mem _ hm))
      refine ⟨?_, ih hnd.2 hf hkey2⟩
      intro hm
      obtain ⟨y, hy, hyk⟩ := List.mem_map.mp hm
      rcases mem_replace g rest y hy with h | h
      · exact hnd.1 (List.mem_map.mpr ⟨y, h, hyk⟩)
      · subst h
        rcases hkey with h2 | h2
        · exact hnd.1 (List.mem_map.mpr ⟨f, hfmem, by rw [← h2, hyk]⟩)
        · exact h2 (by rw [hyk]; exact List.mem_cons_self _ _)

theorem nodup_keys_run (s : Store) (c : FeeCall) (hnd : (s.fees.map Fee.key).Nodup) :
    ((c.run s).store.fees.map Fee.key).Nodup := by
  cases c with
  | add now user studentId batchId month amount status =>
    show ((addFee now s user studentId batchId month amount status).store.fees.map Fee.key).Nodup
    rcases addFee_fees now s user studentId batchId month amount status with e | ⟨fee, hnone, e⟩
    · rw [e]; exact hnd
    · rw [e, List.map_append, List.nodup_append]
      refine ⟨hnd, by simp, ?_⟩
      intro k hk hk2
      simp only [List.map_cons, List.map_nil, List.mem_singleton] at hk2
      subst hk2
      obtain ⟨y, hy, hyk⟩ := List.mem_map.mp hk
      have := List.find?_eq_none.mp hnone y hy
      simp only [Fee.key, Prod.mk.injEq] at hyk
      simp [hyk.1, hyk.2] at this
  | update now user id body =>
    show ((updateFee now s user id body).store.fees.map Fee.key).Nodup
    rcases updateFee_cases now s user id body with h | h
    · rw [h.1]; exact hnd
    · obtain ⟨fee, batch, hfee, _, _, hkey, _, hstore⟩ := h
      rw [hstore]
      have hfid : fee._id = id := findById_fee_id _ _ _ hfee
      apply nodup_replace s.fees _ fee hnd
      · rw [updateFeeResult_id, hfid]; exact hfee
      · rw [updateFeeResult_key]; exact hkey

theorem nodup_keys_runFeeCalls (calls : List FeeCall) (s : Store)
    (hnd : (s.fees.map Fee.key).Nodup) : ((runFeeCalls s calls).fees.map Fee.key).Nodup := by
  induction calls generalizing s with
  | nil => exact hnd
  | cons c cs ih => exact ih (c.run s).store (nodup_keys_run s c hnd)

theorem pairwise_of_nodup_keys (l : List Fee) (h : (l.map Fee.key).Nodup) :
    l.Pairwise (fun f g => ¬ (f.studentId = g.studentId ∧ f.month = g.month)) := by
  have h2 := List.pairwise_map.mp h
  refine h2.imp ?_
  intro f g hne hfg
  exact hne (by simp [Fee.key, hfg.1, hfg.2])

/-- C16: in every store reached from a store with an empty fee ledger by `addFee` and
`updateFee` requests, no two fee records have the same student and month, and the same
holds after any further `updateFee`, whatever student or month its body names. -/
theorem fees_unique (s : Store) (calls : List FeeCall) (hempty : s.fees = []) :
    (runFeeCalls s calls).fees.Pairwise
        (fun f g => ¬ (f.studentId = g.studentId ∧ f.month = g.month))
    ∧ ∀ now user id body,
        (updateFee now (runFeeCalls s calls) user id body).store.fees.Pairwise
          (fun f g => ¬ (f.studentId = g.studentId ∧ f.month = g.month)) := by
  have h0 : (s.fees.map Fee.key).Nodup := by rw [hempty]; exact List.nodup_nil
  have h1 := nodup_keys_runFeeCalls calls s h0
  exact ⟨pairwise_of_nodup_keys _ h1, fun now user id body =>
    pairwise_of_nodup_keys _ (nodup_keys_run _ (FeeCall.update now user id body) h1)⟩

/-- In scenario D, after fees for 2024-03 and 2024-04 are added for student `1`, an
`updateFee` that moves the second record to 2024-03 is rejected and the ledger still has
one record per student and month. -/
theorem fees_unique_witness :
    (updateFee 300
        (runFeeCalls scenarioD
          [FeeCall.add 100 1 (some 1) (some 10) (some "2024-03") (some 500) none,
            FeeCall.add 200 1 (some 1) (some 10) (some "2024-04") (some 500) none])
        1 2 ⟨none, none, some "2024-03", none, none, none⟩).response
      = FeeResponse.error ErrorKind.serverError
    ∧ (runFeeCalls scenarioD
        [FeeCall.add 100 1 (some 1) (some 10) (some "2024-03") (some 500) none,
          FeeCall.add 200 1 (some 1) (some 10) (some "2024-04") (some 500) none,
          FeeCall.update 300 1 2 ⟨none, none, some "2024-03", none, none, none⟩]).fees.Pairwise
        (fun f g => ¬ (f.studentId = g.studentId ∧ f.month = g.month)) :=
  ⟨by decide,
    (fees_unique scenarioD
      [FeeCall.add 100 1 (some 1) (some 10) (some "2024-03") (some 500) none,
        FeeCall.add 200 1 (some 1) (some 10) (some "2024-04") (some 500) none,
        FeeCall.update 300 1 2 ⟨none, none, some "2024-03", none, none, none⟩] rfl).1⟩

/-! ## Fee generation -/

/-- C17 fails on the code: in scenario D, where student `3` is inactive, fee generation for
batch `10` and 2024-03 reports three created records and the ledger holds a fee for
student `3`. -/
theorem generateFees_bills_inactive :
    Student.findById scenarioD.students 3 = some ⟨3, 10, StudentStatus.inactive, 0, 0, 0⟩
    ∧ (generateFeesForBatch 100 scenarioD 1 ⟨10, 500, 1⟩ "2024-03").1 = some 3
    ∧ Fees.findOne (generateFeesForBatch 100 scenarioD 1 ⟨10, 500, 1⟩ "2024-03").2.fees 3 "2024-03"
      = some ⟨3, 3, 10, "2024-03", 500, "unpaid", none⟩ := by
  decide

/-- The POST of fee generation for one student, when the batch exists and belongs to the
teacher, its fee is not zero and the month is not empty: a duplicate is rejected, anything
else is appended as an unpaid record. -/
theorem addFee_generate (now : Int) (s : Store) (user sid bid : ObjectId) (month : String)
    (amount : Int) (batch : Batch)
    (hbatch : Batch.findById s.batches bid = some batch) (hown : batch.createdBy = user)
    (hamount : amount ≠ 0) (hmonth : month ≠ "") :
    addFee now s user (some sid) (some bid) (some month) (some amount) none
      = match Fees.findOne s.fees sid month with
        | some _ => ⟨FeeResponse.error ErrorKind.conflict, s⟩
        | none =>
          ⟨FeeResponse.ok (feeRecord now s sid bid month amount none),
            ⟨s.batches, s.students, s.attendances,
              s.fees ++ [feeRecord now s sid bid month amount none]⟩⟩ := by
  cases hfind : Fees.findOne s.fees sid month with
  | some f =>
    unfold addFee
    simp only [hmonth, hamount, or_self, if_false, hbatch, hown, ne_eq, not_true_eq_false, hfind]
  | none =>
    rcases addFee_cases now s user (some sid) (some bid) (some month) (some amount) none
      with h | h
    · exfalso
      obtain ⟨_, k, hk⟩ := h
      unfold addFee at hk
      simp only [hmonth, hamount, or_self, if_false, hbatch, hown, ne_eq, not_true_eq_false,
        hfind] at hk
      unfold Fees.create at hk
      have hen : orUnpaid none ∈ feeStatusEnum := by decide
      rw [if_neg (by simpa using hen)] at hk
      have hany : ¬ (s.fees.any (fun f => decide (f.studentId = sid ∧ f.month = month)) = true) := by
        intro h
        obtain ⟨f, hf, hp⟩ := List.any_eq_true.mp h
        exact List.find?_eq_none.mp hfind f hf hp
      rw [if_neg hany] at hk
      cases hk
    · obtain ⟨sid2, bid2, m2, a2, e1, e2, e3, e4, _, _, _, _, _, hresp, hstore⟩ := h
      cases e1; cases e2; cases e3; cases e4
      show addFee now s user (some sid) (some bid) (some month) (some amount) none = ⟨_, _⟩
      rw [← hresp, ← hstore]

theorem findOne_append_none (l : List Fee) (g : Fee) (sid : ObjectId) (month : String)
    (h : Fees.findOne l sid month = none) (hg : ¬ (g.studentId = sid ∧ g.month = month)) :
    Fees.findOne (l ++ [g]) sid month = none := by
  unfold Fees.findOne at h ⊢
  rw [List.find?_append, h]
  simp [hg]

theorem findOne_append_left (l r : List Fee) (sid : ObjectId) (month : String)
    (h : Fees.findOne l sid month ≠ none) : Fees.findOne (l ++ r) sid month ≠ none := by
  unfold Fees.findOne at h ⊢
  rw [List.find?_append]
  cases hf : List.find? (fun f => decide (f.studentId = sid ∧ f.month = month)) l with
  | none => exact absurd hf h
  | some f => simp

theorem findOne_of_mem (l : List Fee) (f : Fee) (hf : f ∈ l) :
    Fees.findOne l f.studentId f.month ≠ none := by
  intro h
  have := List.find?_eq_none.mp h f hf
  simp at this

/-- The loop of fee generation over the students `studs`, started with the count `c` on
the store `s`: created records are appended, the count grows by their number, and a student
without a record for the month gets exactly one. -/
theorem generate_fold (now : Int) (user : ObjectId) (selectedBatch batch : Batch)
    (month : String) (hown : batch.createdBy = user)
    (hfee : selectedBatch.monthlyFee ≠ 0) (hmonth : month ≠ "")
    (studs : List Student) (hnd : (studs.map Student._id).Nodup) (c : Nat) (s : Store)
    (hbatch : Batch.findById s.batches selectedBatch._id = some batch) :
    ∃ created,
      studs.foldl (generateStep now user selectedBatch month) (c, s)
        = (c + created.length, ⟨s.batches, s.students, s.attendances, s.fees ++ created⟩)
      ∧ (∀ f ∈ created, Fees.findOne s.fees f.studentId month = none ∧ f.month = month
          ∧ f.batchId = selectedBatch._id ∧ f.amount = selectedBatch.monthlyFee
          ∧ f.status = "unpaid" ∧ f.paymentDate = none)
      ∧ (∀ st ∈ studs, Fees.findOne s.fees st._id month = none →
          created.countP (fun f => f.studentId = st._id ∧ f.month = month) = 1) := by
  induction studs generalizing c s with
  | nil => exact ⟨[], by simp, by simp, by simp⟩
  | cons st rest ih =>
    rw [List.map_cons, List.nodup_cons] at hnd
    rw [List.foldl_cons]
    have hstep := addFee_generate now s user st._id selectedBatch._id month
      selectedBatch.monthlyFee batch hbatch hown hfee hmonth
    cases hfind : Fees.findOne s.fees st._id month with
    | some g =>
      rw [hfind] at hstep
      have e : generateStep now user selectedBatch month (c, s) st = (c, s) := by
        unfold generateStep; simp only [hstep]
      rw [e]
      obtain ⟨created, h1, h2, h3⟩ := ih hnd.2 c s hbatch
      refine ⟨created, h1, h2, ?_⟩
      intro st2 hst2 hnone
      rcases List.mem_cons.mp hst2 with h | h
      · subst h; rw [hfind] at hnone; cases hnone
      · exact h3 st2 h hnone
    | none =>
      rw [hfind] at hstep
      have e : generateStep now user selectedBatch month (c, s) st
          = (c + 1, ⟨s.batches, s.students, s.attendances,
              s.fees ++ [feeRecord now s st._id selectedBatch._id month
                selectedBatch.monthlyFee none]⟩) := by
        unfold generateStep; simp only [hstep]
      rw [e]
      obtain ⟨created, h1, h2, h3⟩ := ih hnd.2 (c + 1)
        ⟨s.batches, s.students, s.attendances,
          s.fees ++ [feeRecord now s st._id selectedBatch._id month
            selectedBatch.monthlyFee none]⟩ hbatch
      refine ⟨feeRecord now s st._id selectedBatch._id month selectedBatch.monthlyFee none
        :: created, ?_, ?_, ?_⟩
      · rw [h1]
        simp only [List.length_cons, List.append_assoc, List.singleton_append, Prod.mk.injEq,
          and_true]
        omega
      · intro f hf
        rcases List.mem_cons.mp hf with h | h
        · subst h
          exact ⟨hfind, rfl, rfl, rfl, rfl, rfl⟩
        · obtain ⟨g1, g2, g3⟩ := h2 f h
          refine ⟨?_, g2, g3⟩
          simp only at g1
          unfold Fees.findOne at g1 ⊢
          rw [List.find?_append] at g1
          cases hh : List.find? (fun x => decide (x.studentId = f.studentId ∧ x.month = month))
              s.fees with
          | none => rfl
          | some y => rw [hh] at g1; cases g1
      · intro st2 hst2 hnone
        rw [List.countP_cons]
        rcases List.mem_cons.mp hst2 with h | h
        · subst h
          have hzero : created.countP
              (fun f => decide (f.studentId = st2._id ∧ f.month = month)) = 0 := by
            rw [List.countP_eq_zero]
            intro f hf hp
            simp only [decide_eq_true_eq] at hp
            have hg := (h2 f hf).1
            rw [hp.1] at hg
            simp only at hg
            exact findOne_of_mem _ _
              (List.mem_append_right s.fees (List.mem_singleton_self
                (feeRecord now s st2._id selectedBatch._id month selectedBatch.monthlyFee none)))
              hg
          rw [hzero]
          simp [feeRecord]
        · have hne : st._id ≠ st2._id := by
            intro e2
            exact hnd.1 (List.mem_map.mpr ⟨st2, h, e2.symm⟩)
          have hnone2 := findOne_append_none s.fees
            (feeRecord now s st._id selectedBatch._id month selectedBatch.monthlyFee none)
            st2._id month hnone (fun hp => hne hp.1)
          rw [h3 st2 h hnone2]
          simp [feeRecord, hne]

theorem generate_fold_conflicts (now : Int) (user : ObjectId) (selectedBatch batch : Batch)
    (month : String) (hown : batch.createdBy = user)
    (hfee : selectedBatch.monthlyFee ≠ 0) (hmonth : month ≠ "")
    (studs : List Student) (c : Nat) (s : Store)
    (hbatch : Batch.findById s.batches selectedBatch._id = some batch)
    (hall : ∀ st ∈ studs, Fees.findOne s.fees st._id month ≠ none) :
    studs.foldl (generateStep now user selectedBatch month) (c, s) = (c, s) := by
  induction studs with
  | nil => rfl
  | cons st rest ih =>
    rw [List.foldl_cons]
    have hstep := addFee_generate now s user st._id selectedBatch._id month
      selectedBatch.monthlyFee batch hbatch hown hfee hmonth
    cases hfind : Fees.findOne s.fees st._id month with
    | none => exact absurd hfind (hall st (List.mem_cons_self _ _))
    | some g =>
      rw [hfind] at hstep
      have e : generateStep now user selectedBatch month (c, s) st = (c, s) := by
        unfold generateStep; simp only [hstep]
      rw [e]
      exact ih (fun st2 h2 => hall st2 (List.mem_cons_of_mem _ h2))

theorem getStudents_owned (s : Store) (user bid : ObjectId) (batch : Batch)
    (hbatch : Batch.findById s.batches bid = some batch) (hown : batch.createdBy = user) :
    getStudents s user (some bid)
      = StudentsResponse.ok (s.students.filter (fun st => decide (st.batchId = bid))) := by
  unfold getStudents
  simp only [hbatch, hown, ne_eq, not_true_eq_false, if_false]

/-- C18, as the code has it: fee generation for a batch of the teacher with a monthly fee
other than zero and a non-empty month (student ids being unique, as in every collection)
appends its new records to the ledger, leaving every earlier record as it was, and reports
their number; every student of the batch without a record for the month gets exactly one
new record, whatever happens to the requests for the other students; every new record is
for a student that had none; and generation run again on the result reports 0 and leaves
the store as it is. -/
theorem generateFees_independent (now now2 : Int) (s : Store) (user : ObjectId)
    (selectedBatch batch : Batch) (selectedMonth : String)
    (hids : (s.students.map Student._id).Nodup)
    (hbatch : Batch.findById s.batches selectedBatch._id = some batch)
    (hown : batch.createdBy = user)
    (hfee : selectedBatch.monthlyFee ≠ 0) (hmonth : selectedMonth ≠ "") :
    ∃ created,
      generateFeesForBatch now s user selectedBatch selectedMonth
        = (some created.length, ⟨s.batches, s.students, s.attendances, s.fees ++ created⟩)
      ∧ (∀ st ∈ s.students, st.batchId = selectedBatch._id →
          Fees.findOne s.fees st._id selectedMonth = none →
          created.countP (fun f => f.studentId = st._id ∧ f.month = selectedMonth) = 1)
      ∧ (∀ f ∈ created, Fees.findOne s.fees f.studentId selectedMonth = none
          ∧ f.month = selectedMonth ∧ f.batchId = selectedBatch._id
          ∧ f.amount = selectedBatch.monthlyFee ∧ f.status = "unpaid" ∧ f.paymentDate = none)
      ∧ generateFeesForBatch now2
          ⟨s.batches, s.students, s.attendances, s.fees ++ created⟩ user selectedBatch
          selectedMonth
        = (some 0, ⟨s.batches, s.students, s.attendances, s.fees ++ created⟩) := by
  have hsub : ((s.students.filter (fun st => decide (st.batchId = selectedBatch._id))).map
      Student._id).Nodup :=
    List.Nodup.sublist (List.Sublist.map _ (List.filter_sublist _)) hids
  obtain ⟨created, h1, h2, h3⟩ := generate_fold now user selectedBatch batch selectedMonth hown
    hfee hmonth _ hsub 0 s hbatch
  refine ⟨created, ?_, ?_, h2, ?_⟩
  · unfold generateFeesForBatch
    rw [getStudents_owned s user _ batch hbatch hown]
    simp only [h1, Nat.zero_add]
  · intro st hst hb hnone
    exact h3 st (List.mem_filter.mpr ⟨hst, by simpa using hb⟩) hnone
  · unfold generateFeesForBatch
    rw [getStudents_owned ⟨s.batches, s.students, s.attendances, s.fees ++ created⟩ user _ batch
      hbatch hown]
    simp only
    rw [generate_fold_conflicts now2 user selectedBatch batch selectedMonth hown hfee hmonth _ 0
      ⟨s.batches, s.students, s.attendances, s.fees ++ created⟩ hbatch]
    intro st hst
    have hst2 := List.mem_filter.mp hst
    cases hfind : Fees.findOne s.fees st._id selectedMonth with
    | some g =>
      exact findOne_append_left s.fees created st._id selectedMonth (by rw [hfind]; simp)
    | none =>
      have hcount := h3 st hst hfind
      have hpos : 0 < created.countP
          (fun f => decide (f.studentId = st._id ∧ f.month = selectedMonth)) := by omega
      obtain ⟨f, hf, hp⟩ := List.countP_pos_iff.mp hpos
      simp only [decide_eq_true_eq] at hp
      have := findOne_of_mem (s.fees ++ created) f (List.mem_append_right _ hf)
      rwa [hp.1, hp.2] at this

/-- In scenario D with the fee of student `1` for 2024-03 already in the ledger, generation
for batch `10` leaves that record, creates one record for each of the students `2` and `3`
and reports 2; run again it reports 0 and changes nothing. -/
theorem generateFees_independent_witness :
    generateFeesForBatch 100
        ⟨scenarioD.batches, scenarioD.students, [],
          [⟨1, 1, 10, "2024-03", 500, "paid", some 50⟩]⟩ 1 ⟨10, 500, 1⟩ "2024-03"
      = (some 2, ⟨scenarioD.batches, scenarioD.students, [],
          [⟨1, 1, 10, "2024-03", 500, "paid", some 50⟩,
            ⟨2, 2, 10, "2024-03", 500, "unpaid", none⟩,
            ⟨3, 3, 10, "2024-03", 500, "unpaid", none⟩]⟩)
    ∧ ∃ created,
      generateFeesForBatch 100
          ⟨scenarioD.batches, scenarioD.students, [],
            [⟨1, 1, 10, "2024-03", 500, "paid", some 50⟩]⟩ 1 ⟨10, 500, 1⟩ "2024-03"
        = (some created.length, ⟨scenarioD.batches, scenarioD.students, [],
            [⟨1, 1, 10, "2024-03", 500, "paid", some 50⟩] ++ created⟩)
      ∧ generateFeesForBatch 200
          ⟨scenarioD.batches, scenarioD.students, [],
            [⟨1, 1, 10, "2024-03", 500, "paid", some 50⟩] ++ created⟩ 1 ⟨10, 500, 1⟩ "2024-03"
        = (some 0, ⟨scenarioD.batches, scenarioD.students, [],
            [⟨1, 1, 10, "2024-03", 500, "paid", some 50⟩] ++ created⟩) := by
  refine ⟨by decide, ?_⟩
  obtain ⟨created, h1, _, _, h4⟩ := generateFees_independent 100 200
    ⟨scenarioD.batches, scenarioD.students, [], [⟨1, 1, 10, "2024-03", 500, "paid", some 50⟩]⟩
    1 ⟨10, 500, 1⟩ ⟨10, 500, 1⟩ "2024-03" (by decide) (by decide) rfl (by decide) (by decide)
  exact ⟨created, h1, h4⟩

/-! ## `getDashboardStats` -/

theorem foldl_batchFeeMap (l : List Batch) (hnd : (l.map Batch._id).Nodup)
    (m : ObjectId → Option Int) (k : ObjectId) :
    l.foldl (fun m b => fun key => if key = b._id then some b.monthlyFee else m key) m k
      = match Batch.findById l k with
        | some b => some b.monthlyFee
        | none => m k := by
  unfold Batch.findById
  induction l generalizing m with
  | nil => rfl
  | cons b rest ih =>
    rw [List.map_cons, List.nodup_cons] at hnd
    rw [List.foldl_cons, ih hnd.2, List.find?_cons]
    by_cases hb : b._id = k
    · have hrest : List.find? (fun x => decide (x._id = k)) rest = none := by
        rw [List.find?_eq_none]
        intro x hx hxk
        simp only [decide_eq_true_eq] at hxk
        exact hnd.1 (List.mem_map.mpr ⟨x, hx, by rw [hxk, hb]⟩)
      simp [hrest, hb]
    · have hb2 : ¬ k = b._id := fun e => hb e.symm
      simp only [hb, decide_False, hb2, if_false]

theorem findById_filter (l : List Batch) (hnd : (l.map Batch._id).Nodup) (p : Batch → Bool)
    (k : ObjectId) :
    Batch.findById (l.filter p) k = (Batch.findById l k).filter p := by
  unfold Batch.findById
  induction l with
  | nil => rfl
  | cons b rest ih =>
    rw [List.map_cons, List.nodup_cons] at hnd
    by_cases hb : b._id = k
    · have hrest : List.find? (fun x => decide (x._id = k)) rest = none := by
        rw [List.find?_eq_none]
        intro x hx hxk
        simp only [decide_eq_true_eq] at hxk
        exact hnd.1 (List.mem_map.mpr ⟨x, hx, by rw [hxk, hb]⟩)
      by_cases hp : p b = true
      · simp [List.filter_cons, hp, hb, Option.filter]
      · simp only [List.filter_cons, hp, if_false, ih hnd.2, hrest, List.find?_cons, hb,
          decide_True, Option.filter, Bool.false_eq_true]
    · by_cases hp : p b = true
      · simp only [List.filter_cons, hp, if_true, List.find?_cons, hb, decide_False, ih hnd.2]
      · simp only [List.filter_cons, hp, if_false, List.find?_cons, hb, decide_False, ih hnd.2,
          Bool.false_eq_true]

theorem foldl_cond_sum (c : Student → Bool) (g : Student → Int) (l : List Student) (a : Int) :
    l.foldl (fun acc st => if c st = true then acc + g st else acc) a
      = a + ((l.filter c).map g).sum := by
  induction l generalizing a with
  | nil => simp
  | cons st rest ih =>
    rw [List.foldl_cons, ih]
    by_cases hc : c st = true
    · simp [List.filter_cons, hc]; ring
    · simp [List.filter_cons, hc]

theorem foldl_amount_sum (l : List Fee) (a : Int) :
    l.foldl (fun acc curr => acc + curr.amount) a = a + (l.map Fee.amount).sum := by
  induction l generalizing a with
  | nil => simp
  | cons f rest ih =>
    rw [List.foldl_cons, ih]
    simp; ring

theorem contains_owned (s : Store) (teacherId k : ObjectId) :
    ((s.batches.filter (fun b => decide (b.createdBy = teacherId))).map Batch._id).contains k
      = ownsBatch s teacherId k := by
  unfold ownsBatch
  rw [Bool.eq_iff_iff]
  simp only [List.contains_iff_exists_mem_beq, List.mem_map, List.mem_filter, decide_eq_true_eq,
    List.any_eq_true, beq_iff_eq]
  constructor
  · rintro ⟨a, ⟨b, ⟨hb, ho⟩, rfl⟩, hk⟩
    exact ⟨b, hb, hk.symm, ho⟩
  · rintro ⟨b, hb, hk, ho⟩
    exact ⟨b._id, ⟨b, ⟨hb, ho⟩, rfl⟩, hk.symm⟩

theorem batchFeeMap_owned (s : Store) (teacherId k : ObjectId)
    (hids : (s.batches.map Batch._id).Nodup) (hown : ownsBatch s teacherId k = true) :
    orZero ((batchFeeMap (s.batches.filter (fun b => decide (b.createdBy = teacherId))) k).getD 0)
      = batchFee s k := by
  have hsub : ((s.batches.filter (fun b => decide (b.createdBy = teacherId))).map
      Batch._id).Nodup :=
    List.Nodup.sublist (List.Sublist.map _ (List.filter_sublist _)) hids
  unfold batchFeeMap batchFee
  rw [orZero_eq, foldl_batchFeeMap _ hsub, findById_filter _ hids]
  unfold ownsBatch at hown
  obtain ⟨b, hb, hp⟩ := List.any_eq_true.mp hown
  simp only [decide_eq_true_eq] at hp
  have hfind : Batch.findById s.batches k = some b := by
    unfold Batch.findById
    cases hf : List.find? (fun x => decide (x._id = k)) s.batches with
    | none =>
      have := List.find?_eq_none.mp hf b hb
      simp [hp.1] at this
    | some b2 =>
      have hb2 : b2 ∈ s.batches := List.mem_of_find?_eq_some hf
      have hid2 := List.find?_some hf
      simp only [decide_eq_true_eq] at hid2
      rw [List.inj_on_of_nodup_map hids hb2 hb (by rw [hid2, hp.1])]
  rw [hfind]
  simp [Option.filter, hp.2]

/-- C19: `getDashboardStats` (batch ids being unique, as in every collection) reports as
`expected` the sum, over the students that are active and whose batch belongs to the
teacher, of the monthly fee of that batch; no other student contributes. -/
theorem dashboard_expected (currentMonth : String) (s : Store) (teacherId : ObjectId)
    (hids : (s.batches.map Batch._id).Nodup) :
    (getDashboardStats currentMonth s teacherId).expected
      = ((s.students.filter
            (fun st => st.status = StudentStatus.active ∧ ownsBatch s teacherId st.batchId)).map
          (fun st => batchFee s st.batchId)).sum := by
  unfold getDashboardStats
  simp only
  have hfold := foldl_cond_sum (fun st => decide (st.status = StudentStatus.active))
    (fun st => orZero ((batchFeeMap
      (s.batches.filter (fun b => decide (b.createdBy = teacherId))) st.batchId).getD 0))
    (s.students.filter (fun st => ((s.batches.filter
      (fun b => decide (b.createdBy = teacherId))).map Batch._id).contains st.batchId)) 0
  simp only [decide_eq_true_eq] at hfold
  rw [hfold, zero_add, List.filter_filter]
  have hfilter : s.students.filter (fun st => decide (st.status = StudentStatus.active)
        && ((s.batches.filter (fun b => decide (b.createdBy = teacherId))).map
          Batch._id).contains st.batchId)
      = s.students.filter (fun st => decide (st.status = StudentStatus.active
          ∧ ownsBatch s teacherId st.batchId = true)) := by
    apply List.filter_congr
    intro st _
    rw [contains_owned]
    simp
  rw [hfilter]
  congr 1
  apply List.map_congr_left
  intro st hst
  have hp := (List.mem_filter.mp hst).2
  simp only [decide_eq_true_eq] at hp
  exact batchFeeMap_owned s teacherId st.batchId hids hp.2

/-- Scenario E: one batch with a fee of 500, two active students and one inactive student
give `expected = 1000`. -/
theorem dashboard_expected_witness :
    (getDashboardStats "2024-03" scenarioD 1).expected = 1000 :=
  (dashboard_expected "2024-03" scenarioD 1 (by decide)).trans (by decide)

/-- C20: `getDashboardStats` reports as `collected` the sum of the amounts of the fee
records that are paid, of the current month and of a batch of the teacher, and as `pending`
the larger of 0 and `expected - collected`, which is never negative. -/
theorem dashboard_collected (currentMonth : String) (s : Store) (teacherId : ObjectId) :
    (getDashboardStats currentMonth s teacherId).collected
      = ((s.fees.filter
            (fun f => f.status = "paid" ∧ f.month = currentMonth
              ∧ ownsBatch s teacherId f.batchId)).map Fee.amount).sum
    ∧ (getDashboardStats currentMonth s teacherId).pending
      = max 0 ((getDashboardStats currentMonth s teacherId).expected
          - (getDashboardStats currentMonth s teacherId).collected)
    ∧ 0 ≤ (getDashboardStats currentMonth s teacherId).pending := by
  unfold getDashboardStats
  simp only
  refine ⟨?_, ?_, ?_⟩
  · rw [foldl_amount_sum, zero_add]
    congr 2
    apply List.filter_congr
    intro f _
    rw [contains_owned]
    rw [Bool.eq_iff_iff]
    simp only [decide_eq_true_eq]
    tauto
  · split
    · rename_i h
      rw [max_eq_right (le_of_lt h)]
    · rename_i h
      rw [max_eq_left (not_lt.mp h)]
  · split
    · rename_i h
      exact le_of_lt h
    · exact le_refl 0

/-- In scenario D with fees of 800 and 700 paid in 2024-03 and a paid fee of another month,
`collected` is 1500, above `expected = 1000`, and `pending` is 0. -/
theorem dashboard_collected_witness :
    (getDashboardStats "2024-03"
        ⟨scenarioD.batches, scenarioD.students, [],
          [⟨1, 1, 10, "2024-03", 800, "paid", some 50⟩, ⟨2, 2, 10, "2024-03", 700, "paid", some 60⟩,
            ⟨3, 3, 10, "2024-03", 500, "unpaid", none⟩, ⟨4, 1, 10, "2024-02", 500, "paid", some 7⟩]⟩
        1).collected = 1500
    ∧ (getDashboardStats "2024-03"
        ⟨scenarioD.batches, scenarioD.students, [],
          [⟨1, 1, 10, "2024-03", 800, "paid", some 50⟩, ⟨2, 2, 10, "2024-03", 700, "paid", some 60⟩,
            ⟨3, 3, 10, "2024-03", 500, "unpaid", none⟩, ⟨4, 1, 10, "2024-02", 500, "paid", some 7⟩]⟩
        1).pending = 0 :=
  ⟨(dashboard_collected "2024-03"
      ⟨scenarioD.batches, scenarioD.students, [],
        [⟨1, 1, 10, "2024-03", 800, "paid", some 50⟩, ⟨2, 2, 10, "2024-03", 700, "paid", some 60⟩,
          ⟨3, 3, 10, "2024-03", 500, "unpaid", none⟩, ⟨4, 1, 10, "2024-02", 500, "paid", some 7⟩]⟩
      1).1.trans (by decide),
    (dashboard_collected "2024-03"
      ⟨scenarioD.batches, scenarioD.students, [],
        [⟨1, 1, 10, "2024-03", 800, "paid", some 50⟩, ⟨2, 2, 10, "2024-03", 700, "paid", some 60⟩,
          ⟨3, 3, 10, "2024-03", 500, "unpaid", none⟩, ⟨4, 1, 10, "2024-02", 500, "paid", some 7⟩]⟩
      1).2.1.trans (by decide)⟩

/-- C18 fails as stated: for a batch with a monthly fee of 0 the field check of `addFee`
rejects every request, so the student `1`, who has no fee record for 2024-03, gets none:
generation reports 0 and the ledger stays empty. -/
theorem generateFees_zero_fee :
    Fees.findOne ([] : List Fee) 1 "2024-03" = none
    ∧ generateFeesForBatch 100 ⟨[⟨10, 0, 1⟩], [⟨1, 10, StudentStatus.active, 0, 0, 0⟩], [], []⟩ 1
        ⟨10, 0, 1⟩ "2024-03"
      = (some 0, ⟨[⟨10, 0, 1⟩], [⟨1, 10, StudentStatus.active, 0, 0, 0⟩], [], []⟩) := by
  decide

/-! ## `getStudents` -/

/-- C24 fails on the code: teacher `1` asking without a batch id gets every student, the
student `2` of teacher `2` included, and asking for batch `30`, which does not exist, gets
its orphaned student `3`; only a batch that exists and belongs to another teacher is
refused. -/
theorem getStudents_leaks :
    getStudents scenarioOrphan 1 none = StudentsResponse.ok scenarioOrphan.students
    ∧ ownsBatch scenarioOrphan 1 20 = false
    ∧ (⟨2, 20, StudentStatus.active, 0, 0, 0⟩ : Student) ∈ scenarioOrphan.students
    ∧ Batch.findById scenarioOrphan.batches 30 = none
    ∧ getStudents scenarioOrphan 1 (some 30)
      = StudentsResponse.ok [⟨3, 30, StudentStatus.active, 1, 1, 100⟩]
    ∧ getStudents scenarioOrphan 1 (some 20) = StudentsResponse.error ErrorKind.unauthorized := by
  refine ⟨rfl, by decide, by simp [scenarioOrphan], by decide, ?_, by decide⟩
  simp [getStudents, scenarioOrphan, Batch.findById]

/-! ## A record without counter update -/

/-- C25 fails on the code: in scenario A a `markAttendance` request with batch and date but
without `presentStudents` is answered with a server error after the record was created;
the record is in the store, no counter write was submitted and the students, all active,
still have a total of zero. -/
theorem markAttendance_record_without_counters :
    (markAttendance 0 scenarioA 1 (some 10) (some march1) none).response
      = Response.error ErrorKind.serverError
    ∧ (markAttendance 0 scenarioA 1 (some 10) (some march1) none).store.attendances
      = [⟨1, 10, 1709337599999, [], 1⟩]
    ∧ (markAttendance 0 scenarioA 1 (some 10) (some march1) none).writes = []
    ∧ (markAttendance 0 scenarioA 1 (some 10) (some march1) none).store.students
      = scenarioA.students
    ∧ (Student.find scenarioA.students 10).map Student.totalClasses = [0, 0, 0] := by
  refine ⟨by decide, by decide, by decide, ?_, by decide⟩
  rcases markAttendance_cases 0 scenarioA 1 10 march1 none with h | h | h
  · rw [h.1]
  · rw [h.2.2.2.2.2]
  · have := h.2.2.1
    simp [markBulkOps, scenarioA, Student.find] at this

/-! ## A batch that is gone -/

/-- C30 fails on the code: for the attendance record and the fee record of scenarioOrphan,
whose batch `30` does not exist, `updateAttendance` and `updateFee` are answered with a
server error, the `TypeError` of reading `createdBy` of `null`, and not with NotFound or
Unauthorized; nothing is written. -/
theorem update_dereferences_missing_batch :
    Batch.findById scenarioOrphan.batches 30 = none
    ∧ updateAttendance scenarioOrphan 1 1 (some [])
      = ⟨Response.error ErrorKind.serverError, [], scenarioOrphan⟩
    ∧ updateFee 100 scenarioOrphan 1 1 FeePatch.paid
      = ⟨FeeResponse.error ErrorKind.serverError, scenarioOrphan⟩ := by
  refine ⟨by decide, ?_, ?_⟩
  · unfold updateAttendance
    simp [scenarioOrphan, Attendance.findById, Batch.findById]
  · unfold updateFee
    simp [scenarioOrphan, Fees.findById, Batch.findById]

/-! ## `deleteBatch` -/

theorem deleteOne_eq_erase (l : List Batch) (batch : Batch)
    (h : Batch.findById l batch._id = some batch) :
    Batch.deleteOne batch._id l = l.erase batch := by
  unfold Batch.findById at h
  induction l with
  | nil => cases h
  | cons b rest ih =>
    unfold Batch.deleteOne
    by_cases hb : b._id = batch._id
    · rw [List.find?_cons, show decide (b._id = batch._id) = true by simpa using hb] at h
      cases h
      simp
    · rw [List.find?_cons, show decide (b._id = batch._id) = false by simpa using hb] at h
      have hne : ¬ b = batch := fun e => hb (by rw [e])
      rw [if_neg hb, List.erase_cons_tail (by simpa using hne), ih h]

theorem findById_batch_id (l : List Batch) (id : ObjectId) (b : Batch)
    (h : Batch.findById l id = some b) : b._id = id := by
  have := List.find?_some h
  simpa using this

/-- C26: a successful `deleteBatch` was sent by the owner of the batch with the id and
removes exactly that batch document, leaving every student, fee and attendance record,
those of the batch included, as it was; sent by anyone but the owner it is answered
Unauthorized and the store stays as it was. -/
theorem deleteBatch_spec (s : Store) (user id : ObjectId) :
    (∀ id2, (deleteBatch s user id).response = BatchResponse.deleted id2 →
        ∃ batch, Batch.findById s.batches id = some batch ∧ batch.createdBy = user ∧ id2 = id
          ∧ (deleteBatch s user id).store
            = ⟨s.batches.erase batch, s.students, s.attendances, s.fees⟩)
    ∧ (∀ batch, Batch.findById s.batches id = some batch → batch.createdBy = user →
        deleteBatch s user id
          = ⟨BatchResponse.deleted id,
              ⟨s.batches.erase batch, s.students, s.attendances, s.fees⟩⟩)
    ∧ (∀ batch, Batch.findById s.batches id = some batch → batch.createdBy ≠ user →
        deleteBatch s user id = ⟨BatchResponse.error ErrorKind.unauthorized, s⟩) := by
  have hown : ∀ batch, Batch.findById s.batches id = some batch → batch.createdBy = user →
      deleteBatch s user id
        = ⟨BatchResponse.deleted id,
            ⟨s.batches.erase batch, s.students, s.attendances, s.fees⟩⟩ := by
    intro batch hb ho
    have hid := findById_batch_id _ _ _ hb
    unfold deleteBatch
    simp only [hb, ho, ne_eq, not_true_eq_false, if_false]
    rw [deleteOne_eq_erase s.batches batch (by rw [hid]; exact hb)]
  have hnot : ∀ batch, Batch.findById s.batches id = some batch → batch.createdBy ≠ user →
      deleteBatch s user id = ⟨BatchResponse.error ErrorKind.unauthorized, s⟩ := by
    intro batch hb ho
    unfold deleteBatch
    simp only [hb, ho, ne_eq, not_false_eq_true, if_true]
  refine ⟨?_, hown, hnot⟩
  intro id2 hresp
  cases hb : Batch.findById s.batches id with
  | none =>
    unfold deleteBatch at hresp
    simp only [hb] at hresp
    cases hresp
  | some batch =>
    by_cases ho : batch.createdBy = user
    · rw [hown batch hb ho] at hresp ⊢
      cases hresp
      exact ⟨batch, rfl, ho, rfl, rfl⟩
    · rw [hnot batch hb ho] at hresp
      cases hresp

/-- In scenarioOrphan teacher `1` deletes batch `10`: the batch is gone, student `1` of the
batch and every other record stay; teacher `2` is refused. -/
theorem deleteBatch_spec_witness :
    deleteBatch scenarioOrphan 1 10
      = ⟨BatchResponse.deleted 10,
          ⟨[⟨20, 300, 2⟩], scenarioOrphan.students, scenarioOrphan.attendances,
            scenarioOrphan.fees⟩⟩
    ∧ deleteBatch scenarioOrphan 2 10
      = ⟨BatchResponse.error ErrorKind.unauthorized, scenarioOrphan⟩ :=
  ⟨((deleteBatch_spec scenarioOrphan 1 10).2.1 ⟨10, 500, 1⟩ (by decide) rfl).trans
      (by simp [scenarioOrphan]),
    (deleteBatch_spec scenarioOrphan 2 10).2.2 ⟨10, 500, 1⟩ (by decide) (by decide)⟩

/-! ## Day normalisation -/

theorem startOfDay_endOfDay (tz t : Int) : startOfDay tz (endOfDay tz t) = startOfDay tz t := by
  unfold endOfDay startOfDay setHours msPerDay
  omega

/-- C29: for every submitted timestamp `t`, the start of day is the local midnight of the
day of `t`, and the date `markAttendance` stores is the end of that day, 23:59:59.999.
Timestamps of the same day give the same stored date; normalising a stored date returns it
unchanged; the stored date lies in the range that `markAttendance` and
`checkAttendanceStatus` search, so the search finds a record of the day; and
`Attendance.create` for the batch and any timestamp of the day is rejected by the unique
index on `(batchId, date)` once such a record exists. -/
theorem day_normalisation (tz t : Int) :
    (startOfDay tz t ≤ t ∧ t < startOfDay tz t + msPerDay
      ∧ (startOfDay tz t + tz) % msPerDay = 0)
    ∧ endOfDay tz t = startOfDay tz t + (((23 * 60 + 59) * 60 + 59) * 1000 + 999)
    ∧ (∀ s user b ps r,
        (markAttendance tz s user (some b) (some t) ps).response = Response.created r →
        r.date = endOfDay tz t)
    ∧ (∀ t2, startOfDay tz t2 = startOfDay tz t → endOfDay tz t2 = endOfDay tz t)
    ∧ (startOfDay tz (endOfDay tz t) = startOfDay tz t
      ∧ endOfDay tz (endOfDay tz t) = endOfDay tz t)
    ∧ (startOfDay tz t ≤ endOfDay tz t ∧ endOfDay tz t ≤ endOfDay tz t)
    ∧ (∀ (attendances : List Attendance) (b : ObjectId) (r : Attendance) (t2 : Int),
        r ∈ attendances → r.batchId = b → r.date = endOfDay tz t →
        startOfDay tz t2 = startOfDay tz t →
        Attendance.findOne attendances b (startOfDay tz t2) (endOfDay tz t2) ≠ none
        ∧ ∀ ps user, Attendance.create attendances b (endOfDay tz t2) ps user = none) := by
  refine ⟨?_, ?_, ?_, ?_, ⟨startOfDay_endOfDay tz t, ?_⟩, ⟨startOfDay_le tz t, le_refl _⟩, ?_⟩
  · unfold startOfDay setHours msPerDay
    omega
  · rw [endOfDay_eq]; norm_num
  · intro s user b ps r hr
    rcases markAttendance_cases tz s user b t ps with h | h | h
    · exact absurd hr (h.2.2 r)
    · rw [h.2.2.2.1] at hr; cases hr
    · rw [h.2.2.2.1] at hr
      cases hr
      rfl
  · intro t2 h
    exact endOfDay_congr tz t2 t h
  · rw [endOfDay_eq tz (endOfDay tz t), startOfDay_endOfDay, ← endOfDay_eq]
  · intro attendances b r t2 hr hb hd hday
    have hend : endOfDay tz t2 = endOfDay tz t := endOfDay_congr tz t2 t hday
    constructor
    · intro hnone
      have := List.find?_eq_none.mp hnone r hr
      simp only [decide_eq_true_eq] at this
      apply this
      refine ⟨hb, ?_, ?_⟩
      · rw [hd, hday]; exact startOfDay_le tz t
      · rw [hd, hend]
    · intro ps user
      unfold Attendance.create
      rw [if_pos]
      exact List.any_eq_true.mpr ⟨r, hr, by simp [hb, hd, hend]⟩

/-! ## The counter invariant as a one-step property -/

/-- C27 fails as stated, in two ways. Every student of `scenarioListed` satisfies the
counter invariant, the `updateAttendance` request that empties the record succeeds, and it
leaves student `1` with `presentClasses = -1`. And the student of `scenarioQuarter`
satisfies the invariant with `(24, 6, 25)`, the `markAttendance` request with the student
present succeeds and stores `(25, 7, 7881299347898369 / 2 ^ 48)` (printed
`28.000000000000004`), which is not `100 * 7 / 25`. -/
theorem updateAttendance_breaks_invariant :
    ((∀ st ∈ scenarioListed.students, st.countersOk)
      ∧ (updateAttendance scenarioListed 1 1 (some [])).response.isSuccess = true
      ∧ (∃ st ∈ (updateAttendance scenarioListed 1 1 (some [])).store.students,
          st.presentClasses = -1 ∧ ¬ st.countersOk))
    ∧ ((∀ st ∈ scenarioQuarter.students, st.countersOk)
      ∧ (markAttendance 0 scenarioQuarter 1 (some 10) (some march1) (some [1])).response.isSuccess
          = true
      ∧ (∃ st ∈ (markAttendance 0 scenarioQuarter 1 (some 10) (some march1)
            (some [1])).store.students,
          st.totalClasses = 25 ∧ st.presentClasses = 7
          ∧ st.attendancePercentage = 7881299347898369 / 2 ^ 48 ∧ ¬ st.countersOk)) := by
  refine ⟨⟨?_, by decide, ?_⟩, ⟨?_, by decide, ?_⟩⟩
  · intro st hst
    simp only [scenarioListed, List.mem_singleton] at hst
    subst hst
    refine ⟨le_refl _, by decide, ?_⟩
    norm_num
  · have h : ∃ st ∈ (updateAttendance scenarioListed 1 1 (some [])).store.students,
        st.presentClasses = -1 := by
      have hm : ((updateAttendance scenarioListed 1 1 (some [])).store.students.map
          Student.presentClasses) = [-1] := by decide
      have hmem : (-1 : Int) ∈ ((updateAttendance scenarioListed 1 1 (some [])).store.students.map
          Student.presentClasses) := by rw [hm]; exact List.mem_singleton.mpr rfl
      obtain ⟨st, hst, hp⟩ := List.mem_map.mp hmem
      exact ⟨st, hst, hp⟩
    obtain ⟨st, hst, hp⟩ := h
    exact ⟨st, hst, hp, fun hok => by have := hok.1; rw [hp] at this; exact absurd this (by decide)⟩
  · intro st hst
    simp only [scenarioQuarter, List.mem_singleton] at hst
    subst hst
    refine ⟨by decide, by decide, ?_⟩
    norm_num
  · have h : Student.findById (markAttendance 0 scenarioQuarter 1 (some 10) (some march1)
          (some [1])).store.students 1
        = some ⟨1, 10, StudentStatus.active, 25, 7, mkRat 7881299347898369 (2 ^ 48)⟩ := by decide
    refine ⟨_, List.mem_of_find?_eq_some h, rfl, rfl, by norm_num [Rat.mkRat_eq_div], ?_⟩
    intro hok
    have := hok.2.2
    norm_num [Rat.mkRat_eq_div] at this

theorem countersStored_markOp (ps : List ObjectId) (st : Student) (h : st.countersStored) :
    ((markOp ps st).set st).countersStored := by
  obtain ⟨h0, hle, _⟩ := h
  unfold Student.countersStored
  simp only [markOp, UpdateOne.set, orZero_eq, Option.getD_some]
  refine ⟨?_, ?_, trivial⟩
  · split <;> omega
  · split <;> omega

theorem countersStored_updateOp (old new : List ObjectId) (st : Student)
    (h : st.countersStored)
    (hin : st._id ∈ old → 1 ≤ st.presentClasses)
    (hout : st._id ∉ old → st.presentClasses < st.totalClasses) :
    (match updateOp old new st with
      | some op => op.set st
      | none => st).countersStored := by
  rw [updateOp_set]
  obtain ⟨h0, hle, hpct⟩ := h
  unfold Student.countersStored
  by_cases hw : st._id ∈ old <;> by_cases hi : st._id ∈ new
  · simp only [hw, hi, not_true_eq_false, and_false, false_and, if_false]
    exact ⟨h0, hle, hpct⟩
  · simp only [hw, hi, not_false_eq_true, and_self, if_true]
    have := hin hw
    exact ⟨by omega, by omega, trivial⟩
  · simp only [hw, hi, not_false_eq_true, and_self, if_true, and_false, false_and, if_false]
    have := hout hw
    exact ⟨by omega, by omega, trivial⟩
  · simp only [hw, hi, not_false_eq_true, and_false, false_and, if_false]
    exact ⟨h0, hle, hpct⟩

/-- C27, as the code has it, for the invariant with the percentage the handlers store
(`0 ≤ presentClasses ≤ totalClasses` and `attendancePercentage` the double
`(presentClasses / totalClasses) * 100`, or 0 for a total of zero, which is within a
relative error of `2 ^ (-51)` of the exact `100 * presentClasses / totalClasses`): from any
store with unique student ids in which every student satisfies it, every successful
`markAttendance` request leaves a store in which every student satisfies it; a successful
`updateAttendance` request does so when the counters agree with the record it edits, in
that every active student of the batch listed in the record has `presentClasses ≥ 1` and
every one not listed has `presentClasses < totalClasses`. -/
theorem countersStored_preserved (tz : Int) (s : Store)
    (hids : (s.students.map Student._id).Nodup)
    (hok : ∀ st ∈ s.students, st.countersStored) :
    (∀ user batchId date ps,
        (markAttendance tz s user batchId date ps).response.isSuccess = true →
        ∀ st ∈ (markAttendance tz s user batchId date ps).store.students, st.countersStored)
    ∧ (∀ user id ps a,
        (updateAttendance s user id ps).response.isSuccess = true →
        Attendance.findById s.attendances id = some a →
        (∀ st ∈ s.students, st.batchId = a.batchId → st.status = StudentStatus.active →
          (st._id ∈ a.presentStudents → 1 ≤ st.presentClasses)
          ∧ (st._id ∉ a.presentStudents → st.presentClasses < st.totalClasses)) →
        ∀ st ∈ (updateAttendance s user id ps).store.students, st.countersStored)
    ∧ (∀ st : Student, st.countersStored → st.totalClasses ≠ 0 →
        |st.attendancePercentage - 100 * (st.presentClasses : ℚ) / (st.totalClasses : ℚ)|
          ≤ |100 * (st.presentClasses : ℚ) / (st.totalClasses : ℚ)| / 2 ^ 51) := by
  refine ⟨?_, ?_, ?_⟩
  · intro user batchId date ps hsucc
    cases batchId with
    | none => cases hsucc
    | some b =>
      cases date with
      | none => cases hsucc
      | some d =>
        rcases markAttendance_cases tz s user b d ps with h | h | h
        · rw [h.1]; exact hok
        · rw [h.2.2.2.1] at hsucc; cases hsucc
        · obtain ⟨_, _, hops, _, hstore⟩ := h
          rw [hstore]
          simp only
          rw [bulkWrite_mark s.students hids b ps _ hops]
          intro st2 hst2
          obtain ⟨st, hst, rfl⟩ := List.mem_map.mp hst2
          by_cases hp : st.batchId = b ∧ st.status = StudentStatus.active
          · rw [if_pos hp]; exact countersStored_markOp _ st (hok st hst)
          · rw [if_neg hp]; exact hok st hst
  · intro user id ps a hsucc ha hrec
    rcases updateAttendance_cases s user id ps with h | h | h
    · rw [h.1]; exact hok
    · obtain ⟨_, _, _, _, _, _, hresp, _⟩ := h
      rw [hresp] at hsucc; cases hsucc
    · obtain ⟨a2, batch, ha2, _, _, hops, _, hstore⟩ := h
      rw [ha] at ha2
      cases ha2
      rw [hstore]
      simp only
      rw [bulkWrite_update s.students hids a.batchId a.presentStudents ps _ hops]
      intro st2 hst2
      obtain ⟨st, hst, rfl⟩ := List.mem_map.mp hst2
      by_cases hp : st.batchId = a.batchId ∧ st.status = StudentStatus.active
      · rw [if_pos hp]
        exact countersStored_updateOp _ _ st (hok st hst) (hrec st hst hp.1 hp.2).1
          (hrec st hst hp.1 hp.2).2
      · rw [if_neg hp]; exact hok st hst
  · intro st hst ht
    rw [hst.2.2, if_neg ht]
    exact jsPercentage_err _ _ ht

theorem scenarioB_countersStored : ∀ st ∈ scenarioB.students, st.countersStored := by
  intro st hst
  simp only [scenarioB, List.mem_cons, List.mem_singleton, List.not_mem_nil, or_false] at hst
  rcases hst with rfl | rfl | rfl <;> exact ⟨by decide, by decide, by decide⟩

/-- Scenario B satisfies the invariant; marking the next day with student `3` present and
moving student `2` out of the record of 2024-03-01 both succeed and keep the invariant. -/
theorem countersStored_preserved_witness :
    (scenarioB.students.map Student._id).Nodup
    ∧ (∀ st ∈ scenarioB.students, st.countersStored)
    ∧ (markAttendance 0 scenarioB 1 (some 10) (some (march1 + msPerDay)) (some [3])).response.isSuccess
        = true
    ∧ (∀ st ∈ (markAttendance 0 scenarioB 1 (some 10) (some (march1 + msPerDay))
          (some [3])).store.students, st.countersStored)
    ∧ (updateAttendance scenarioB 1 1 (some [1])).response.isSuccess = true
    ∧ (∀ st ∈ (updateAttendance scenarioB 1 1 (some [1])).store.students, st.countersStored) :=
  ⟨by decide, scenarioB_countersStored, by decide,
    (countersStored_preserved 0 scenarioB (by decide) scenarioB_countersStored).1 1 (some 10)
      (some (march1 + msPerDay)) (some [3]) (by decide),
    by decide,
    (countersStored_preserved 0 scenarioB (by decide) scenarioB_countersStored).2.1 1 1 (some [1])
      ⟨1, 10, 1709337599999, [1, 2], 1⟩ (by decide) (by decide) (by decide)⟩

/-! ## The counters as a recomputation from the history -/

theorem countsInSync_mark (tz : Int) (s : Store) (user b : ObjectId) (d : Int)
    (ps : Option (List ObjectId)) (r : Attendance)
    (hids : (s.students.map Student._id).Nodup)
    (hsync : ∀ st ∈ s.students, st.countsInSync s.attendances)
    (hcreated : (markAttendance tz s user (some b) (some d) ps).response = Response.created r) :
    ∀ st ∈ (markAttendance tz s user (some b) (some d) ps).store.students,
      st.countsInSync (markAttendance tz s user (some b) (some d) ps).store.attendances := by
  rcases markAttendance_cases tz s user b d ps with h | h | h
  · exact absurd hcreated (h.2.2 r)
  · rw [h.2.2.2.1] at hcreated; cases hcreated
  · obtain ⟨_, _, hops, _, hstore⟩ := h
    rw [hstore]
    simp only
    rw [bulkWrite_mark s.students hids b ps _ hops]
    intro st2 hst2
    obtain ⟨st, hst, rfl⟩ := List.mem_map.mp hst2
    obtain ⟨hact, hinact⟩ := hsync st hst
    by_cases hp : st.batchId = b ∧ st.status = StudentStatus.active
    · rw [if_pos hp]
      obtain ⟨ht, hpr⟩ := hact hp.2
      refine ⟨fun _ => ?_, fun hi => ?_⟩
      · simp only [markOp, UpdateOne.set, orZero_eq, Option.getD_some, classesHeld,
          classesPresent, markRecord, List.countP_append, List.countP_cons, List.countP_nil]
        simp only [classesHeld, classesPresent] at ht hpr
        rw [ht, hpr]
        by_cases hm : st._id ∈ ps.getD [] <;> simp [hp.1, hm]
      · simp only [UpdateOne.set] at hi
        rw [hp.2] at hi; cases hi
    · rw [if_neg hp]
      refine ⟨fun ha => ?_, hinact⟩
      obtain ⟨ht, hpr⟩ := hact ha
      have hb : ¬ b = st.batchId := fun e => hp ⟨e.symm, ha⟩
      simp only [classesHeld, classesPresent, markRecord, List.countP_append, List.countP_cons,
        List.countP_nil] at ht hpr ⊢
      simp [ht, hpr, hb]

theorem countsInSync_update (s : Store) (user id : ObjectId) (ps : Option (List ObjectId))
    (r : Attendance)
    (hids : (s.students.map Student._id).Nodup)
    (hsync : ∀ st ∈ s.students, st.countsInSync s.attendances)
    (hupdated : (updateAttendance s user id ps).response = Response.updated r) :
    ∀ st ∈ (updateAttendance s user id ps).store.students,
      st.countsInSync (updateAttendance s user id ps).store.attendances := by
  rcases updateAttendance_cases s user id ps with h | h | h
  · exact absurd hupdated (h.2.2 r)
  · obtain ⟨_, _, _, _, _, _, hresp, _⟩ := h
    rw [hresp] at hupdated; cases hupdated
  · obtain ⟨a, batch, ha, _, _, hops, _, hstore⟩ := h
    rw [hstore]
    simp only
    rw [bulkWrite_update s.students hids a.batchId a.presentStudents ps _ hops]
    intro st2 hst2
    obtain ⟨st, hst, rfl⟩ := List.mem_map.mp hst2
    obtain ⟨hact, hinact⟩ := hsync st hst
    have hheld := save_countP (fun x => decide (x.batchId = st.batchId)) id ps s.attendances a ha
    have hpres := save_countP
      (fun x => decide (x.batchId = st.batchId ∧ st._id ∈ x.presentStudents)) id ps
      s.attendances a ha
    simp only at hheld hpres
    by_cases hp : st.batchId = a.batchId ∧ st.status = StudentStatus.active
    · rw [if_pos hp, updateOp_set]
      obtain ⟨ht, hpr⟩ := hact hp.2
      simp only [classesHeld, classesPresent] at ht hpr
      simp only [hp.1, true_and, decide_True, if_true, decide_eq_true_eq] at hheld hpres
      unfold Student.countsInSync
      simp only [classesHeld, classesPresent, hp.2, true_implies, hp.1]
      rw [hp.1] at ht hpr
      refine ⟨⟨by rw [ht]; congr 1; omega, ?_⟩, fun h => (by cases h)⟩
      by_cases hw : st._id ∈ a.presentStudents <;> by_cases hi : st._id ∈ ps.getD [] <;>
        simp only [hw, hi, if_true, if_false, not_true_eq_false, not_false_eq_true, and_self,
          and_true, and_false] at hpres ⊢ <;> omega
    · rw [if_neg hp]
      refine ⟨fun hact2 => ?_, hinact⟩
      obtain ⟨ht, hpr⟩ := hact hact2
      have hb : ¬ a.batchId = st.batchId := fun e => hp ⟨e.symm, hact2⟩
      simp only [hb, false_and, decide_False, if_false, Bool.false_eq_true, add_zero]
        at hheld hpres
      simp only [classesHeld, classesPresent] at ht hpr ⊢
      rw [hheld, hpres]
      exact ⟨ht, hpr⟩

theorem countsInSync_run (tz : Int) (s : Store) (c : Call)
    (hids : (s.students.map Student._id).Nodup)
    (hsync : ∀ st ∈ s.students, st.countsInSync s.attendances)
    (hsucc : (c.run tz s).response.isSuccess = true) :
    ∀ st ∈ (c.run tz s).store.students, st.countsInSync (c.run tz s).store.attendances := by
  cases c with
  | mark user batchId date ps =>
    change (markAttendance tz s user batchId date ps).response.isSuccess = true at hsucc
    show ∀ st ∈ (markAttendance tz s user batchId date ps).store.students,
      st.countsInSync (markAttendance tz s user batchId date ps).store.attendances
    cases batchId with
    | none => cases hsucc
    | some b =>
      cases date with
      | none => cases hsucc
      | some d =>
        rcases markAttendance_cases tz s user b d ps with h | h | h
        · rw [h.1]; exact hsync
        · rw [h.2.2.2.1] at hsucc; cases hsucc
        · exact countsInSync_mark tz s user b d ps _ hids hsync h.2.2.2.1
  | update user id ps =>
    change (updateAttendance s user id ps).response.isSuccess = true at hsucc
    show ∀ st ∈ (updateAttendance s user id ps).store.students,
      st.countsInSync (updateAttendance s user id ps).store.attendances
    rcases updateAttendance_cases s user id ps with h | h | h
    · rw [h.1]; exact hsync
    · obtain ⟨_, _, _, _, _, _, hresp, _⟩ := h
      rw [hresp] at hsucc; cases hsucc
    · obtain ⟨_, _, _, _, _, _, hresp, _⟩ := h
      exact countsInSync_update s user id ps _ hids hsync hresp

theorem countsInSync_runCalls (tz : Int) (calls : List Call) (s : Store)
    (hids : (s.students.map Student._id).Nodup)
    (hsync : ∀ st ∈ s.students, st.countsInSync s.attendances)
    (hsucc : allSucceed tz s calls = true) :
    ∀ st ∈ (runCalls tz s calls).students,
      st.countsInSync (runCalls tz s calls).attendances := by
  induction calls generalizing s with
  | nil => exact hsync
  | cons c cs ih =>
    simp only [allSucceed, Bool.and_eq_true] at hsucc
    exact ih (c.run tz s).store (by rw [run_students_ids]; exact hids)
      (countsInSync_run tz s c hids hsync hsucc.1) hsucc.2

theorem run_students_status (tz : Int) (s : Store) (c : Call)
    (hids : (s.students.map Student._id).Nodup)
    (hact : ∀ st ∈ s.students, st.status = StudentStatus.active) :
    ∀ st ∈ (c.run tz s).store.students, st.status = StudentStatus.active := by
  cases c with
  | mark user batchId date ps =>
    show ∀ st ∈ (markAttendance tz s user batchId date ps).store.students, _
    cases batchId with
    | none => exact hact
    | some b =>
      cases date with
      | none => exact hact
      | some d =>
        rcases markAttendance_cases tz s user b d ps with h | h | h
        · rw [h.1]; exact hact
        · rw [h.2.2.2.2.2]; exact hact
        · obtain ⟨_, _, hops, _, hstore⟩ := h
          rw [hstore]
          simp only
          rw [bulkWrite_mark s.students hids b ps _ hops]
          intro st2 hst2
          obtain ⟨st, hst, rfl⟩ := List.mem_map.mp hst2
          split
          · exact hact st hst
          · exact hact st hst
  | update user id ps =>
    show ∀ st ∈ (updateAttendance s user id ps).store.students, _
    rcases updateAttendance_cases s user id ps with h | h | h
    · rw [h.1]; exact hact
    · obtain ⟨_, _, _, _, _, _, _, _, hstore⟩ := h
      rw [hstore]; exact hact
    · obtain ⟨a, _, _, _, _, hops, _, hstore⟩ := h
      rw [hstore]
      simp only
      rw [bulkWrite_update s.students hids a.batchId a.presentStudents ps _ hops]
      intro st2 hst2
      obtain ⟨st, hst, rfl⟩ := List.mem_map.mp hst2
      split
      · rw [updateOp_set]; exact hact st hst
      · exact hact st hst

theorem runCalls_students_status (tz : Int) (calls : List Call) (s : Store)
    (hids : (s.students.map Student._id).Nodup)
    (hact : ∀ st ∈ s.students, st.status = StudentStatus.active) :
    ∀ st ∈ (runCalls tz s calls).students, st.status = StudentStatus.active := by
  induction calls generalizing s with
  | nil => exact hact
  | cons c cs ih =>
    exact ih (c.run tz s).store (by rw [run_students_ids]; exact hids)
      (run_students_status tz s c hids hact)

theorem runCalls_students_ids (tz : Int) (calls : List Call) (s : Store) :
    (runCalls tz s calls).students.map Student._id = s.students.map Student._id := by
  induction calls generalizing s with
  | nil => rfl
  | cons c cs ih => exact (ih (c.run tz s).store).trans (run_students_ids tz s c)

/-- C28: from a store with unique student ids in which every student is active with
`totalClasses = 0` and `presentClasses = 0` and there is no attendance record, after any
sequence of successful `markAttendance` and `updateAttendance` requests the students are
the same ones, all still active, and for each of them `totalClasses` is the number of
attendance records of the student's batch and `presentClasses` the number of those records
whose `presentStudents` contains the student's id. -/
theorem counters_recomputed (tz : Int) (s : Store) (calls : List Call)
    (hids : (s.students.map Student._id).Nodup)
    (hactive : ∀ st ∈ s.students, st.status = StudentStatus.active)
    (hzero : ∀ st ∈ s.students, st.totalClasses = 0 ∧ st.presentClasses = 0)
    (hempty : s.attendances = [])
    (hsucc : allSucceed tz s calls = true) :
    (runCalls tz s calls).students.map Student._id = s.students.map Student._id
    ∧ ∀ st ∈ (runCalls tz s calls).students,
        st.status = StudentStatus.active
        ∧ st.totalClasses = classesHeld (runCalls tz s calls).attendances st.batchId
        ∧ st.presentClasses
            = classesPresent (runCalls tz s calls).attendances st.batchId st._id := by
  refine ⟨runCalls_students_ids tz calls s, fun st hst => ?_⟩
  have hsync : ∀ x ∈ s.students, x.countsInSync s.attendances := by
    intro x hx
    obtain ⟨ht, hp⟩ := hzero x hx
    rw [hempty]
    refine ⟨fun _ => ?_, fun _ => ⟨ht, hp⟩⟩
    simp [classesHeld, classesPresent, ht, hp]
  have hst_active := runCalls_students_status tz calls s hids hactive st hst
  exact ⟨hst_active, (countsInSync_runCalls tz calls s hids hsync hsucc st hst).1 hst_active⟩

/-- Scenario A followed by scenario B and a second class: all three requests succeed and
the counters of the three students are the counts over the two records. -/
theorem counters_recomputed_witness :
    (scenarioA.students.map Student._id).Nodup
    ∧ (∀ st ∈ scenarioA.students, st.status = StudentStatus.active)
    ∧ (∀ st ∈ scenarioA.students, st.totalClasses = 0 ∧ st.presentClasses = 0)
    ∧ scenarioA.attendances = []
    ∧ allSucceed 0 scenarioA
        [Call.mark 1 (some 10) (some march1) (some [1, 2]), Call.update 1 1 (some [1]),
          Call.mark 1 (some 10) (some (march1 + msPerDay)) (some [3])] = true
    ∧ ((runCalls 0 scenarioA
          [Call.mark 1 (some 10) (some march1) (some [1, 2]), Call.update 1 1 (some [1]),
            Call.mark 1 (some 10) (some (march1 + msPerDay)) (some [3])]).students.map
          Student._id = scenarioA.students.map Student._id
      ∧ ∀ st ∈ (runCalls 0 scenarioA
          [Call.mark 1 (some 10) (some march1) (some [1, 2]), Call.update 1 1 (some [1]),
            Call.mark 1 (some 10) (some (march1 + msPerDay)) (some [3])]).students,
        st.status = StudentStatus.active
        ∧ st.totalClasses = classesHeld (runCalls 0 scenarioA
            [Call.mark 1 (some 10) (some march1) (some [1, 2]), Call.update 1 1 (some [1]),
              Call.mark 1 (some 10) (some (march1 + msPerDay)) (some [3])]).attendances
            st.batchId
        ∧ st.presentClasses = classesPresent (runCalls 0 scenarioA
            [Call.mark 1 (some 10) (some march1) (some [1, 2]), Call.update 1 1 (some [1]),
              Call.mark 1 (some 10) (some (march1 + msPerDay)) (some [3])]).attendances
            st.batchId st._id) :=
  ⟨by decide, by simp [scenarioA], by simp [scenarioA], rfl, by decide,
    counters_recomputed 0 scenarioA
      [Call.mark 1 (some 10) (some march1) (some [1, 2]), Call.update 1 1 (some [1]),
        Call.mark 1 (some 10) (some (march1 + msPerDay)) (some [3])]
      (by decide) (by simp [scenarioA]) (by simp [scenarioA]) rfl (by decide)⟩

/-! ## `getStudentDetails` -/

theorem getStudentDetails_ok (s : Store) (user id : ObjectId) (student : Student) (batch : Batch)
    (hst : Student.findById s.students id = some student)
    (hb : Batch.findById s.batches student.batchId = some batch)
    (hown : batch.createdBy = user) :
    getStudentDetails s user id
      = DetailsResponse.ok
          ⟨student, student.totalClasses, student.presentClasses,
            student.totalClasses - student.presentClasses,
            (Attendance.findRecent s.attendances student.batchId).map (historyEntry student),
            (feeTotals (Fees.findByStudent s.fees student._id)).1,
            (feeTotals (Fees.findByStudent s.fees student._id)).2,
            (feeTotals (Fees.findByStudent s.fees student._id)).1
              - (feeTotals (Fees.findByStudent s.fees student._id)).2,
            Fees.findByStudent s.fees student._id⟩ := by
  have hid : batch._id = student.batchId := findById_batch_id _ _ _ hb
  unfold getStudentDetails
  rw [hst]
  simp only
  rw [hb]
  simp only
  rw [hid, hb]
  simp only [ne_eq, hown, not_true_eq_false, if_false, orZero_eq]

/-- C21: for a student whose batch the acting teacher owns, `getStudentDetails` answers with
an `attendanceHistory` of at most 30 entries, made record by record from a list `recent` of
attendance records: `recent` together with a list `older` is a rearrangement of the records
of the student's batch, `recent` has 30 records or all of them, it is in descending date
order and no record of `older` is more recent than one of `recent`; every entry carries the
id and the date of its record and is `present` exactly when the student's id is a member of
the record's `presentStudents`, `absent` otherwise. -/
theorem details_history (s : Store) (user id : ObjectId) (student : Student) (batch : Batch)
    (hst : Student.findById s.students id = some student)
    (hb : Batch.findById s.batches student.batchId = some batch)
    (hown : batch.createdBy = user) :
    ∃ (details : StudentDetails) (recent older : List Attendance),
      getStudentDetails s user id = DetailsResponse.ok details
      ∧ details.attendanceHistory.length ≤ 30
      ∧ details.attendanceHistory = recent.map (historyEntry student)
      ∧ (recent ++ older).Perm (s.attendances.filter (fun a => a.batchId = student.batchId))
      ∧ recent.length
          = min 30 (s.attendances.filter (fun a => a.batchId = student.batchId)).length
      ∧ recent.Pairwise (fun a b => b.date ≤ a.date)
      ∧ details.attendanceHistory.Pairwise (fun x y => y.date ≤ x.date)
      ∧ (∀ a ∈ recent, ∀ b ∈ older, b.date ≤ a.date)
      ∧ (∀ r ∈ recent,
          (historyEntry student r)._id = r._id ∧ (historyEntry student r).date = r.date
          ∧ ((historyEntry student r).status = AttendanceStatus.present
              ↔ student._id ∈ r.presentStudents)
          ∧ ((historyEntry student r).status = AttendanceStatus.absent
              ↔ student._id ∉ r.presentStudents)) := by
  haveI : IsTotal Attendance (fun a b => b.date ≤ a.date) := ⟨fun a b => le_total b.date a.date⟩
  haveI : IsTrans Attendance (fun a b => b.date ≤ a.date) :=
    ⟨fun a b c hab hbc => le_trans hbc hab⟩
  have hsorted := List.sorted_insertionSort (fun a b : Attendance => b.date ≤ a.date)
    (s.attendances.filter (fun a => a.batchId = student.batchId))
  have hperm := List.perm_insertionSort (fun a b : Attendance => b.date ≤ a.date)
    (s.attendances.filter (fun a => a.batchId = student.batchId))
  rw [List.Sorted, ← List.take_append_drop 30
    ((s.attendances.filter (fun a => a.batchId = student.batchId)).insertionSort
      (fun a b => b.date ≤ a.date)), List.pairwise_append] at hsorted
  refine ⟨_, Attendance.findRecent s.attendances student.batchId,
    ((s.attendances.filter (fun a : Attendance => a.batchId = student.batchId)).insertionSort
      (fun a b : Attendance => b.date ≤ a.date)).drop 30,
    getStudentDetails_ok s user id student batch hst hb hown, ?_, rfl, ?_, ?_, hsorted.1, ?_,
    hsorted.2.2, ?_⟩
  · simp only [List.length_map, Attendance.findRecent, List.length_take]
    exact min_le_left _ _
  · unfold Attendance.findRecent
    rw [List.take_append_drop]
    exact hperm
  · simp only [Attendance.findRecent, List.length_take, List.length_insertionSort]
  · simp only
    rw [List.pairwise_map]
    exact hsorted.1
  · intro r _
    refine ⟨rfl, rfl, ?_, ?_⟩
    · unfold historyEntry
      by_cases hm : student._id ∈ r.presentStudents <;> simp [hm]
    · unfold historyEntry
      by_cases hm : student._id ∈ r.presentStudents <;> simp [hm]

/-- The profile of student `1` of `scenarioProfile`, asked for by teacher `1`. -/
theorem details_history_witness :
    Student.findById scenarioProfile.students 1 = some ⟨1, 10, StudentStatus.active, 2, 1, 50⟩
    ∧ Batch.findById scenarioProfile.batches 10 = some ⟨10, 500, 1⟩
    ∧ ∃ (details : StudentDetails) (recent older : List Attendance),
      getStudentDetails scenarioProfile 1 1 = DetailsResponse.ok details
      ∧ details.attendanceHistory.length ≤ 30
      ∧ details.attendanceHistory
          = recent.map (historyEntry ⟨1, 10, StudentStatus.active, 2, 1, 50⟩)
      ∧ (recent ++ older).Perm (scenarioProfile.attendances.filter (fun a => a.batchId = 10))
      ∧ recent.length = min 30 (scenarioProfile.attendances.filter (fun a => a.batchId = 10)).length
      ∧ recent.Pairwise (fun a b => b.date ≤ a.date)
      ∧ details.attendanceHistory.Pairwise (fun x y => y.date ≤ x.date)
      ∧ (∀ a ∈ recent, ∀ b ∈ older, b.date ≤ a.date)
      ∧ (∀ r ∈ recent,
          (historyEntry ⟨1, 10, StudentStatus.active, 2, 1, 50⟩ r)._id = r._id
          ∧ (historyEntry ⟨1, 10, StudentStatus.active, 2, 1, 50⟩ r).date = r.date
          ∧ ((historyEntry ⟨1, 10, StudentStatus.active, 2, 1, 50⟩ r).status
                = AttendanceStatus.present
              ↔ 1 ∈ r.presentStudents)
          ∧ ((historyEntry ⟨1, 10, StudentStatus.active, 2, 1, 50⟩ r).status
                = AttendanceStatus.absent
              ↔ 1 ∉ r.presentStudents)) :=
  ⟨rfl, rfl,
    details_history scenarioProfile 1 1 ⟨1, 10, StudentStatus.active, 2, 1, 50⟩ ⟨10, 500, 1⟩
      rfl rfl rfl⟩

theorem feeTotals_foldl (l : List Fee) (a b : Int) :
    l.foldl
        (fun acc fee =>
          (acc.1 + fee.amount, if fee.status = "paid" then acc.2 + fee.amount else acc.2))
        (a, b)
      = (a + (l.map Fee.amount).sum,
          b + ((l.filter (fun f => f.status = "paid")).map Fee.amount).sum) := by
  induction l generalizing a b with
  | nil => simp
  | cons f rest ih =>
    rw [List.foldl_cons, ih]
    by_cases hp : f.status = "paid"
    · simp [hp, add_assoc]
    · simp [hp, add_assoc]

theorem feeTotals_eq (l : List Fee) :
    feeTotals l
      = ((l.map Fee.amount).sum, ((l.filter (fun f => f.status = "paid")).map Fee.amount).sum) := by
  unfold feeTotals
  rw [feeTotals_foldl, zero_add, zero_add]

theorem sum_amount_split (l : List Fee) :
    (l.map Fee.amount).sum
      = ((l.filter (fun f => f.status = "paid")).map Fee.amount).sum
        + ((l.filter (fun f => f.status ≠ "paid")).map Fee.amount).sum := by
  induction l with
  | nil => simp
  | cons f rest ih =>
    by_cases hp : f.status = "paid"
    · simp only [List.map_cons, List.sum_cons, ih, hp, decide_True, List.filter_cons_of_pos,
        ne_eq, not_true_eq_false, decide_False, Bool.false_eq_true, not_false_eq_true,
        List.filter_cons_of_neg]
      omega
    · simp only [List.map_cons, List.sum_cons, ih, hp, decide_False, Bool.false_eq_true,
        not_false_eq_true, List.filter_cons_of_neg, ne_eq, decide_True, List.filter_cons_of_pos]
      omega

theorem findByStudent_perm (fees : List Fee) (studentId : ObjectId) :
    (Fees.findByStudent fees studentId).Perm (fees.filter (fun f => f.studentId = studentId)) :=
  List.perm_insertionSort _ _

/-- C22: for a student whose batch the acting teacher owns, `getStudentDetails` answers
with `fees.total` the sum of `amount` over all fee records of the student, `fees.paid` the
sum over those with status `paid` and `fees.remaining = total - paid`, which is the sum over
the records of the student that are not paid (those with status `unpaid`, when every record
of the student has a status of the schema); the attendance block has the stored
`totalClasses` and `presentClasses` and `absent = totalClasses - presentClasses`, and both
blocks stay the same whatever the attendance records of the store are. -/
theorem details_totals (s : Store) (user id : ObjectId) (student : Student) (batch : Batch)
    (hst : Student.findById s.students id = some student)
    (hb : Batch.findById s.batches student.batchId = some batch)
    (hown : batch.createdBy = user) :
    ∃ details : StudentDetails,
      getStudentDetails s user id = DetailsResponse.ok details
      ∧ details.feesTotal
          = ((s.fees.filter (fun f => f.studentId = student._id)).map Fee.amount).sum
      ∧ details.feesPaid
          = (((s.fees.filter (fun f => f.studentId = student._id)).filter
                (fun f => f.status = "paid")).map Fee.amount).sum
      ∧ details.feesRemaining = details.feesTotal - details.feesPaid
      ∧ details.feesRemaining
          = (((s.fees.filter (fun f => f.studentId = student._id)).filter
                (fun f => f.status ≠ "paid")).map Fee.amount).sum
      ∧ ((∀ f ∈ s.fees, f.studentId = student._id → f.status ∈ feeStatusEnum) →
          details.feesRemaining
            = (((s.fees.filter (fun f => f.studentId = student._id)).filter
                  (fun f => f.status = "unpaid")).map Fee.amount).sum)
      ∧ details.totalClasses = student.totalClasses
      ∧ details.present = student.presentClasses
      ∧ details.absent = student.totalClasses - student.presentClasses
      ∧ ∀ attendances : List Attendance,
          ∃ details2 : StudentDetails,
            getStudentDetails ⟨s.batches, s.students, attendances, s.fees⟩ user id
              = DetailsResponse.ok details2
            ∧ details2.totalClasses = details.totalClasses
            ∧ details2.present = details.present
            ∧ details2.absent = details.absent
            ∧ details2.feesTotal = details.feesTotal
            ∧ details2.feesPaid = details.feesPaid
            ∧ details2.feesRemaining = details.feesRemaining := by
  have hperm := findByStudent_perm s.fees student._id
  have htotal : (feeTotals (Fees.findByStudent s.fees student._id)).1
      = ((s.fees.filter (fun f => f.studentId = student._id)).map Fee.amount).sum := by
    rw [feeTotals_eq]
    exact (hperm.map Fee.amount).sum_eq
  have hpaid : (feeTotals (Fees.findByStudent s.fees student._id)).2
      = (((s.fees.filter (fun f => f.studentId = student._id)).filter
            (fun f => f.status = "paid")).map Fee.amount).sum := by
    rw [feeTotals_eq]
    exact ((hperm.filter _).map Fee.amount).sum_eq
  have hrem : (feeTotals (Fees.findByStudent s.fees student._id)).1
        - (feeTotals (Fees.findByStudent s.fees student._id)).2
      = (((s.fees.filter (fun f => f.studentId = student._id)).filter
            (fun f => f.status ≠ "paid")).map Fee.amount).sum := by
    rw [htotal, hpaid, sum_amount_split (s.fees.filter (fun f => f.studentId = student._id))]
    omega
  refine ⟨_, getStudentDetails_ok s user id student batch hst hb hown, htotal, hpaid, rfl, hrem,
    ?_, rfl, rfl, rfl, ?_⟩
  · intro henum
    simp only
    rw [hrem]
    congr 2
    apply List.filter_congr
    intro f hf
    obtain ⟨hmem, hsid⟩ := List.mem_filter.mp hf
    have hin := henum f hmem (by simpa using hsid)
    simp only [feeStatusEnum, List.mem_cons, List.mem_singleton, List.not_mem_nil, or_false]
      at hin
    rcases hin with h | h <;> simp [h]
  · intro attendances
    exact ⟨_, getStudentDetails_ok ⟨s.batches, s.students, attendances, s.fees⟩ user id student
      batch hst hb hown, rfl, rfl, rfl, rfl, rfl, rfl⟩

/-- The profile of student `1` of `scenarioProfile`: fees of 1000 in total, 500 paid and 500
remaining; two classes, one attended and one missed. -/
theorem details_totals_witness :
    Student.findById scenarioProfile.students 1 = some ⟨1, 10, StudentStatus.active, 2, 1, 50⟩
    ∧ Batch.findById scenarioProfile.batches 10 = some ⟨10, 500, 1⟩
    ∧ ∃ details : StudentDetails,
      getStudentDetails scenarioProfile 1 1 = DetailsResponse.ok details
      ∧ details.feesTotal = ((scenarioProfile.fees.filter (fun f => f.studentId = 1)).map
          Fee.amount).sum
      ∧ details.feesPaid
          = (((scenarioProfile.fees.filter (fun f => f.studentId = 1)).filter
                (fun f => f.status = "paid")).map Fee.amount).sum
      ∧ details.feesRemaining = details.feesTotal - details.feesPaid
      ∧ details.feesRemaining
          = (((scenarioProfile.fees.filter (fun f => f.studentId = 1)).filter
                (fun f => f.status ≠ "paid")).map Fee.amount).sum
      ∧ ((∀ f ∈ scenarioProfile.fees, f.studentId = 1 → f.status ∈ feeStatusEnum) →
          details.feesRemaining
            = (((scenarioProfile.fees.filter (fun f => f.studentId = 1)).filter
                  (fun f => f.status = "unpaid")).map Fee.amount).sum)
      ∧ details.totalClasses = 2
      ∧ details.present = 1
      ∧ details.absent = 2 - 1
      ∧ ∀ attendances : List Attendance,
          ∃ details2 : StudentDetails,
            getStudentDetails
                ⟨scenarioProfile.batches, scenarioProfile.students, attendances,
                  scenarioProfile.fees⟩ 1 1
              = DetailsResponse.ok details2
            ∧ details2.totalClasses = details.totalClasses
            ∧ details2.present = details.present
            ∧ details2.absent = details.absent
            ∧ details2.feesTotal = details.feesTotal
            ∧ details2.feesPaid = details.feesPaid
            ∧ details2.feesRemaining = details.feesRemaining :=
  ⟨rfl, rfl,
    details_totals scenarioProfile 1 1 ⟨1, 10, StudentStatus.active, 2, 1, 50⟩ ⟨10, 500, 1⟩
      rfl rfl rfl⟩

/-! ## Who writes the counters -/

/-- C23 fails as stated: in scenario B student `1` has `totalClasses = 1`; the
`updateStudent` request of the owner with the body `totalClasses: 5` succeeds and leaves the
student with `totalClasses = 5`. -/
theorem updateStudent_overwrites_counters :
    (Student.findById scenarioB.students 1).map Student.totalClasses = some 1
    ∧ (∃ st, (updateStudent scenarioB 1 1 ⟨none, none, some 5, none, none⟩).response
        = StudentResponse.ok st)
    ∧ (Student.findById
          (updateStudent scenarioB 1 1 ⟨none, none, some 5, none, none⟩).store.students 1).map
        Student.totalClasses = some 5 :=
  ⟨by decide, ⟨_, rfl⟩, by decide⟩

theorem findById_student_id (l : List Student) (id : ObjectId) (st : Student)
    (h : Student.findById l id = some st) : st._id = id := by
  have := List.find?_some h
  simpa using this

theorem replace_map {β : Type} (f : Student → β) (l : List Student) (id : ObjectId)
    (student st2 : Student) (h : Student.findById l id = some student) (hid : st2._id = id)
    (hf : f st2 = f student) : (Student.replace st2 l).map f = l.map f := by
  unfold Student.findById at h
  induction l with
  | nil => rfl
  | cons x rest ih =>
    unfold Student.replace
    by_cases hx : x._id = id
    · rw [List.find?_cons, show decide (x._id = id) = true by simpa using hx] at h
      cases h
      rw [if_pos (by rw [hid, hx])]
      simp [hf]
    · rw [List.find?_cons, show decide (x._id = id) = false by simpa using hx] at h
      rw [if_neg (by rw [hid]; exact hx)]
      simp only [List.map_cons, ih h]

theorem deleteOne_sublist (id : ObjectId) (l : List Student) :
    (Student.deleteOne id l).Sublist l := by
  induction l with
  | nil => exact List.Sublist.slnil
  | cons x rest ih =>
    unfold Student.deleteOne
    split
    · exact List.sublist_cons_self x rest
    · exact List.Sublist.cons₂ x ih

theorem addFee_students (now : Int) (s : Store) (user : ObjectId)
    (studentId batchId : Option ObjectId) (month : Option String) (amount : Option Int)
    (status : Option String) :
    (addFee now s user studentId batchId month amount status).store.students = s.students := by
  unfold addFee
  repeat' split
  all_goals rfl

theorem updateFee_students (now : Int) (s : Store) (user id : ObjectId) (body : FeePatch) :
    (updateFee now s user id body).store.students = s.students := by
  unfold updateFee
  repeat' split
  all_goals rfl

/-- C23, as the code has it: `updateStudent` with a body that names none of `totalClasses`,
`presentClasses` and `attendancePercentage` leaves the id and the three counters of every
student document as they were (a body that names one of them is written as submitted);
`addStudent` only appends a document, `deleteStudent` only removes documents, and
`setBatch`, `deleteBatch`, `addFee` and `updateFee` leave the student collection as it
was. -/
theorem counters_frame (s : Store) (user : ObjectId) :
    (∀ id body, body.totalClasses = none → body.presentClasses = none →
        body.attendancePercentage = none →
        (updateStudent s user id body).store.students.map (fun st => (st._id, st.counters))
          = s.students.map (fun st => (st._id, st.counters)))
    ∧ (∀ name phone batchId, ∃ added,
        (addStudent s user name phone batchId).store.students = s.students ++ added)
    ∧ (∀ id, (deleteStudent s user id).store.students.Sublist s.students)
    ∧ (∀ batchName classLevel timing monthlyFee,
        (setBatch s user batchName classLevel timing monthlyFee).store.students = s.students)
    ∧ (∀ id, (deleteBatch s user id).store.students = s.students)
    ∧ (∀ now studentId batchId month amount status,
        (addFee now s user studentId batchId month amount status).store.students = s.students)
    ∧ (∀ now id body, (updateFee now s user id body).store.students = s.students) := by
  refine ⟨?_, ?_, ?_, ?_, ?_, fun now => addFee_students now s user,
    fun now => updateFee_students now s user⟩
  · intro id body ht hp hpct
    unfold updateStudent
    split
    · rfl
    · rename_i student hst
      split
      · rfl
      · split
        · rfl
        · simp only
          apply replace_map _ s.students id student _ hst
          · exact findById_student_id _ _ student hst
          · simp [StudentPatch.apply, Student.counters, ht, hp, hpct]
  · intro name phone batchId
    unfold addStudent
    repeat' split
    all_goals first
      | exact ⟨[], (List.append_nil _).symm⟩
      | exact ⟨_, rfl⟩
  · intro id
    unfold deleteStudent
    repeat' split
    all_goals first
      | exact List.Sublist.refl _
      | exact deleteOne_sublist _ _
  · intro batchName classLevel timing monthlyFee
    unfold setBatch
    repeat' split
    all_goals rfl
  · intro id
    unfold deleteBatch
    repeat' split
    all_goals rfl

/-- In scenario B the owner sets student `2` inactive: the request succeeds and every
student keeps the id and the three counters. -/
theorem counters_frame_witness :
    (∃ st, (updateStudent scenarioB 1 2
          ⟨none, some StudentStatus.inactive, none, none, none⟩).response
        = StudentResponse.ok st)
    ∧ (updateStudent scenarioB 1 2
          ⟨none, some StudentStatus.inactive, none, none, none⟩).store.students.map
        (fun st => (st._id, st.counters))
      = scenarioB.students.map (fun st => (st._id, st.counters)) :=
  ⟨⟨_, rfl⟩,
    (counters_frame scenarioB 1).1 2 ⟨none, some StudentStatus.inactive, none, none, none⟩
      rfl rfl rfl⟩

end Teacher
